import Mathlib

/-! # SSH tunnel (`tunnel/tunnel.go`) : a shallow embedding

The Go package `tunnel` is embedded as follows.

* `config.Config` becomes the record `Config`.
* The operating system and the libraries `os`, `net`, `ssh` are an explicit
  environment `Env`; every external call that `NewSSHTunnel` makes is written
  to a call log, in order.
* `NewSSHTunnel`, `SSHTunnel.Close`, `SSHTunnel.GetLocalEndpoint` and
  `copyConn` are functions.
* `SSHTunnel.forward` and the goroutines it starts are a step function over a
  `Runtime` state: one accept loop, one handler per accepted connection and two
  copy goroutines per handler. The scheduler and the outcome of blocking calls
  (`Accept`, `Dial`, `io.Copy`) are the actions.

Go strings are Lean strings and are compared character by character;
`log.Printf` output is not modelled. `Close` runs as one step of the process.
-/

namespace Tunnel

/-! ## Strings -/

/-- Go `strings.HasPrefix` on character lists. -/
def hasPrefixList : List Char → List Char → Bool
  | _, [] => true
  | [], _ :: _ => false
  | c :: cs, p :: ps => c == p && hasPrefixList cs ps

/-- Go `strings.HasPrefix(s, p)`. -/
def stringsHasPrefix (s p : String) : Bool :=
  hasPrefixList s.data p.data

/-- Go `strings.Contains` on character lists: some suffix of the text starts with the pattern. -/
def containsList : List Char → List Char → Bool
  | [], p => hasPrefixList [] p
  | c :: cs, p => hasPrefixList (c :: cs) p || containsList cs p

/-- Go `strings.Contains(s, sub)`. -/
def stringsContains (s sub : String) : Bool :=
  containsList s.data sub.data

/-- Go `fmt.Sprintf("%s:%d", host, port)`. -/
def sprintfHostPort (host : String) (port : Int) : String :=
  host ++ ":" ++ toString port

/-- Go `fmt.Errorf(msg + ": %v", err)` : the message of the wrapped error. -/
def errorf (msg err : String) : String :=
  msg ++ ": " ++ err

/-! ## `path/filepath` (Unix) -/

/-- Split a character list at every `/`. -/
def splitSlash : List Char → List (List Char)
  | [] => [[]]
  | c :: cs =>
    match splitSlash cs with
    | [] => [[c]]
    | seg :: segs => if c == '/' then [] :: seg :: segs else (c :: seg) :: segs

/-- One element of a path, pushed on the stack of elements kept so far (the
stack is reversed: its head is the last element kept). `rooted` tells whether
the path starts with `/`. -/
def cleanPush (rooted : Bool) (stack : List (List Char)) (seg : List Char) : List (List Char) :=
  if seg == [] || seg == ['.'] then stack
  else if seg == ['.', '.'] then
    match stack with
    | [] => if rooted then [] else [seg]
    | top :: rest => if top == ['.', '.'] then seg :: top :: rest else rest
  else seg :: stack

/-- Go `filepath.Clean` on Unix: the shortest lexically equivalent path. -/
def filepathClean (path : String) : String :=
  if path.data == [] then "."
  else
    let rooted := hasPrefixList path.data ['/']
    let kept := ((splitSlash path.data).foldl (cleanPush rooted) []).reverse
    let body := String.intercalate "/" (kept.map String.mk)
    let out := if rooted then "/" ++ body else body
    if out.data == [] then "." else out

/-- Go `filepath.Join(a, b)` on Unix: empty elements are ignored, the rest is
joined with `/` and cleaned. -/
def filepathJoin (a b : String) : String :=
  if a.data != [] then filepathClean (a ++ "/" ++ b)
  else if b.data != [] then filepathClean b
  else ""

/-! ## Configuration (`config/config.go`) -/

/-- The `default` section of `config.Config`. -/
structure DefaultSection where
  SSHHost : String
  SSHPort : Int
  SSHUser : String
  SSHPrivateKey : String
  deriving DecidableEq, Repr

/-- The `database.ro-traffic` section of `config.Config`. -/
structure ROTrafficSection where
  Server : String
  Port : Int
  Username : String
  Password : String
  Database : String
  SSLMode : String
  deriving DecidableEq, Repr

/-- The `database` section of `config.Config`. -/
structure DatabaseSection where
  ROTraffic : ROTrafficSection
  deriving DecidableEq, Repr

/-- Go `config.Config`. -/
structure Config where
  Default : DefaultSection
  Database : DatabaseSection
  deriving DecidableEq, Repr

/-! ## The environment: `os`, `net` and `ssh` -/

/-- A byte of a file or of a stream. -/
abbrev Byte := UInt8

/-- A public host key, as presented by an SSH server. -/
abbrev HostKey := String

/-- The signing credential `ssh.ParsePrivateKey` returns. -/
abbrev Signer := String

/-- Go `ssh.AuthMethod`; the tunnel only uses `ssh.PublicKeys`. -/
inductive AuthMethod where
  | publicKeys (signer : Signer)
  deriving DecidableEq, Repr

/-- Go `ssh.HostKeyCallback`: called during the handshake with the server's
host name and key; a result other than `none` (Go `nil`) aborts the handshake. -/
abbrev HostKeyCallback := String → HostKey → Option String

/-- Go `ssh.InsecureIgnoreHostKey()`: accepts any host key. -/
def InsecureIgnoreHostKey : HostKeyCallback :=
  fun _ _ => none

/-- Go `ssh.FixedHostKey(key)`: accepts only the given host key. -/
def FixedHostKey (key : HostKey) : HostKeyCallback :=
  fun _ k => if k = key then none else some "ssh: host key mismatch"

/-- Go `ssh.ClientConfig`, the fields the tunnel sets. -/
structure ClientConfig where
  User : String
  Auth : List AuthMethod
  HostKeyCallback : HostKeyCallback

/-- The SSH server answering at an address. -/
structure Bastion where
  hostKey : HostKey
  authorized : String → Signer → Bool

/-- Go `*ssh.Client`: the transport to the bastion. -/
structure Client where
  addr : String
  closed : Bool
  deriving DecidableEq, Repr

/-- Go `*net.TCPListener`. `addr` is what `Addr().String()` returns. -/
structure Listener where
  addr : String
  closed : Bool
  deriving DecidableEq, Repr

/-- What the operating system and the network answer to the calls of
`NewSSHTunnel`. A failing call is `Except.error` with the error's message. -/
structure Env where
  /-- Go `os.UserHomeDir()`. -/
  userHomeDir : Except String String
  /-- Go `os.ReadFile(path)`. -/
  readFile : String → Except String (List Byte)
  /-- Go `ssh.ParsePrivateKey(key)`. -/
  parsePrivateKey : List Byte → Except String Signer
  /-- The TCP connection `ssh.Dial` opens: the server answering at the address. -/
  tcpConnect : String → Except String Bastion
  /-- Go `net.Listen("tcp", addr)`: the address bound, or the error. -/
  netListen : String → Except String String

/-- Go `ssh.Dial("tcp", addr, config)`: connect, check the host key with the
configuration's callback, then authenticate with the configuration's methods. -/
def sshDial (env : Env) (addr : String) (config : ClientConfig) : Except String Client :=
  match env.tcpConnect addr with
  | .error e => .error e
  | .ok server =>
    match config.HostKeyCallback addr server.hostKey with
    | some e => .error ("ssh: handshake failed: " ++ e)
    | none =>
      if config.Auth.any (fun m => match m with
          | .publicKeys s => server.authorized config.User s)
      then .ok { addr := addr, closed := false }
      else .error "ssh: handshake failed: ssh: unable to authenticate"

/-- An external call, with whether it succeeded. The call log lists them in
the order they were made. -/
inductive Call where
  | userHomeDir (ok : Bool)
  | readFile (path : String) (ok : Bool)
  | parsePrivateKey (ok : Bool)
  | sshDial (addr : String) (ok : Bool)
  | netListen (addr : String) (ok : Bool)
  | clientClose
  | listenerClose
  | goForward
  | clientDial (addr : String) (ok : Bool)
  deriving DecidableEq, Repr

/-! ## `SSHTunnel` -/

/-- Go `SSHTunnel`. The pointer fields `Local` and `client` may be nil (`none`). -/
structure SSHTunnel where
  Local : Option Listener
  Config : Config
  client : Option Client
  deriving DecidableEq, Repr

/-- What `NewSSHTunnel` returns, `(*SSHTunnel, error)`, and the external calls it made. -/
structure NewResult where
  tunnel : Option SSHTunnel
  err : Option String
  calls : List Call
  deriving DecidableEq, Repr

/-- The `ssh.ClientConfig` that `NewSSHTunnel` builds (lines 48-54). -/
def sshConfig (cfg : Config) (signer : Signer) : ClientConfig :=
  { User := cfg.Default.SSHUser
    Auth := [AuthMethod.publicKeys signer]
    HostKeyCallback := InsecureIgnoreHostKey }

/-- Lines 24-31 of `NewSSHTunnel`: a key path that starts with `~` is joined
to the home directory, without its first byte. -/
def expandKeyPath (env : Env) (keyPath : String) : Except String String × List Call :=
  if stringsHasPrefix keyPath "~" then
    match env.userHomeDir with
    | .error e => (.error (errorf "error getting home directory" e), [Call.userHomeDir false])
    | .ok homeDir =>
      (.ok (filepathJoin homeDir (String.mk (keyPath.data.drop 1))), [Call.userHomeDir true])
  else (.ok keyPath, [])

/-- Go `NewSSHTunnel(cfg)`. -/
def NewSSHTunnel (env : Env) (cfg : Config) : NewResult :=
  -- Expand the private key path if it contains ~
  match expandKeyPath env cfg.Default.SSHPrivateKey with
  | (.error e, calls) => { tunnel := none, err := some e, calls := calls }
  | (.ok keyPath, calls) =>
    -- Read the SSH key
    match env.readFile keyPath with
    | .error e =>
      { tunnel := none, err := some (errorf "unable to read private key" e)
        calls := calls ++ [Call.readFile keyPath false] }
    | .ok key =>
      let calls := calls ++ [Call.readFile keyPath true]
      -- Create the Signer for this private key
      match env.parsePrivateKey key with
      | .error e =>
        { tunnel := none, err := some (errorf "unable to parse private key" e)
          calls := calls ++ [Call.parsePrivateKey false] }
      | .ok signer =>
        let calls := calls ++ [Call.parsePrivateKey true]
        -- Connect to SSH server
        let addr := sprintfHostPort cfg.Default.SSHHost cfg.Default.SSHPort
        match sshDial env addr (sshConfig cfg signer) with
        | .error e =>
          { tunnel := none, err := some (errorf "unable to connect to SSH server" e)
            calls := calls ++ [Call.sshDial addr false] }
        | .ok client =>
          let calls := calls ++ [Call.sshDial addr true]
          -- Start local listener on port 5433
          match env.netListen "localhost:5433" with
          | .error e =>
            { tunnel := none, err := some (errorf "unable to start local listener" e)
              calls := calls ++ [Call.netListen "localhost:5433" false, Call.clientClose] }
          | .ok bound =>
            { tunnel := some { Local := some { addr := bound, closed := false }
                               Config := cfg
                               client := some client }
              err := none
              calls := calls ++ [Call.netListen "localhost:5433" true, Call.goForward] }

/-- Go `(*SSHTunnel).GetLocalEndpoint()`: `t.Local.Addr().String()`; a nil
`Local` is a nil dereference (`none`). -/
def SSHTunnel.GetLocalEndpoint (t : SSHTunnel) : Option String :=
  t.Local.map (fun l => l.addr)

/-- What one `Close` call returns and does: the tunnel afterwards, the error
returned (`none` is Go `nil`) and the external calls made, in order. -/
structure CloseResult where
  tunnel : SSHTunnel
  err : Option String
  calls : List Call
  deriving DecidableEq, Repr

/-- Go `(*SSHTunnel).Close()`: close the listener if there is one, then the
client if there is one; the errors of both are dropped. -/
def SSHTunnel.Close (t : SSHTunnel) : CloseResult :=
  let afterLocal : SSHTunnel × List Call :=
    match t.Local with
    | some l => ({ t with Local := some { l with closed := true } }, [Call.listenerClose])
    | none => (t, [])
  let afterClient : SSHTunnel × List Call :=
    match afterLocal.1.client with
    | some c => ({ afterLocal.1 with client := some { c with closed := true } },
        afterLocal.2 ++ [Call.clientClose])
    | none => afterLocal
  { tunnel := afterClient.1, err := none, calls := afterClient.2 }

/-! ## `copyConn` and `io.Copy` -/

/-- What one `Read` call of a reader returns: the bytes read and the error
(`none` is Go `nil`). -/
structure ReadResult where
  data : List Byte
  err : Option String
  deriving DecidableEq, Repr

/-- The message of Go `io.EOF`. -/
def EOF : String := "EOF"

/-- A reader (`net.Conn` read side): the results of its successive `Read`
calls; once the list is exhausted every `Read` returns `(0, io.EOF)`. -/
abbrev Reader := List ReadResult

/-- A writer (`net.Conn` write side): the bytes it has accepted so far, and
what each `Write` does: given the bytes accepted so far and the bytes offered,
the number written and the error. -/
structure Writer where
  received : List Byte
  write : List Byte → List Byte → Nat × Option String

/-- A writer whose `Write` never fails and always takes all the bytes offered. -/
def Writer.reliable (received : List Byte) : Writer :=
  { received := received, write := fun _ p => (p.length, none) }

/-- The `int64` that represents an integer: it wraps around to the range
`-2^63 .. 2^63 - 1`. -/
def toInt64 (n : Int) : Int :=
  (n + 2 ^ 63) % 2 ^ 64 - 2 ^ 63

/-- Go `int64` addition. -/
def addInt64 (a b : Int) : Int :=
  toInt64 (a + b)

/-- What `io.Copy` returns, `(written, err)`, and the writer afterwards. -/
structure CopyResult where
  writer : Writer
  written : Int
  err : Option String

/-- The loop of Go `io.Copy` (`io.copyBuffer`): read, write what was read,
stop at the first error; `io.EOF` from the reader is not reported as an error.
The shortcuts `io.Copy` takes when an end implements `io.WriterTo` or
`io.ReaderFrom` move the same bytes and are not modelled apart. -/
def ioCopyLoop (dst : Writer) (written : Int) : Reader → CopyResult
  | [] => { writer := dst, written := written, err := none }
  | r :: rest =>
    if 0 < r.data.length then
      let (nw0, ew0) := dst.write dst.received r.data
      let invalid := decide (r.data.length < nw0)
      let nw := if invalid then 0 else nw0
      let ew := if invalid && ew0.isNone then some "invalid write result" else ew0
      let dst1 : Writer := { dst with received := dst.received ++ r.data.take nw }
      let written1 := addInt64 written (Int.ofNat nw)
      match ew with
      | some e => { writer := dst1, written := written1, err := some e }
      | none =>
        if r.data.length ≠ nw then
          { writer := dst1, written := written1, err := some "short write" }
        else
          match r.err with
          | some e => { writer := dst1, written := written1
                        err := if e = EOF then none else some e }
          | none => ioCopyLoop dst1 written1 rest
    else
      match r.err with
      | some e => { writer := dst, written := written
                    err := if e = EOF then none else some e }
      | none => ioCopyLoop dst written rest

/-- Go `io.Copy(dst, src)`. -/
def ioCopy (dst : Writer) (src : Reader) : CopyResult :=
  ioCopyLoop dst 0 src

/-- Go `copyConn(writer, reader)`. -/
def copyConn (writer : Writer) (reader : Reader) : CopyResult :=
  ioCopy writer reader

/-! ## `forward` : the accept loop and its goroutines -/

/-- A `net.Conn` as the tunnel sees it: open until `Close` is called on it. -/
inductive SockState where
  | opened
  | closed
  deriving DecidableEq, Repr

/-- The channel `done`: nothing is ever sent on it, it is only closed. -/
inductive ChanState where
  | opened
  | closed
  deriving DecidableEq, Repr

/-- The two ends of a forwarded connection: the accepted socket `local` and
the channel `remote` dialled over the SSH client. -/
inductive Endpoint where
  | localConn
  | remoteConn
  deriving DecidableEq, Repr

/-- Where a copy goroutine is: inside `copyConn`, about to run its deferred
`close(done)`, or finished. -/
inductive TaskPc where
  | copying
  | closingDone
  | exited
  deriving DecidableEq, Repr

/-- A copy goroutine: the arguments of its `copyConn(writer, reader)` call and
where it is. -/
structure CopyTask where
  writer : Endpoint
  reader : Endpoint
  pc : TaskPc
  deriving DecidableEq, Repr

/-- The two copy goroutines of a handler: lines 120-126 and lines 128-134. -/
inductive TaskId where
  | first
  | second
  deriving DecidableEq, Repr

/-- Where a connection handler (lines 105-138) is: blocked in `Dial`, blocked
in `<-done`, about to run the deferred `remote.Close()`, about to run the
deferred `local.Close()`, or returned. -/
inductive HandlerPc where
  | dialing
  | waiting
  | closingRemote
  | closingLocal
  | returned
  deriving DecidableEq, Repr

/-- One accepted connection and its goroutines. `remote` and `done` are `none`
until `Dial` has succeeded; `copy1` and `copy2` are `none` until started. -/
structure Conn where
  localConn : SockState
  remote : Option SockState
  done : Option ChanState
  pc : HandlerPc
  copy1 : Option CopyTask
  copy2 : Option CopyTask
  deriving DecidableEq, Repr

/-- The handler goroutine just started for an accepted connection (line 105). -/
def Conn.accepted : Conn :=
  { localConn := .opened, remote := none, done := none, pc := .dialing
    copy1 := none, copy2 := none }

/-- Lines 109-134: `Dial` returns. On an error the handler returns, which
leaves its deferred `local.Close()` to run. Otherwise `remote.Close()` is
deferred, `done` is made and the two copy goroutines are started:
`copyConn(local, remote)` and `copyConn(remote, local)`. -/
def Conn.dial (c : Conn) (ok : Bool) : Option Conn :=
  if c.pc = .dialing then
    if ok then
      some { c with
        remote := some .opened
        done := some .opened
        copy1 := some { writer := .localConn, reader := .remoteConn, pc := .copying }
        copy2 := some { writer := .remoteConn, reader := .localConn, pc := .copying }
        pc := .waiting }
    else some { c with pc := .closingLocal }
  else none

/-- Line 137: `<-done` returns once `done` is closed. -/
def Conn.recvDone (c : Conn) : Option Conn :=
  if c.pc = .waiting ∧ c.done = some .closed then some { c with pc := .closingRemote }
  else none

/-- The deferred calls of the handler, last deferred first: `remote.Close()`,
then `local.Close()`, then the handler has returned. -/
def Conn.runDeferred (c : Conn) : Option Conn :=
  match c.pc with
  | .closingRemote =>
    some { c with remote := c.remote.map (fun _ => .closed), pc := .closingLocal }
  | .closingLocal => some { c with localConn := .closed, pc := .returned }
  | _ => none

/-- The copy goroutine `id` of a connection. -/
def Conn.task (c : Conn) : TaskId → Option CopyTask
  | .first => c.copy1
  | .second => c.copy2

/-- Replace the copy goroutine `id` of a connection. -/
def Conn.setTask (c : Conn) (id : TaskId) (t : CopyTask) : Conn :=
  match id with
  | .first => { c with copy1 := some t }
  | .second => { c with copy2 := some t }

/-- Lines 122 and 130: `copyConn` returns in the copy goroutine `id`. -/
def Conn.copyReturns (c : Conn) (id : TaskId) : Option Conn :=
  match c.task id with
  | some t => if t.pc = .copying then some (c.setTask id { t with pc := .closingDone }) else none
  | none => none

/-- The outcome of a step that may raise a Go run-time panic. -/
inductive Outcome (α : Type) where
  | next (a : α)
  | crash
  | blocked
  deriving DecidableEq, Repr

/-- Lines 121 and 129: the deferred `close(done)` of the copy goroutine `id`.
Closing a channel that is already closed is a run-time panic. -/
def Conn.closeDone (c : Conn) (id : TaskId) : Outcome Conn :=
  match c.task id with
  | some t =>
    if t.pc = .closingDone then
      match c.done with
      | some .opened => .next { c.setTask id { t with pc := .exited } with done := some .closed }
      | some .closed => .crash
      | none => .blocked
    else .blocked
  | none => .blocked

/-- Where the accept loop of `forward` is: not yet at the loop (line 87),
calling `Accept` (line 95), or returned (line 99). -/
inductive LoopPc where
  | starting
  | accepting
  | returned
  deriving DecidableEq, Repr

/-- The state of the process that runs a tunnel: the tunnel object, the local
variable `dbAddr` of `forward`, the accept loop, the handlers started so far
(in the order their connections were accepted), the external calls made so
far, and whether a run-time panic has terminated the process. -/
structure Runtime where
  tunnel : SSHTunnel
  dbAddr : Option String
  loop : LoopPc
  conns : List Conn
  calls : List Call
  crashed : Bool
  deriving DecidableEq, Repr

/-- The process right after `go tunnel.forward()` (line 80). -/
def Runtime.start (t : SSHTunnel) : Runtime :=
  { tunnel := t, dbAddr := none, loop := .starting, conns := [], calls := [], crashed := false }

/-- One thing that happens in the process: a goroutine takes its next step, or
a blocking call returns with the given outcome. `accept none` is an `Accept`
that returned a connection and `accept (some msg)` one that failed with the
error message `msg`; `dial i ok` is the `Dial` of handler `i` returning. -/
inductive Action where
  | forwardStart
  | accept (err : Option String)
  | dial (i : Nat) (ok : Bool)
  | copyReturns (i : Nat) (id : TaskId)
  | closeDone (i : Nat) (id : TaskId)
  | recvDone (i : Nat)
  | runDeferred (i : Nat)
  | close
  | setConfig (cfg : Config)
  deriving DecidableEq, Repr

/-- Lines 87-92 of `forward`: compute `dbAddr` from the configuration; the log
line dereferences `t.Local`, a run-time panic if it is nil. -/
def Runtime.forwardStart (rt : Runtime) : Option Runtime :=
  if rt.loop = .starting then
    match rt.tunnel.Local with
    | none => some { rt with crashed := true }
    | some _ =>
      some { rt with
        dbAddr := some (sprintfHostPort rt.tunnel.Config.Database.ROTraffic.Server
          rt.tunnel.Config.Database.ROTraffic.Port)
        loop := .accepting }
  else none

/-- Lines 95-105 of `forward`: one iteration of the accept loop, given what
`Accept` returned. -/
def Runtime.accept (rt : Runtime) (err : Option String) : Option Runtime :=
  if rt.loop = .accepting then
    match err with
    | some msg =>
      if stringsContains msg "use of closed network connection" then
        some { rt with loop := .returned }
      else some rt
    | none => some { rt with conns := rt.conns ++ [Conn.accepted] }
  else none

/-- Line 109 in handler `i`: `t.client.Dial("tcp", dbAddr)` returns; a nil
`t.client` is a run-time panic. -/
def Runtime.dial (rt : Runtime) (i : Nat) (ok : Bool) : Option Runtime :=
  match rt.conns[i]?, rt.dbAddr with
  | some c, some addr =>
    match c.dial ok with
    | none => none
    | some c1 =>
      match rt.tunnel.client with
      | none => some { rt with crashed := true }
      | some _ =>
        some { rt with conns := rt.conns.set i c1, calls := rt.calls ++ [Call.clientDial addr ok] }
  | _, _ => none

/-- A step of handler `i` or of one of its copy goroutines that cannot panic. -/
def Runtime.onConn (rt : Runtime) (i : Nat) (f : Conn → Option Conn) : Option Runtime :=
  match rt.conns[i]? with
  | some c =>
    match f c with
    | some c1 => some { rt with conns := rt.conns.set i c1 }
    | none => none
  | none => none

/-- The deferred `close(done)` of copy goroutine `id` of handler `i`; the
panic of a second `close` terminates the process. -/
def Runtime.closeDone (rt : Runtime) (i : Nat) (id : TaskId) : Option Runtime :=
  match rt.conns[i]? with
  | some c =>
    match c.closeDone id with
    | .next c1 => some { rt with conns := rt.conns.set i c1 }
    | .crash => some { rt with crashed := true }
    | .blocked => none
  | none => none

/-- A call of `t.Close()` by some goroutine of the process, from entry to return. -/
def Runtime.close (rt : Runtime) : Runtime :=
  let r := rt.tunnel.Close
  { rt with tunnel := r.tunnel, calls := rt.calls ++ r.calls }

/-- One step of the process; `none` when the action cannot happen in this
state. Nothing happens after a run-time panic. -/
def step (rt : Runtime) (a : Action) : Option Runtime :=
  if rt.crashed then none
  else
    match a with
    | .forwardStart => rt.forwardStart
    | .accept err => rt.accept err
    | .dial i ok => rt.dial i ok
    | .copyReturns i id => rt.onConn i (fun c => c.copyReturns id)
    | .closeDone i id => rt.closeDone i id
    | .recvDone i => rt.onConn i Conn.recvDone
    | .runDeferred i => rt.onConn i Conn.runDeferred
    | .close => some rt.close
    | .setConfig cfg => some { rt with tunnel := { rt.tunnel with Config := cfg } }

/-- Run a schedule: the actions one after the other; `none` if one of them
cannot happen. -/
def run (rt : Runtime) : List Action → Option Runtime
  | [] => some rt
  | a :: rest =>
    match step rt a with
    | some rt1 => run rt1 rest
    | none => none

/-- The states a tunnel's process can reach from `Runtime.start t`. -/
def Reachable (t : SSHTunnel) (rt : Runtime) : Prop :=
  ∃ schedule : List Action, run (Runtime.start t) schedule = some rt

/-! ## Invariants of the process -/

/-- The states the goroutines of one connection can be in: either no remote
channel was opened (the handler is dialling, or its dial failed), or the
connection is forwarded by two copy goroutines of which at most one has closed
`done`. -/
def Conn.wf (c : Conn) : Prop :=
  match c.remote, c.done, c.copy1, c.copy2 with
  | none, none, none, none =>
    (c.pc = .dialing ∧ c.localConn = .opened) ∨ (c.pc = .closingLocal ∧ c.localConn = .opened)
      ∨ (c.pc = .returned ∧ c.localConn = .closed)
  | some r, some d, some t1, some t2 =>
    t1.writer = .localConn ∧ t1.reader = .remoteConn
    ∧ t2.writer = .remoteConn ∧ t2.reader = .localConn
    ∧ (d = .opened → c.pc = .waiting ∧ t1.pc ≠ .exited ∧ t2.pc ≠ .exited)
    ∧ (d = .closed → (t1.pc = .exited ∧ t2.pc ≠ .exited) ∨ (t1.pc ≠ .exited ∧ t2.pc = .exited))
    ∧ (((c.pc = .waiting ∨ c.pc = .closingRemote) ∧ c.localConn = .opened ∧ r = .opened)
       ∨ (c.pc = .closingLocal ∧ c.localConn = .opened ∧ r = .closed)
       ∨ (c.pc = .returned ∧ c.localConn = .closed ∧ r = .closed))
  | _, _, _, _ => False

/-- The invariant of the process of a tunnel `t`: every connection is in one
of the states of `Conn.wf`, no connection exists before the accept loop runs,
`dbAddr` is set once the loop runs, and the tunnel keeps the listener and the
client it was built with. -/
def Runtime.wf (t : SSHTunnel) (rt : Runtime) : Prop :=
  (∀ c ∈ rt.conns, c.wf)
  ∧ (rt.loop = .starting → rt.conns = [])
  ∧ (rt.loop ≠ .starting → rt.dbAddr ≠ none)
  ∧ rt.tunnel.Local.isSome = t.Local.isSome
  ∧ rt.tunnel.client.isSome = t.client.isSome

/-! ## Sample data and measures of a call log -/

/-- A sample configuration. -/
def sampleConfig : Config :=
  { Default := { SSHHost := "bastion.example", SSHPort := 22, SSHUser := "alice"
                 SSHPrivateKey := "~/.ssh/id_rsa" }
    Database := { ROTraffic := { Server := "db.internal", Port := 5432, Username := "ro"
                                 Password := "pw", Database := "traffic", SSLMode := "disable" } } }

/-- A sample tunnel, as `NewSSHTunnel` builds it. -/
def sampleTunnel : SSHTunnel :=
  { Local := some { addr := "127.0.0.1:5433", closed := false }
    Config := sampleConfig
    client := some { addr := "bastion.example:22", closed := false } }

/-- A forwarded connection right after its `Dial` succeeded. -/
def Conn.forwarded : Conn :=
  { localConn := .opened, remote := some .opened, done := some .opened, pc := .waiting
    copy1 := some { writer := .localConn, reader := .remoteConn, pc := .copying }
    copy2 := some { writer := .remoteConn, reader := .localConn, pc := .copying } }

/-- A connection whose `Dial` failed, after its handler returned. -/
def Conn.dialFailed : Conn :=
  { localConn := .closed, remote := none, done := none, pc := .returned
    copy1 := none, copy2 := none }

/-- A schedule in which one connection is accepted and forwarded, the copy from
the local socket to the remote channel ends first and closes `done`, the
handler closes both ends and returns, and then the other copy ends. -/
def sampleSchedule : List Action :=
  [.forwardStart, .accept none, .dial 0 true, .copyReturns 0 .second, .closeDone 0 .second,
   .recvDone 0, .runDeferred 0, .runDeferred 0, .copyReturns 0 .first]

/-- A forwarded connection whose second copy goroutine has finished and
closed `done`, the handler still waiting. -/
def sampleConnDoneClosed : Conn :=
  { localConn := .opened, remote := some .opened, done := some .closed, pc := .waiting
    copy1 := some { writer := .localConn, reader := .remoteConn, pc := .copying }
    copy2 := some { writer := .remoteConn, reader := .localConn, pc := .exited } }

/-- The process of `sampleTunnel` after one connection was accepted and
forwarded and its second copy goroutine finished and closed `done`. -/
def sampleDoneClosed : Runtime :=
  { tunnel := sampleTunnel, dbAddr := some "db.internal:5432", loop := .accepting
    conns := [sampleConnDoneClosed]
    calls := [Call.clientDial "db.internal:5432" true], crashed := false }

/-- The process of `sampleTunnel` after two connections were accepted, the
first of them forwarded. -/
def sampleTwoConns : Runtime :=
  { tunnel := sampleTunnel, dbAddr := some "db.internal:5432", loop := .accepting
    conns := [Conn.forwarded, Conn.accepted]
    calls := [Call.clientDial "db.internal:5432" true], crashed := false }

/-- A reader that yields the given chunks, one per `Read`, without error. -/
def Reader.ofChunks (chunks : List (List Byte)) : Reader :=
  chunks.map (fun d => { data := d, err := none })

/-- An environment in which every call succeeds; the system resolves
`localhost:5433` to `127.0.0.1:5433`, and the bastion presents the host key
`rogue-key`. -/
def permissiveEnv : Env :=
  { userHomeDir := .ok "/home/alice"
    readFile := fun _ => .ok [1, 2, 3]
    parsePrivateKey := fun _ => .ok "alice-key"
    tcpConnect := fun _ => .ok { hostKey := "rogue-key", authorized := fun _ _ => true }
    netListen := fun a => if a = "localhost:5433" then .ok "127.0.0.1:5433" else .ok a }

/-- The host key the user knows for the bastion. -/
def knownHostKey : HostKey := "bastion-key"

/-- A configuration that differs from `sampleConfig` in every field. -/
def otherConfig : Config :=
  { Default := { SSHHost := "jump.other", SSHPort := 2222, SSHUser := "bob"
                 SSHPrivateKey := "/etc/keys/other" }
    Database := { ROTraffic := { Server := "pg.other", Port := 6543, Username := "rw"
                                 Password := "secret", Database := "sales", SSLMode := "require" } } }

/-- The environment with other host keys: the server at address `a` presents `keys a`. -/
def Env.withHostKeys (env : Env) (keys : String → HostKey) : Env :=
  { env with
    tcpConnect := fun a =>
      match env.tcpConnect a with
      | .ok b => .ok { b with hostKey := keys a }
      | .error e => .error e }

/-- Whether a logged call failed. -/
def Call.failed : Call → Bool
  | .userHomeDir ok => !ok
  | .readFile _ ok => !ok
  | .parsePrivateKey ok => !ok
  | .sshDial _ ok => !ok
  | .netListen _ ok => !ok
  | .clientDial _ ok => !ok
  | _ => false

/-- Whether a logged call closes a resource. -/
def Call.closes : Call → Bool
  | .clientClose => true
  | .listenerClose => true
  | _ => false

/-- After the first failed call of a log only calls that close a resource follow. -/
def stopsAtFailure : List Call → Bool
  | [] => true
  | c :: rest => if c.failed then rest.all Call.closes else stopsAtFailure rest

/-- The number of SSH clients a call log leaves open: opened by a successful
`ssh.Dial` and not closed since. -/
def openClients (calls : List Call) : Nat :=
  calls.foldl (fun n c => match c with
    | .sshDial _ true => n + 1
    | .clientClose => n - 1
    | _ => n) 0

/-- The number of listeners a call log leaves open: bound by a successful
`net.Listen` and not closed since. -/
def openListeners (calls : List Call) : Nat :=
  calls.foldl (fun n c => match c with
    | .netListen _ true => n + 1
    | .listenerClose => n - 1
    | _ => n) 0

/-- The process of `sampleTunnel` while its accept loop runs, no connection accepted yet. -/
def sampleAccepting : Runtime :=
  { tunnel := sampleTunnel, dbAddr := some "db.internal:5432", loop := .accepting
    conns := [], calls := [], crashed := false }

/-- The client configuration of `NewSSHTunnel` with its host-key callback
replaced by one that verifies the key the user knows. -/
def verifyingConfig (cfg : Config) (signer : Signer) (known : HostKey) : ClientConfig :=
  { sshConfig cfg signer with HostKeyCallback := FixedHostKey known }

/-- Whether a call succeeded. -/
def succeeded {α : Type} : Except String α → Bool
  | .ok _ => true
  | .error _ => false

/-- An environment in which port 5433 is taken: every call succeeds but `net.Listen`. -/
def busyPortEnv : Env :=
  { permissiveEnv with netListen := fun _ => .error "bind: address already in use" }

/-- Whether a logged call is a `Dial` on the SSH client made by a handler. -/
def Call.isDial : Call → Bool
  | .clientDial _ _ => true
  | _ => false

/-- The number of remote dials a call log holds. -/
def dialCount (calls : List Call) : Nat :=
  calls.countP Call.isDial

/-- Whether a handler has not yet made its `Dial` call. -/
def Conn.isDialing (c : Conn) : Bool :=
  decide (c.pc = .dialing)

/-- The number of handlers that have not yet made their `Dial` call. -/
def countDialing (conns : List Conn) : Nat :=
  conns.countP Conn.isDialing

/-- Whether an action is an `Accept` that returned a connection. -/
def Action.isAccepted : Action → Bool
  | .accept none => true
  | _ => false

/-- The number of connections `Accept` returns in a schedule. -/
def acceptCount (schedule : List Action) : Nat :=
  schedule.countP Action.isAccepted

/-- The handler an action belongs to: the index of its connection. -/
def Action.conn : Action → Option Nat
  | .dial i _ => some i
  | .copyReturns i _ => some i
  | .closeDone i _ => some i
  | .recvDone i => some i
  | .runDeferred i => some i
  | _ => none

/-- A schedule in which two connections are accepted, the first one's dial
fails and the second one's dial succeeds, with a failing `Accept` in between. -/
def sampleDialSchedule : List Action :=
  [.forwardStart, .accept none, .accept (some "accept tcp: too many open files"),
   .accept none, .dial 0 false, .dial 1 true]

/-- The process of `sampleTunnel` after `sampleDialSchedule`. -/
def sampleDialed : Runtime :=
  { tunnel := sampleTunnel, dbAddr := some "db.internal:5432", loop := .accepting
    conns := [{ Conn.accepted with pc := .closingLocal }, Conn.forwarded]
    calls := [Call.clientDial "db.internal:5432" false, Call.clientDial "db.internal:5432" true]
    crashed := false }

/-- A schedule in which a connection is accepted, `Close` is called and
returns, and then the handler of the connection calls `Dial`. -/
def sampleCloseSchedule : List Action :=
  [.forwardStart, .accept none, .close, .dial 0 false]

/-- A schedule in which the caller changes the configuration record right
after `NewSSHTunnel` returned, before the `forward` goroutine has run. -/
def sampleRaceSchedule : List Action :=
  [.setConfig otherConfig, .forwardStart, .accept none, .dial 0 true]

/-- The address-related invariant of the process: `dbAddr` is unset before the
accept loop runs, and every dial made so far went to `dbAddr`. -/
def Runtime.addrInv (rt : Runtime) : Prop :=
  (rt.loop = .starting → rt.dbAddr = none)
  ∧ (∀ (a : String) (ok : Bool), Call.clientDial a ok ∈ rt.calls → rt.dbAddr = some a)

/-- Whether an action changes the configuration record. -/
def Action.isSetConfig : Action → Bool
  | .setConfig _ => true
  | _ => false

/-- A schedule in which the configuration record is changed after `forward`
has started. -/
def sampleLateChange : List Action :=
  [.accept none, .setConfig otherConfig, .dial 0 true]

/-- A forwarded connection after one copy ended and its handler closed both
ends and returned. -/
def Conn.finished : Conn :=
  { localConn := .closed, remote := some .closed, done := some .closed, pc := .returned
    copy1 := some { writer := .localConn, reader := .remoteConn, pc := .copying }
    copy2 := some { writer := .remoteConn, reader := .localConn, pc := .exited } }

/-- The steps that forward connection `j` from its dial to the return of its
handler, the copy from the local socket ending first. -/
def forwardSteps (j : Nat) : List Action :=
  [.dial j true, .copyReturns j .second, .closeDone j .second, .recvDone j,
   .runDeferred j, .runDeferred j]

/-- The process of `sampleTunnel` with three accepted connections whose
handlers have not run yet. -/
def sampleThreeConns : Runtime :=
  { tunnel := sampleTunnel, dbAddr := some "db.internal:5432", loop := .accepting
    conns := [Conn.accepted, Conn.accepted, Conn.accepted], calls := [], crashed := false }

/-- A configuration whose key path holds `~` but not as its first byte. -/
def tildeInsideConfig : Config :=
  { sampleConfig with
    Default := { sampleConfig.Default with SSHPrivateKey := "/keys/~alice/id_rsa" } }

/-- The environment `permissiveEnv` with another home directory. -/
def otherHomeEnv : Env :=
  { permissiveEnv with userHomeDir := .ok "/root" }

/-- A schedule in which one connection is accepted and forwarded and both its
copies end before the handler runs again: the first copy goroutine closes
`done`, then the second one closes it a second time. -/
def samplePanicSchedule : List Action :=
  [.forwardStart, .accept none, .dial 0 true, .copyReturns 0 .first, .copyReturns 0 .second,
   .closeDone 0 .first, .closeDone 0 .second]

/-- A forwarded connection whose handler is still in `<-done` with both ends
open, whose first copy goroutine has finished and closed `done` and whose
second copy goroutine is at its deferred `close(done)`. -/
def sampleConnBothEnded : Conn :=
  { localConn := .opened, remote := some .opened, done := some .closed, pc := .waiting
    copy1 := some { writer := .localConn, reader := .remoteConn, pc := .exited }
    copy2 := some { writer := .remoteConn, reader := .localConn, pc := .closingDone } }

/-- The process of `sampleTunnel` after `samplePanicSchedule`: terminated by
the panic of the second `close(done)`. -/
def samplePanicked : Runtime :=
  { tunnel := sampleTunnel, dbAddr := some "db.internal:5432", loop := .accepting
    conns := [sampleConnBothEnded]
    calls := [Call.clientDial "db.internal:5432" true], crashed := true }

/-- A schedule in which two connections are accepted; the first is forwarded,
both its copies end and its first copy goroutine closes `done`; the dial of
the second has not returned yet. -/
def sampleSiblingSchedule : List Action :=
  [.forwardStart, .accept none, .accept none, .dial 0 true, .copyReturns 0 .first,
   .copyReturns 0 .second, .closeDone 0 .first]

/-- The process of `sampleTunnel` after `sampleSiblingSchedule`. -/
def sampleSibling : Runtime :=
  { tunnel := sampleTunnel, dbAddr := some "db.internal:5432", loop := .accepting
    conns := [sampleConnBothEnded, Conn.accepted]
    calls := [Call.clientDial "db.internal:5432" true], crashed := false }

end Tunnel

/-! # The query service (`mcp/service.go`) : a shallow embedding

`HandleQuery` and the methods it calls are functions. The database is an
explicit value `DB` that answers `Query`; a reply is the pair
`(*QueryResponse, error)` or a run-time panic.
-/

namespace Mcp

open Tunnel

/-! ## Strings (`strings`, `unicode`) -/

/-- Go `unicode.ToLower` on the runes above U+007F: a table of the Unicode
standard, taken as given. -/
abbrev CaseTable := Char → Char

/-- Go `unicode.ToLower`: `A`..`Z` become `a`..`z`, the other ASCII runes are
kept, the runes above U+007F follow the Unicode table. -/
def toLowerRune (u : CaseTable) (c : Char) : Char :=
  if c.toNat < 128 then
    if 65 ≤ c.toNat ∧ c.toNat ≤ 90 then Char.ofNat (c.toNat + 32) else c
  else u c

/-- Go `strings.ToLower(s)`. -/
def stringsToLower (u : CaseTable) (s : String) : String :=
  String.mk (s.data.map (toLowerRune u))

/-- Go `unicode.IsSpace`. -/
def unicodeIsSpace (c : Char) : Bool :=
  let n := c.toNat
  n == 9 || n == 10 || n == 11 || n == 12 || n == 13 || n == 32 || n == 0x85 || n == 0xA0
    || n == 0x1680 || (0x2000 ≤ n && n ≤ 0x200A) || n == 0x2028 || n == 0x2029
    || n == 0x202F || n == 0x205F || n == 0x3000

/-- Go `strings.TrimSpace(s)`: `s` without leading and trailing white space. -/
def stringsTrimSpace (s : String) : String :=
  String.mk ((s.data.dropWhile unicodeIsSpace).reverse.dropWhile unicodeIsSpace).reverse

/-- The loop of `strings.Fields`: `cur` holds the field being read, reversed. -/
def fieldsGo : List Char → List Char → List (List Char)
  | [], cur => if cur.isEmpty then [] else [cur.reverse]
  | c :: cs, cur =>
    if unicodeIsSpace c then
      if cur.isEmpty then fieldsGo cs [] else cur.reverse :: fieldsGo cs []
    else fieldsGo cs (c :: cur)

/-- Go `strings.Fields(s)`: the maximal runs of runes that are not white space. -/
def stringsFields (s : String) : List String :=
  (fieldsGo s.data []).map String.mk

/-- The loop of `strings.Split` for a separator that is not empty: `skip` is
the number of runes of a separator just found that are still to be passed,
`cur` holds the piece being read, reversed. -/
def splitGo (sep : List Char) : List Char → Nat → List Char → List (List Char)
  | [], _, cur => [cur.reverse]
  | _ :: cs, skip + 1, cur => splitGo sep cs skip cur
  | c :: cs, 0, cur =>
    if hasPrefixList (c :: cs) sep then cur.reverse :: splitGo sep cs (sep.length - 1) []
    else splitGo sep cs 0 (c :: cur)

/-- Go `strings.Split(s, sep)`: the pieces of `s` between the occurrences of
`sep`, found from left to right; an empty `sep` splits after each rune. -/
def stringsSplit (s sep : String) : List String :=
  if sep.data.isEmpty then s.data.map (fun c => String.mk [c])
  else (splitGo sep.data s.data 0 []).map String.mk

/-! ## The database (`database/sql`) -/

/-- A value `Scan` stores in an `interface{}`: the text of a byte slice, nil,
or a value of another type (a number, a time, a flag) shown as text. -/
inductive Value where
  | bytes (text : String)
  | null
  | text (s : String)
  | other (shown : String)
  deriving DecidableEq, Repr

/-- Go `*sql.Rows`, as `executeQuery` uses it: what `Columns()` returns, what
`Scan` returns for each row that `Next()` reports, and what `Err()` returns
once `Next()` reports no further row. -/
structure Rows where
  columns : Except String (List String)
  scans : List (Except String (List Value))
  err : Option String

/-- Go `*db.DB`: what `Query(query, args...)` returns. -/
structure DB where
  Query : String → List String → Except String Rows

/-- Go `Service`. -/
structure Service where
  db : DB

/-- Go `QueryResult`, a `map[string]interface{}`: its keys with their values,
in the order the keys were first set. -/
abbrev QueryResult := List (String × Value)

/-- Go `QueryResponse`. -/
structure QueryResponse where
  Columns : List String
  Rows : List QueryResult
  Error : String
  deriving DecidableEq, Repr

/-- What a method returns, `(*QueryResponse, error)` with `none` for Go `nil`,
or a run-time panic. -/
inductive Reply where
  | returned (resp : Option QueryResponse) (err : Option String)
  | panicked
  deriving DecidableEq, Repr

/-- The error a reply carries, `none` for Go `nil`. -/
def Reply.err : Reply → Option String
  | .returned _ e => e
  | .panicked => none

/-- The response a reply carries, `none` for Go `nil`. -/
def Reply.resp : Reply → Option QueryResponse
  | .returned r _ => r
  | .panicked => none

/-- Go `row[col] = v` on a map. -/
def mapSet (row : QueryResult) (col : String) (v : Value) : QueryResult :=
  if row.any (fun kv => kv.1 == col) then
    row.map (fun kv => if kv.1 == col then (col, v) else kv)
  else row ++ [(col, v)]

/-- Lines 281-288: a byte slice is stored as its text, nil as nil, any other value as it is. -/
def convertValue : Value → Value
  | .bytes t => .text t
  | .null => .null
  | v => v

/-- Lines 278-289: one scanned row as a map from column name to value. -/
def rowOf (columns : List String) (values : List Value) : QueryResult :=
  (columns.zip values).foldl (fun row cv => mapSet row cv.1 (convertValue cv.2)) []

/-- Lines 271-291: the loop over the rows; the first `Scan` error ends it. -/
def scanRows (columns : List String) : List (Except String (List Value)) →
    List QueryResult → Except String (List QueryResult)
  | [], results => .ok results
  | .error e :: _, _ => .error e
  | .ok values :: rest, results => scanRows columns rest (results ++ [rowOf columns values])

/-- Go `(*Service).executeQuery(query, args...)`. -/
def executeQuery (s : Service) (query : String) (args : List String) : Reply :=
  match s.db.Query query args with
  | .error e => .returned (some { Columns := [], Rows := [], Error := e }) none
  | .ok rows =>
    -- Get column names
    match rows.columns with
    | .error e => .returned (some { Columns := [], Rows := [], Error := e }) none
    | .ok columns =>
      -- Process rows
      match scanRows columns rows.scans [] with
      | .error e => .returned (some { Columns := [], Rows := [], Error := e }) none
      | .ok results =>
        match rows.err with
        | some e => .returned (some { Columns := [], Rows := [], Error := e }) none
        | none => .returned (some { Columns := columns, Rows := results, Error := "" }) none

/-! ## `HandleQuery` -/

/-- The statement of the "who are our partners" query (lines 46-51). -/
def partnersSQL : String :=
  "\n\t\t\tSELECT DISTINCT p.id as partner_id, p.name, p.status, ps.status as status_name\n\t\t\tFROM partners.partners p\n\t\t\tJOIN partners.partner_status ps ON p.status = ps.id\n\t\t\tORDER BY p.name;\n\t\t"

/-- The statement of the "which partner made the most money last month" query (lines 56-74). -/
def topRevenueSQL : String :=
  "\n\t\t\tWITH last_month AS (\n\t\t\t\tSELECT *\n\t\t\t\tFROM yer_analysis.yer_reports\n\t\t\t\tWHERE date_trunc('month', end_date) = date_trunc('month', current_date - interval '1 month')\n\t\t\t)\n\t\t\tSELECT \n\t\t\t\tp.id as partner_id,\n\t\t\t\tp.name as partner_name,\n\t\t\t\tyi.start_date,\n\t\t\t\tyi.end_date,\n\t\t\t\tsum(yi.amount) as total_revenue\n\t\t\tFROM yer_analysis.v_yer_items yi\n\t\t\tJOIN partners.partners p ON yi.partner_id = p.id\n\t\t\tJOIN last_month r ON yi.yer_report_id = r.id\n\t\t\tGROUP BY p.id, p.name, yi.start_date, yi.end_date\n\t\t\tORDER BY total_revenue DESC\n\t\t\tLIMIT 5;\n\t\t"

/-- The statement of the "which source tags does ... use" query (lines 87-96). -/
def sourceTagsSQL : String :=
  "\n\t\t\tSELECT DISTINCT \n\t\t\t\tst.id as sourcetag_id,\n\t\t\t\tst.name as sourcetag_name\n\t\t\tFROM yer_analysis.v_yer_items yi\n\t\t\tJOIN partners.partners p ON yi.partner_id = p.id\n\t\t\tJOIN yer_analysis.source_tags st ON yi.sourcetag_id = st.id\n\t\t\tWHERE lower(p.name) = lower($1)\n\t\t\tORDER BY st.name;\n\t\t"

/-- The statement of the "which source tags went up in tq last month" query (lines 101-141). -/
def tqImprovementSQL : String :=
  "\n\t\t\tWITH last_month AS (\n\t\t\t\tSELECT *\n\t\t\t\tFROM yer_analysis.yer_reports\n\t\t\t\tWHERE date_trunc('month', end_date) = date_trunc('month', current_date - interval '1 month')\n\t\t\t),\n\t\t\tprev_month AS (\n\t\t\t\tSELECT *\n\t\t\t\tFROM yer_analysis.yer_reports\n\t\t\t\tWHERE date_trunc('month', end_date) = date_trunc('month', current_date - interval '2 month')\n\t\t\t),\n\t\t\tlast_month_data AS (\n\t\t\t\tSELECT \n\t\t\t\t\tst.id as sourcetag_id,\n\t\t\t\t\tst.name as sourcetag_name,\n\t\t\t\t\tavg(yi.traffic_quality) as traffic_quality\n\t\t\t\tFROM yer_analysis.v_yer_items yi\n\t\t\t\tJOIN yer_analysis.source_tags st ON yi.sourcetag_id = st.id\n\t\t\t\tJOIN last_month lm ON yi.yer_report_id = lm.id\n\t\t\t\tGROUP BY st.id, st.name\n\t\t\t),\n\t\t\tprev_month_data AS (\n\t\t\t\tSELECT \n\t\t\t\t\tst.id as sourcetag_id,\n\t\t\t\t\tavg(yi.traffic_quality) as traffic_quality\n\t\t\t\tFROM yer_analysis.v_yer_items yi\n\t\t\t\tJOIN yer_analysis.source_tags st ON yi.sourcetag_id = st.id\n\t\t\t\tJOIN prev_month pm ON yi.yer_report_id = pm.id\n\t\t\t\tGROUP BY st.id\n\t\t\t)\n\t\t\tSELECT \n\t\t\t\tcurr.sourcetag_name,\n\t\t\t\tcurr.traffic_quality as current_tq,\n\t\t\t\tprev.traffic_quality as previous_tq,\n\t\t\t\t(curr.traffic_quality - prev.traffic_quality) as tq_change\n\t\t\tFROM last_month_data curr\n\t\t\tJOIN prev_month_data prev ON curr.sourcetag_id = prev.sourcetag_id\n\t\t\tWHERE curr.traffic_quality > prev.traffic_quality\n\t\t\tORDER BY tq_change DESC\n\t\t\tLIMIT 10;\n\t\t"

/-- The statement of the "which partners have been on the yer the most in the last 6 months" query (lines 146-158). -/
def yerFrequencySQL : String :=
  "\n\t\t\tSELECT \n\t\t\t\tp.id as partner_id,\n\t\t\t\tp.name as partner_name,\n\t\t\t\tcount(distinct yi.yer_report_id) as report_count\n\t\t\tFROM yer_analysis.v_yer_items yi\n\t\t\tJOIN partners.partners p ON yi.partner_id = p.id\n\t\t\tJOIN yer_analysis.yer_reports r ON yi.yer_report_id = r.id\n\t\t\tWHERE r.end_date >= current_date - interval '6 months'\n\t\t\tGROUP BY p.id, p.name\n\t\t\tORDER BY report_count DESC\n\t\t\tLIMIT 10;\n\t\t"

/-- The statement of the "what traffic sources does ... use" query (lines 171-192). -/
def trafficSourcesSQL : String :=
  "\n\t\t\tWITH last_month AS (\n\t\t\t\tSELECT *\n\t\t\t\tFROM yer_analysis.yer_reports\n\t\t\t\tWHERE date_trunc('month', end_date) = date_trunc('month', current_date - interval '1 month')\n\t\t\t)\n\t\t\tSELECT DISTINCT \n\t\t\t\tp.id as partner_id,\n\t\t\t\tp.name as partner_name,\n\t\t\t\tst.id as sourcetag_id,\n\t\t\t\tst.name as sourcetag_name,\n\t\t\t\tsum(yi.total_searches) as total_searches,\n\t\t\t\tsum(yi.total_clicks) as total_clicks,\n\t\t\t\tavg(yi.traffic_quality) as traffic_quality\n\t\t\tFROM yer_analysis.v_yer_items yi\n\t\t\tJOIN partners.partners p ON yi.partner_id = p.id\n\t\t\tJOIN yer_analysis.source_tags st ON yi.sourcetag_id = st.id\n\t\t\tJOIN last_month r ON yi.yer_report_id = r.id\n\t\t\tWHERE lower(p.name) = lower($1)\n\t\t\tGROUP BY p.id, p.name, st.id, st.name\n\t\t\tORDER BY total_searches DESC;\n\t\t"

/-- The statement of `handleShowTables` (lines 202-207). -/
def showTablesSQL : String :=
  "\n\t\tSELECT table_schema, table_name \n\t\tFROM information_schema.tables \n\t\tWHERE table_schema NOT IN ('pg_catalog', 'information_schema')\n\t\tORDER BY table_schema, table_name\n\t"

/-- The statement of `handleDescribeTable` (lines 232-238). -/
def describeTableSQL : String :=
  "\n\t\tSELECT column_name, data_type, is_nullable\n\t\tFROM information_schema.columns\n\t\tWHERE table_schema = $1\n\t\tAND table_name = $2\n\t\tORDER BY ordinal_position;\n\t"

/-- Go `(*Service).handleShowTables()`. -/
def handleShowTables (s : Service) : Reply :=
  executeQuery s showTablesSQL []

/-- Go `(*Service).handleDescribeTable(query)`. An index out of range is a
run-time panic. -/
def handleDescribeTable (s : Service) (query : String) : Reply :=
  -- Extract table name from query
  let parts := stringsFields query
  if parts.length < 3 then
    .returned none (some "invalid describe table query format")
  else
    match parts[2]? with
    | none => .panicked
    | some fullTableName =>
      -- Split schema and table name
      if stringsContains fullTableName "." then
        let schemaParts := stringsSplit fullTableName "."
        match schemaParts[0]?, schemaParts[1]? with
        | some schema, some tableName => executeQuery s describeTableSQL [schema, tableName]
        | _, _ => .panicked
      else executeQuery s describeTableSQL ["public", fullTableName]

/-- Lines 80-85 and 164-169 of `HandleQuery`: the partner name of a query
that holds `trigger`, or the error returned, or a run-time panic for an index
out of range. -/
def partnerName (queryLower trigger : String) : Except Reply String :=
  let parts := stringsSplit queryLower trigger
  if parts.length < 2 then .error (.returned none (some "invalid query format"))
  else
    match parts[1]? with
    | none => .error .panicked
    | some rest =>
      match (stringsSplit rest "use")[0]? with
      | none => .error .panicked
      | some partnerPart => .ok (stringsTrimSpace partnerPart)

/-- Go `(*Service).HandleQuery(query)`. -/
def HandleQuery (u : CaseTable) (s : Service) (query : String) : Reply :=
  -- Convert query to lowercase for easier matching
  let queryLower := stringsToLower u query
  -- Handle special commands
  if stringsHasPrefix queryLower "show tables" then handleShowTables s
  else if stringsHasPrefix queryLower "describe table" then handleDescribeTable s query
  -- Handle natural language queries
  else if stringsContains queryLower "who are our partners" then executeQuery s partnersSQL []
  else if stringsContains queryLower "which partner made the most money last month" then
    executeQuery s topRevenueSQL []
  else if stringsContains queryLower "which source tags does"
      && stringsContains queryLower "use" then
    match partnerName queryLower "which source tags does" with
    | .error r => r
    | .ok name => executeQuery s sourceTagsSQL [name]
  else if stringsContains queryLower "which source tags went up in tq last month" then
    executeQuery s tqImprovementSQL []
  else if stringsContains queryLower
      "which partners have been on the yer the most in the last 6 months" then
    executeQuery s yerFrequencySQL []
  else if stringsContains queryLower "what traffic sources does"
      && stringsContains queryLower "use" then
    match partnerName queryLower "what traffic sources does" with
    | .error r => r
    | .ok name => executeQuery s trafficSourcesSQL [name]
  -- If no natural language query matches, treat as direct SQL
  else executeQuery s query []

/-! ## Sample data of the service -/

/-- A database whose `Query` always fails, with an error message that shows
the arguments it was given. -/
def echoDB : DB :=
  { Query := fun _ args => .error ("args: " ++ String.intercalate "," args) }

/-- A service on `echoDB`. -/
def echoService : Service :=
  { db := echoDB }

/-- The six natural-language trigger phrases of `HandleQuery`. -/
def triggers : List String :=
  ["who are our partners",
   "which partner made the most money last month",
   "which source tags does",
   "which source tags went up in tq last month",
   "which partners have been on the yer the most in the last 6 months",
   "what traffic sources does"]

/-- Whether a lower-cased query is the table-list command or one of the
natural-language queries that `HandleQuery` answers with a statement of its own. -/
def recognised (queryLower : String) : Bool :=
  stringsHasPrefix queryLower "show tables"
  || stringsContains queryLower "who are our partners"
  || stringsContains queryLower "which partner made the most money last month"
  || (stringsContains queryLower "which source tags does" && stringsContains queryLower "use")
  || stringsContains queryLower "which source tags went up in tq last month"
  || stringsContains queryLower
      "which partners have been on the yer the most in the last 6 months"
  || (stringsContains queryLower "what traffic sources does" && stringsContains queryLower "use")

/-- The direct query of the test `TestDescribeYerDataDirect`. -/
def sampleDirectQuery : String :=
  "\n\t\tSELECT column_name, data_type, is_nullable\n\t\tFROM information_schema.columns\n\t\tWHERE table_schema = 'yer_analysis'\n\t\tAND table_name = 'yer_data'\n\t\tORDER BY ordinal_position;\n\t"

/-- A database that runs every statement and answers with one row that shows
the statement and the arguments it was given. -/
def reflectDB : DB :=
  { Query := fun query args =>
      .ok { columns := .ok ["statement", "args"]
            scans := [.ok [.bytes query, .text (String.intercalate "," args)]]
            err := none } }

/-- A service on `reflectDB`. -/
def reflectService : Service :=
  { db := reflectDB }

/-- A database whose `Query` always fails, with a message that shows the
statement and the arguments it was given. -/
def failingDB : DB :=
  { Query := fun query args =>
      .error ("rejected: " ++ query ++ " [" ++ String.intercalate "," args ++ "]") }

/-- A database whose rows fail the column lookup. -/
def noColumnsDB : DB :=
  { Query := fun _ _ => .ok { columns := .error "sql: Rows are closed", scans := [], err := none } }

/-- A database whose second row fails to scan. -/
def badScanDB : DB :=
  { Query := fun _ _ =>
      .ok { columns := .ok ["n"]
            scans := [.ok [.other "1"], .error "sql: Scan error on column index 0"]
            err := none } }

/-- A database whose row iteration ends with an error. -/
def badRowsDB : DB :=
  { Query := fun _ _ =>
      .ok { columns := .ok ["n"], scans := [.ok [.other "1"]], err := some "connection reset" } }

end Mcp

/-! # Properties -/

namespace Tunnel

/-! ## Steps of the process -/

theorem onConn_frame (rt rt1 : Runtime) (i : Nat) (f : Conn → Option Conn)
    (h : rt.onConn i f = some rt1) :
    ∃ c c1, rt.conns[i]? = some c ∧ f c = some c1 ∧ rt1 = { rt with conns := rt.conns.set i c1 } := by
  unfold Runtime.onConn at h
  split at h
  · rename_i c hc
    split at h
    · rename_i c1 hc1
      simp only [Option.some.injEq] at h
      exact ⟨c, c1, hc, hc1, h.symm⟩
    · simp at h
  · simp at h

theorem closeDone_frame (rt rt1 : Runtime) (i : Nat) (id : TaskId)
    (h : rt.closeDone i id = some rt1) :
    ∃ c, rt.conns[i]? = some c ∧
      ((∃ c1, c.closeDone id = Outcome.next c1 ∧ rt1 = { rt with conns := rt.conns.set i c1 })
       ∨ (c.closeDone id = Outcome.crash ∧ rt1 = { rt with crashed := true })) := by
  unfold Runtime.closeDone at h
  split at h
  · rename_i c hc
    split at h
    · rename_i c1 hc1
      simp only [Option.some.injEq] at h
      exact ⟨c, hc, Or.inl ⟨c1, hc1, h.symm⟩⟩
    · rename_i hc1
      simp only [Option.some.injEq] at h
      exact ⟨c, hc, Or.inr ⟨hc1, h.symm⟩⟩
    · simp at h
  · simp at h

theorem dial_frame (rt rt1 : Runtime) (i : Nat) (ok : Bool)
    (h : rt.dial i ok = some rt1) :
    ∃ c c1 addr, rt.conns[i]? = some c ∧ rt.dbAddr = some addr ∧ c.dial ok = some c1 ∧
      ((rt.tunnel.client = none ∧ rt1 = { rt with crashed := true })
       ∨ (rt.tunnel.client ≠ none ∧
          rt1 = { rt with conns := rt.conns.set i c1
                          calls := rt.calls ++ [Call.clientDial addr ok] })) := by
  unfold Runtime.dial at h
  split at h
  · rename_i c addr hc haddr
    split at h
    · simp at h
    · rename_i c1 hc1
      split at h
      · rename_i hcl
        simp only [Option.some.injEq] at h
        exact ⟨c, c1, addr, hc, haddr, hc1, Or.inl ⟨hcl, h.symm⟩⟩
      · rename_i cl hcl
        simp only [Option.some.injEq] at h
        exact ⟨c, c1, addr, hc, haddr, hc1, Or.inr ⟨by simp [hcl], h.symm⟩⟩
  · simp at h

theorem step_running (rt : Runtime) (a : Action) (h : rt.crashed = false) :
    step rt a =
      match a with
      | .forwardStart => rt.forwardStart
      | .accept err => rt.accept err
      | .dial i ok => rt.dial i ok
      | .copyReturns i id => rt.onConn i (fun c => c.copyReturns id)
      | .closeDone i id => rt.closeDone i id
      | .recvDone i => rt.onConn i Conn.recvDone
      | .runDeferred i => rt.onConn i Conn.runDeferred
      | .close => some rt.close
      | .setConfig cfg => some { rt with tunnel := { rt.tunnel with Config := cfg } } := by
  cases a <;> simp [step, h]

/-! ## The invariants hold in every reachable state -/

theorem wf_accepted : Conn.accepted.wf := by
  simp [Conn.wf, Conn.accepted]

theorem wf_dial (c c1 : Conn) (ok : Bool) (h : c.wf) (hs : c.dial ok = some c1) : c1.wf := by
  rcases c with ⟨l, r, d, pc, t1, t2⟩
  unfold Conn.dial at hs
  cases r <;> cases d <;> cases t1 <;> cases t2 <;> cases ok <;> cases pc <;>
    simp [Conn.wf] at h hs ⊢ <;> subst hs <;> simp_all

theorem wf_recvDone (c c1 : Conn) (h : c.wf) (hs : c.recvDone = some c1) : c1.wf := by
  rcases c with ⟨l, r, d, pc, t1, t2⟩
  unfold Conn.recvDone at hs
  cases r <;> cases d <;> cases t1 <;> cases t2 <;> cases pc <;>
    simp [Conn.wf] at h hs ⊢ <;> (try obtain ⟨hd, hs⟩ := hs) <;> subst_vars <;> simp_all

theorem wf_runDeferred (c c1 : Conn) (h : c.wf) (hs : c.runDeferred = some c1) : c1.wf := by
  rcases c with ⟨l, r, d, pc, t1, t2⟩
  unfold Conn.runDeferred at hs
  cases r <;> cases d <;> cases t1 <;> cases t2 <;> cases pc <;>
    simp [Conn.wf] at h hs ⊢ <;> subst_vars <;> simp_all

theorem wf_copyReturns (c c1 : Conn) (id : TaskId) (h : c.wf) (hs : c.copyReturns id = some c1) :
    c1.wf := by
  rcases c with ⟨l, r, d, pc, t1, t2⟩
  unfold Conn.copyReturns Conn.task Conn.setTask at hs
  cases r <;> cases d <;> cases t1 <;> cases t2 <;> cases id <;>
    simp [Conn.wf] at h hs ⊢ <;> obtain ⟨hp, hs⟩ := hs <;> subst hs <;> simp_all

theorem closeDone_next (c c1 : Conn) (id : TaskId) (hs : c.closeDone id = Outcome.next c1) :
    ∃ t, c.task id = some t ∧ t.pc = .closingDone ∧ c.done = some .opened
      ∧ c1 = { c.setTask id { t with pc := .exited } with done := some .closed } := by
  unfold Conn.closeDone at hs
  split at hs
  · rename_i t ht
    split at hs
    · rename_i hp
      split at hs
      · rename_i hd
        simp only [Outcome.next.injEq] at hs
        exact ⟨t, ht, hp, hd, hs.symm⟩
      · simp at hs
      · simp at hs
    · simp at hs
  · simp at hs

theorem closeDone_crash (c : Conn) (id : TaskId) :
    c.closeDone id = Outcome.crash ↔
      ∃ t, c.task id = some t ∧ t.pc = .closingDone ∧ c.done = some .closed := by
  unfold Conn.closeDone
  constructor
  · intro hs
    split at hs
    · rename_i t ht
      split at hs
      · rename_i hp
        split at hs
        · simp at hs
        · rename_i hd
          exact ⟨t, ht, hp, hd⟩
        · simp at hs
      · simp at hs
    · simp at hs
  · rintro ⟨t, ht, hp, hd⟩
    simp [ht, hp, hd]

theorem wf_closeDone (c c1 : Conn) (id : TaskId) (h : c.wf)
    (hs : c.closeDone id = Outcome.next c1) : c1.wf := by
  obtain ⟨t, ht, hp, hd, rfl⟩ := closeDone_next c c1 id hs
  clear hs
  rcases c with ⟨l, r, d, pc, t1, t2⟩
  simp only at hd
  subst hd
  cases r <;> cases t1 <;> cases t2 <;> cases id <;>
    simp [Conn.wf, Conn.task, Conn.setTask] at h ht ⊢ <;> subst ht <;> cases pc <;> simp_all

theorem wf_set (l : List Conn) (i : Nat) (c1 : Conn) (h : ∀ c ∈ l, c.wf) (h1 : c1.wf) :
    ∀ c ∈ l.set i c1, c.wf := by
  intro c hc
  rcases List.mem_or_eq_of_mem_set hc with hc | hc
  · exact h c hc
  · exact hc ▸ h1

theorem conns_ne_nil_of_get (l : List Conn) (i : Nat) (c : Conn) (h : l[i]? = some c) :
    l ≠ [] := by
  intro hl
  subst hl
  simp at h

theorem wf_start (t : SSHTunnel) : (Runtime.start t).wf t := by
  simp [Runtime.wf, Runtime.start]

theorem wf_onConn (t : SSHTunnel) (rt rt1 : Runtime) (i : Nat) (f : Conn → Option Conn)
    (hf : ∀ c c1, c.wf → f c = some c1 → c1.wf)
    (h : rt.wf t) (hs : rt.onConn i f = some rt1) : rt1.wf t := by
  obtain ⟨c, c1, hc, hfc, rfl⟩ := onConn_frame rt rt1 i f hs
  obtain ⟨h1, h2, h3, h4, h5⟩ := h
  refine ⟨wf_set _ _ _ h1 (hf c c1 (h1 c (List.getElem?_mem hc)) hfc), ?_, h3, h4, h5⟩
  intro hl
  have := h2 hl
  exact absurd this (conns_ne_nil_of_get _ _ _ hc)

theorem wf_step (t : SSHTunnel) (rt rt1 : Runtime) (a : Action) (h : rt.wf t)
    (hs : step rt a = some rt1) : rt1.wf t := by
  have hrun : rt.crashed = false := by
    cases hcr : rt.crashed
    · rfl
    · simp [step, hcr] at hs
  rw [step_running rt a hrun] at hs
  cases a <;> dsimp only at hs
  case forwardStart =>
    obtain ⟨h1, h2, h3, h4, h5⟩ := h
    unfold Runtime.forwardStart at hs
    split at hs
    · split at hs
      · simp only [Option.some.injEq] at hs
        subst hs
        exact ⟨h1, h2, h3, h4, h5⟩
      · simp only [Option.some.injEq] at hs
        subst hs
        exact ⟨h1, by simp, by simp, h4, h5⟩
    · simp at hs
  case accept err =>
    obtain ⟨h1, h2, h3, h4, h5⟩ := h
    unfold Runtime.accept at hs
    split at hs
    · rename_i hl
      split at hs
      · split at hs
        · simp only [Option.some.injEq] at hs
          subst hs
          exact ⟨h1, by simp, fun _ => h3 (by simp [hl]), h4, h5⟩
        · simp only [Option.some.injEq] at hs
          subst hs
          exact ⟨h1, h2, h3, h4, h5⟩
      · simp only [Option.some.injEq] at hs
        subst hs
        refine ⟨?_, by simp [hl], h3, h4, h5⟩
        intro c hc
        rcases List.mem_append.mp hc with hc | hc
        · exact h1 c hc
        · simp only [List.mem_singleton] at hc
          exact hc ▸ wf_accepted
    · simp at hs
  case dial i ok =>
    obtain ⟨c, c1, addr, hc, haddr, hd, hcase | hcase⟩ := dial_frame rt rt1 i ok hs
    · obtain ⟨h1, h2, h3, h4, h5⟩ := h
      rw [hcase.2]
      exact ⟨h1, h2, h3, h4, h5⟩
    · obtain ⟨h1, h2, h3, h4, h5⟩ := h
      rw [hcase.2]
      refine ⟨wf_set _ _ _ h1 (wf_dial c c1 ok (h1 c (List.getElem?_mem hc)) hd), ?_, h3, h4, h5⟩
      intro hl
      exact absurd (h2 hl) (conns_ne_nil_of_get _ _ _ hc)
  case copyReturns i id =>
    exact wf_onConn t rt rt1 i _ (fun c c1 hw hc => wf_copyReturns c c1 id hw hc) h hs
  case closeDone i id =>
    obtain ⟨c, hc, hcase | hcase⟩ := closeDone_frame rt rt1 i id hs
    · obtain ⟨c1, hcd, rfl⟩ := hcase
      obtain ⟨h1, h2, h3, h4, h5⟩ := h
      refine ⟨wf_set _ _ _ h1 (wf_closeDone c c1 id (h1 c (List.getElem?_mem hc)) hcd), ?_,
        h3, h4, h5⟩
      intro hl
      exact absurd (h2 hl) (conns_ne_nil_of_get _ _ _ hc)
    · obtain ⟨h1, h2, h3, h4, h5⟩ := h
      rw [hcase.2]
      exact ⟨h1, h2, h3, h4, h5⟩
  case recvDone i =>
    exact wf_onConn t rt rt1 i _ (fun c c1 hw hc => wf_recvDone c c1 hw hc) h hs
  case runDeferred i =>
    exact wf_onConn t rt rt1 i _ (fun c c1 hw hc => wf_runDeferred c c1 hw hc) h hs
  case close =>
    obtain ⟨h1, h2, h3, h4, h5⟩ := h
    simp only [Option.some.injEq] at hs
    subst hs
    refine ⟨h1, h2, h3, ?_, ?_⟩
    · rw [← h4]
      rcases rt with ⟨⟨l, cfg, cl⟩, _, _, _, _, _⟩
      cases l <;> cases cl <;> simp [Runtime.close, SSHTunnel.Close]
    · rw [← h5]
      rcases rt with ⟨⟨l, cfg, cl⟩, _, _, _, _, _⟩
      cases l <;> cases cl <;> simp [Runtime.close, SSHTunnel.Close]
  case setConfig cfg =>
    obtain ⟨h1, h2, h3, h4, h5⟩ := h
    simp only [Option.some.injEq] at hs
    subst hs
    exact ⟨h1, h2, h3, h4, h5⟩

theorem wf_run (t : SSHTunnel) (schedule : List Action) :
    ∀ rt rt1 : Runtime, rt.wf t → run rt schedule = some rt1 → rt1.wf t := by
  induction schedule with
  | nil =>
    intro rt rt1 h hs
    simp only [run, Option.some.injEq] at hs
    exact hs ▸ h
  | cons a rest ih =>
    intro rt rt1 h hs
    simp only [run] at hs
    split at hs
    · rename_i rt2 h2
      exact ih rt2 rt1 (wf_step t rt rt2 a h h2) hs
    · simp at hs

theorem wf_reachable (t : SSHTunnel) (rt : Runtime) (h : Reachable t rt) : rt.wf t := by
  obtain ⟨schedule, hs⟩ := h
  exact wf_run t schedule _ rt (wf_start t) hs

theorem getElem?_set_same (l : List Conn) (i : Nat) (c c1 : Conn) (h : l[i]? = some c) :
    (l.set i c1)[i]? = some c1 := by
  have hi : i < l.length := by
    by_contra hn
    simp [List.getElem?_eq_none (Nat.le_of_not_lt hn)] at h
  simp [hi]

theorem set_set_same (l : List Conn) (i : Nat) (c1 c2 : Conn) :
    (l.set i c1).set i c2 = l.set i c2 := by
  simp

/-- C1 (the code contradicts the claim). One forwarded connection of
`sampleTunnel`: its second copy goroutine finishes first and closes `done`,
the handler closes both ends and returns, then the first copy goroutine
finishes. Up to there the process runs and the accept loop is accepting; the
first copy goroutine's deferred `close(done)` then closes a closed channel, a
run-time panic that terminates the process, after which the accept loop can
accept nothing. -/
theorem forward_second_close_done_panics :
    (run (Runtime.start sampleTunnel) sampleSchedule).map (fun rt => (rt.crashed, rt.loop))
        = some (false, LoopPc.accepting)
    ∧ (run (Runtime.start sampleTunnel) (sampleSchedule ++ [.closeDone 0 .first])).map
        (fun rt => rt.crashed) = some true
    ∧ (run (Runtime.start sampleTunnel)
        (sampleSchedule ++ [.closeDone 0 .first, .accept none])) = none := by
  decide

theorem second_close_done_panics (rt : Runtime) (i : Nat) (c : Conn)
    (id : TaskId) (task : CopyTask)
    (hrun : rt.crashed = false) (hc : rt.conns[i]? = some c)
    (ht : c.task id = some task) (hp : task.pc = .closingDone) (hd : c.done = some .closed) :
    step rt (.closeDone i id) = some { rt with crashed := true } := by
  rw [step_running rt _ hrun]
  have : c.closeDone id = Outcome.crash := (closeDone_crash c id).mpr ⟨task, ht, hp, hd⟩
  simp [Runtime.closeDone, hc, this]

/-- What a handler does while the process runs. In every reachable state of a
tunnel's process: a handler whose dial
succeeded and that has returned has closed both the local socket and the
remote channel. For a handler waiting in `<-done`: `done` is closed exactly
when one of its copy goroutines has finished; while `done` is not closed the
handler cannot pass `<-done`; and once it is closed the handler's next three
steps close the remote channel, close the local socket and return, changing
nothing else in the process. -/
theorem handler_closes_both_while_running (t : SSHTunnel) (rt : Runtime) (h : Reachable t rt) :
    (∀ c ∈ rt.conns, c.remote ≠ none → c.pc = .returned →
        c.localConn = .closed ∧ c.remote = some .closed)
    ∧ (∀ (i : Nat) (c : Conn), rt.conns[i]? = some c → c.pc = .waiting →
        (c.done = some .closed ↔
          ((∃ t1, c.copy1 = some t1 ∧ t1.pc = .exited) ∨ (∃ t2, c.copy2 = some t2 ∧ t2.pc = .exited)))
        ∧ (c.done ≠ some .closed → step rt (.recvDone i) = none)
        ∧ (c.done = some .closed → rt.crashed = false →
            run rt [.recvDone i, .runDeferred i, .runDeferred i]
              = some { rt with conns := (rt.conns.set i { c with
                  localConn := .closed, remote := some .closed, pc := .returned }) })) := by
  have hwf := (wf_reachable t rt h).1
  refine ⟨?_, ?_⟩
  · intro c hc hr hpc
    have hw := hwf c hc
    rcases c with ⟨l, r, d, pc, t1, t2⟩
    cases r <;> cases d <;> cases t1 <;> cases t2 <;> simp [Conn.wf] at hw hr hpc ⊢
    subst hpc
    simp_all
  · intro i c hc hpc
    have hw := hwf c (List.getElem?_mem hc)
    refine ⟨?_, ?_, ?_⟩
    · rcases c with ⟨l, r, d, pc, t1, t2⟩
      simp only at hpc
      subst hpc
      rcases d with _ | _ | _ <;> cases r <;> cases t1 <;> cases t2 <;> simp [Conn.wf] at hw ⊢
      · exact ⟨hw.2.2.2.2.1.1, hw.2.2.2.2.1.2⟩
      · rcases hw.2.2.2.2.1 with h1 | h1
        · exact Or.inl h1.1
        · exact Or.inr h1.2
    · intro hd
      by_cases hcr : rt.crashed = true
      · simp [step, hcr]
      · rw [step_running rt _ (by simpa using hcr)]
        simp [Runtime.onConn, hc, Conn.recvDone, hd]
    · intro hd hrun
      rcases c with ⟨l, r, d, pc, t1, t2⟩
      simp only at hpc hd
      subst hpc hd
      rcases r with _ | r <;> rcases t1 with _ | t1 <;> rcases t2 with _ | t2 <;>
        simp [Conn.wf] at hw
      obtain ⟨-, -, -, -, -, hl, hr⟩ := hw
      subst hl hr
      have h1 := getElem?_set_same rt.conns i _
        { localConn := .opened, remote := some .opened, done := some .closed
          pc := .closingRemote, copy1 := some t1, copy2 := some t2 } hc
      have h2 := getElem?_set_same rt.conns i _
        { localConn := .opened, remote := some .closed, done := some .closed
          pc := .closingLocal, copy1 := some t1, copy2 := some t2 } hc
      simp [run, step, hrun, Runtime.onConn, hc, Conn.recvDone, Conn.runDeferred, h1, h2]

/-- The handler of connection 0 at `sampleDoneClosed`, a reachable state in which the second copy
goroutine of connection 0 has closed `done`. -/
theorem handler_closes_both_while_running_sample :
    Reachable sampleTunnel sampleDoneClosed
    ∧ run sampleDoneClosed [.recvDone 0, .runDeferred 0, .runDeferred 0]
        = some { sampleDoneClosed with conns := (sampleDoneClosed.conns.set 0
            { sampleConnDoneClosed with
                localConn := .closed, remote := some .closed, pc := .returned }) } :=
  ⟨⟨sampleSchedule.take 5, by decide⟩,
   ((handler_closes_both_while_running sampleTunnel sampleDoneClosed
      ⟨sampleSchedule.take 5, by decide⟩).2 0 sampleConnDoneClosed (by decide) (by decide)).2.2
      (by decide) (by decide)⟩

/-- C3. In every reachable, running state of a tunnel built with an SSH
client, when the `Dial` of handler `i` fails the handler closes its local
connection and returns: it opens no remote channel and starts no copy
goroutine (`Conn.dialFailed`), and the tunnel object, the accept loop, `dbAddr`
and every other connection are unchanged; only the failed dial is added to the
call log. If the accept loop is accepting, the next connection is then
accepted and, when its dial succeeds, forwarded. -/
theorem forward_dial_failure_isolated (t : SSHTunnel) (rt : Runtime) (i : Nat) (c : Conn)
    (hr : Reachable t rt) (hcl : t.client ≠ none) (hrun : rt.crashed = false)
    (hc : rt.conns[i]? = some c) (hpc : c.pc = .dialing) :
    ∃ addr : String, rt.dbAddr = some addr
      ∧ run rt [.dial i false, .runDeferred i]
          = some { rt with conns := rt.conns.set i Conn.dialFailed,
                           calls := rt.calls ++ [Call.clientDial addr false] }
      ∧ (rt.loop = .accepting →
          run { rt with conns := rt.conns.set i Conn.dialFailed,
                        calls := rt.calls ++ [Call.clientDial addr false] }
              [.accept none, .dial rt.conns.length true]
            = some { rt with conns := rt.conns.set i Conn.dialFailed ++ [Conn.forwarded],
                             calls := rt.calls ++ [Call.clientDial addr false]
                                        ++ [Call.clientDial addr true] }) := by
  obtain ⟨hwf, hstart, haddr, -, hclient⟩ := wf_reachable t rt hr
  have hw := hwf c (List.getElem?_mem hc)
  have hne : rt.conns ≠ [] := conns_ne_nil_of_get _ _ _ hc
  have hloop : rt.loop ≠ .starting := fun h => hne (hstart h)
  obtain ⟨addr, ha⟩ := Option.ne_none_iff_exists'.mp (haddr hloop)
  have hcl2 : rt.tunnel.client ≠ none := by
    intro h
    rw [h] at hclient
    cases hcl3 : t.client
    · exact hcl hcl3
    · rw [hcl3] at hclient
      simp at hclient
  obtain ⟨cl, hcl4⟩ := Option.ne_none_iff_exists'.mp hcl2
  rcases c with ⟨l, r, d, pc, t1, t2⟩
  simp only at hpc
  subst hpc
  rcases r with _ | r <;> rcases d with _ | d <;> rcases t1 with _ | t1 <;>
    rcases t2 with _ | t2 <;> simp [Conn.wf] at hw
  subst hw
  have h1 := getElem?_set_same rt.conns i _
    { localConn := .opened, remote := none, done := none
      pc := .closingLocal, copy1 := none, copy2 := none } hc
  refine ⟨addr, ha, ?_, ?_⟩
  · simp [run, step, hrun, Runtime.dial, Runtime.onConn, hc, ha, Conn.dial, Conn.runDeferred,
      hcl4, h1, Conn.dialFailed]
  · intro hacc
    have hlen : (rt.conns.set i Conn.dialFailed).length = rt.conns.length := by simp
    have h2 : (rt.conns.set i Conn.dialFailed ++ [Conn.accepted])[rt.conns.length]?
        = some Conn.accepted := by
      rw [← hlen]
      exact List.getElem?_concat_length _ _
    simp [run, step, hrun, Runtime.accept, hacc, Runtime.dial, h2, ha, hcl4, Conn.dial,
      Conn.accepted, Conn.forwarded]

/-- C3 at `sampleTwoConns`, whose second connection is still dialling. -/
theorem forward_dial_failure_isolated_witness :
    Reachable sampleTunnel sampleTwoConns
    ∧ ∃ addr : String, sampleTwoConns.dbAddr = some addr
      ∧ run sampleTwoConns [.dial 1 false, .runDeferred 1]
          = some { sampleTwoConns with
                     conns := sampleTwoConns.conns.set 1 Conn.dialFailed,
                     calls := sampleTwoConns.calls ++ [Call.clientDial addr false] }
      ∧ (sampleTwoConns.loop = .accepting →
          run { sampleTwoConns with
                  conns := sampleTwoConns.conns.set 1 Conn.dialFailed,
                  calls := sampleTwoConns.calls ++ [Call.clientDial addr false] }
              [.accept none, .dial sampleTwoConns.conns.length true]
            = some { sampleTwoConns with
                       conns := sampleTwoConns.conns.set 1 Conn.dialFailed ++ [Conn.forwarded],
                       calls := sampleTwoConns.calls ++ [Call.clientDial addr false]
                                        ++ [Call.clientDial addr true] }) :=
  ⟨⟨[.forwardStart, .accept none, .accept none, .dial 0 true], by decide⟩,
   forward_dial_failure_isolated sampleTunnel sampleTwoConns 1 Conn.accepted
     ⟨[.forwardStart, .accept none, .accept none, .dial 0 true], by decide⟩
     (by decide) (by decide) (by decide) (by decide)⟩

theorem toInt64_add (m k : Int) : addInt64 (toInt64 m) k = toInt64 (m + k) := by
  unfold addInt64 toInt64
  omega

theorem toInt64_small (n : Int) (h0 : 0 ≤ n) (h : n < 2 ^ 63) : toInt64 n = n := by
  unfold toInt64
  omega

theorem ioCopyLoop_chunks (chunks : List (List Byte)) :
    ∀ (w0 : List Byte) (m : Int) (tail : Reader),
      ioCopyLoop (Writer.reliable w0) (toInt64 m) (Reader.ofChunks chunks ++ tail)
        = ioCopyLoop (Writer.reliable (w0 ++ chunks.flatten))
            (toInt64 (m + (chunks.flatten.length : Int))) tail := by
  induction chunks with
  | nil =>
    intro w0 m tail
    simp [Reader.ofChunks]
  | cons d rest ih =>
    intro w0 m tail
    have hrec := ih (w0 ++ d) (m + (d.length : Int)) tail
    simp only [Reader.ofChunks, List.map_cons, List.cons_append] at hrec ⊢
    rw [ioCopyLoop]
    by_cases hd : 0 < d.length
    · simp only [hd, if_true, Writer.reliable]
      simp only [lt_irrefl, decide_False, Bool.false_and, if_false, List.take_length,
        Bool.false_eq_true, ne_eq, not_true_eq_false]
      rw [toInt64_add]
      simp only [Writer.reliable, Int.ofNat_eq_coe] at hrec ⊢
      rw [hrec]
      simp [List.append_assoc, Int.add_assoc]
    · have hd0 : d = [] := by
        cases d with
        | nil => rfl
        | cons a l => simp at hd
      subst hd0
      simp only [List.length_nil, lt_irrefl, if_false]
      simp only [List.append_nil, List.length_nil, Int.Nat.cast_ofNat_Int, add_zero] at hrec
      rw [hrec]
      simp

theorem toInt64_zero : toInt64 0 = 0 := by
  unfold toInt64
  omega

/-- C7. A reader that yields the chunks `chunks` and then `last` together
with `io.EOF`, with no other error, and a writer that accepts every byte
offered: `copyConn` appends exactly the bytes read, in order, to what the
writer had received, and returns a nil error and the `int64` count of the
bytes, which is their number when that is below `2^63`. The handler started
for an accepted connection, when its dial succeeds, starts
`copyConn(local, remote)` and `copyConn(remote, local)`, and in every
reachable state every connection with a remote channel has exactly these two
copy goroutines: one reading the remote channel and writing the local socket,
one reading the local socket and writing the remote channel. -/
theorem copyConn_byte_fidelity (w0 : List Byte) (chunks : List (List Byte)) (last : List Byte)
    (rest : Reader) :
    -- the reader ends with a `Read` that returns its last bytes together with `io.EOF`
    ((copyConn (Writer.reliable w0)
        (Reader.ofChunks chunks ++ { data := last, err := some EOF } :: rest)).writer.received
        = w0 ++ (chunks.flatten ++ last)
     ∧ (copyConn (Writer.reliable w0)
        (Reader.ofChunks chunks ++ { data := last, err := some EOF } :: rest)).err = none
     ∧ (copyConn (Writer.reliable w0)
        (Reader.ofChunks chunks ++ { data := last, err := some EOF } :: rest)).written
        = toInt64 ((chunks.flatten ++ last).length : Int)
     ∧ (((chunks.flatten ++ last).length : Int) < 2 ^ 63 →
        (copyConn (Writer.reliable w0)
          (Reader.ofChunks chunks ++ { data := last, err := some EOF } :: rest)).written
          = ((chunks.flatten ++ last).length : Int)))
    -- the copy goroutines of a handler
    ∧ Conn.accepted.dial true = some Conn.forwarded
    ∧ Conn.forwarded.copy1 = some { writer := .localConn, reader := .remoteConn, pc := .copying }
    ∧ Conn.forwarded.copy2 = some { writer := .remoteConn, reader := .localConn, pc := .copying }
    ∧ (∀ (t : SSHTunnel) (rt : Runtime) (c : Conn), Reachable t rt → c ∈ rt.conns →
        c.remote ≠ none →
        ∃ p1 p2, c.copy1 = some { writer := .localConn, reader := .remoteConn, pc := p1 }
          ∧ c.copy2 = some { writer := .remoteConn, reader := .localConn, pc := p2 }) := by
  have hcopy : copyConn (Writer.reliable w0)
        (Reader.ofChunks chunks ++ { data := last, err := some EOF } :: rest)
      = { writer := Writer.reliable (w0 ++ (chunks.flatten ++ last))
          written := toInt64 ((chunks.flatten ++ last).length : Int), err := none } := by
    unfold copyConn ioCopy
    have h := ioCopyLoop_chunks chunks w0 0 ({ data := last, err := some EOF } :: rest)
    rw [toInt64_zero] at h
    rw [h, ioCopyLoop]
    by_cases hl : 0 < last.length
    · simp only [hl, if_true, Writer.reliable]
      simp only [lt_irrefl, decide_False, Bool.false_and, if_false, List.take_length,
        Bool.false_eq_true, ne_eq, not_true_eq_false, if_true]
      rw [toInt64_add]
      simp [List.append_assoc]
    · have hl0 : last = [] := by
        cases last with
        | nil => rfl
        | cons a l => simp at hl
      subst hl0
      simp [Writer.reliable]
  refine ⟨⟨?_, ?_, ?_, ?_⟩, ?_, rfl, rfl, ?_⟩
  · rw [hcopy]
    rfl
  · rw [hcopy]
  · rw [hcopy]
  · intro hlen
    rw [hcopy]
    exact toInt64_small _ (Int.ofNat_nonneg _) hlen
  · decide
  · intro t rt c hr hc hrem
    have hw := (wf_reachable t rt hr).1 c hc
    rcases c with ⟨l, r, d, pc, t1, t2⟩
    rcases r with _ | r <;> rcases d with _ | d <;> rcases t1 with _ | t1 <;>
      rcases t2 with _ | t2 <;> simp [Conn.wf] at hw hrem ⊢
    obtain ⟨h1, h2, h3, h4, -⟩ := hw
    rcases t1 with ⟨w1, r1, p1⟩
    rcases t2 with ⟨w2, r2, p2⟩
    simp only at h1 h2 h3 h4
    subst h1 h2 h3 h4
    exact ⟨⟨p1, rfl⟩, ⟨p2, rfl⟩⟩

/-- C7 at the stream "PING" read in the chunks "PI", "", "N" and "G" with `io.EOF`. -/
theorem copyConn_byte_fidelity_witness :
    (copyConn (Writer.reliable [])
        (Reader.ofChunks [[80, 73], [], [78]] ++ [{ data := [71], err := some EOF }])).written = 4 :=
  ((copyConn_byte_fidelity [] [[80, 73], [], [78]] [71] []).1.2.2.2 (by decide)).trans
    (by decide)

/-- Byte fidelity of `copyConn` for a reader whose end of stream is a `Read`
that returns no bytes and `io.EOF`. -/
theorem copyConn_exhausted (w0 : List Byte) (chunks : List (List Byte)) :
    (copyConn (Writer.reliable w0) (Reader.ofChunks chunks)).writer.received
      = w0 ++ chunks.flatten
    ∧ (copyConn (Writer.reliable w0) (Reader.ofChunks chunks)).err = none
    ∧ (copyConn (Writer.reliable w0) (Reader.ofChunks chunks)).written
      = toInt64 (chunks.flatten.length : Int) := by
  have h := ioCopyLoop_chunks chunks w0 0 []
  rw [toInt64_zero] at h
  simp only [List.append_nil, zero_add] at h
  unfold copyConn ioCopy
  rw [h]
  simp [ioCopyLoop, Writer.reliable]

/-- C4. `Close` is idempotent and never fails: a second `Close` leaves the
tunnel as the first one left it, both calls return a nil error, and after
`Close` a listener and a client that are not nil are closed while nil ones stay
nil; the configuration is untouched. -/
theorem Close_idempotent (t : SSHTunnel) :
    t.Close.tunnel.Close.tunnel = t.Close.tunnel
    ∧ t.Close.err = none
    ∧ t.Close.tunnel.Close.err = none
    ∧ t.Close.tunnel.Local = t.Local.map (fun l => { l with closed := true })
    ∧ t.Close.tunnel.client = t.client.map (fun c => { c with closed := true })
    ∧ t.Close.tunnel.Config = t.Config := by
  rcases t with ⟨l, cfg, c⟩
  cases l <;> cases c <;> simp [SSHTunnel.Close]

/-- C5. `Close` calls `Close` on the listener first and on the SSH client
second (each only when it is not nil) and nothing else; it can run in every
state of the process that has not crashed, without waiting; and it leaves the
set of connections, with the state of their sockets, channels and goroutines,
and the accept loop as they were. -/
theorem Close_order_frame (rt : Runtime) :
    rt.tunnel.Close.calls
        = (if rt.tunnel.Local.isSome then [Call.listenerClose] else [])
          ++ (if rt.tunnel.client.isSome then [Call.clientClose] else [])
    ∧ rt.close.calls = rt.calls ++ rt.tunnel.Close.calls
    ∧ rt.close.conns = rt.conns
    ∧ rt.close.loop = rt.loop
    ∧ rt.close.crashed = rt.crashed
    ∧ step rt Action.close = if rt.crashed then none else some rt.close := by
  rcases rt with ⟨⟨l, cfg, c⟩, a, lp, cs, calls, cr⟩
  cases l <;> cases c <;> simp [SSHTunnel.Close, Runtime.close, step]

/-- C6. While the accept loop is accepting: an `Accept` error whose message
contains "use of closed network connection" makes `forward` return and changes
nothing else; any other `Accept` error changes nothing at all, so no handler
is started and the loop calls `Accept` again; an accepted connection gets a
new handler; and a step after which the loop has returned can only be an
`Accept` error with such a message. -/
theorem forward_accept_loop (rt : Runtime) (hrun : rt.crashed = false)
    (hloop : rt.loop = LoopPc.accepting) :
    (∀ msg : String, stringsContains msg "use of closed network connection" = true →
        step rt (Action.accept (some msg)) = some { rt with loop := LoopPc.returned })
    ∧ (∀ msg : String, stringsContains msg "use of closed network connection" = false →
        step rt (Action.accept (some msg)) = some rt)
    ∧ step rt (Action.accept none) = some { rt with conns := rt.conns ++ [Conn.accepted] }
    ∧ (∀ (a : Action) (rt1 : Runtime), step rt a = some rt1 → rt1.loop = LoopPc.returned →
        ∃ msg : String, a = Action.accept (some msg)
          ∧ stringsContains msg "use of closed network connection" = true) := by
  refine ⟨?_, ?_, ?_, ?_⟩
  · intro msg h
    simp [step, hrun, Runtime.accept, hloop, h]
  · intro msg h
    simp [step, hrun, Runtime.accept, hloop, h]
  · simp [step, hrun, Runtime.accept, hloop]
  · intro a rt1 hstep hret
    rw [step_running rt a hrun] at hstep
    cases a with
    | forwardStart =>
      simp [Runtime.forwardStart, hloop] at hstep
    | accept err =>
      cases err with
      | none =>
        simp [Runtime.accept, hloop] at hstep
        subst hstep
        simp [hloop] at hret
      | some msg =>
        by_cases hc : stringsContains msg "use of closed network connection" = true
        · exact ⟨msg, rfl, hc⟩
        · simp [Runtime.accept, hloop, hc] at hstep
          subst hstep
          simp [hloop] at hret
    | dial i ok =>
      obtain ⟨c, c1, addr, -, -, -, h | h⟩ := dial_frame rt rt1 i ok hstep
      · rw [h.2] at hret
        simp [hloop] at hret
      · rw [h.2] at hret
        simp [hloop] at hret
    | copyReturns i id =>
      obtain ⟨c, c1, -, -, h⟩ := onConn_frame rt rt1 i _ hstep
      rw [h] at hret
      simp [hloop] at hret
    | closeDone i id =>
      obtain ⟨c, -, h | h⟩ := closeDone_frame rt rt1 i id hstep
      · obtain ⟨c1, -, h⟩ := h
        rw [h] at hret
        simp [hloop] at hret
      · rw [h.2] at hret
        simp [hloop] at hret
    | recvDone i =>
      obtain ⟨c, c1, -, -, h⟩ := onConn_frame rt rt1 i _ hstep
      rw [h] at hret
      simp [hloop] at hret
    | runDeferred i =>
      obtain ⟨c, c1, -, -, h⟩ := onConn_frame rt rt1 i _ hstep
      rw [h] at hret
      simp [hloop] at hret
    | close =>
      simp [Runtime.close] at hstep
      subst hstep
      simp [hloop] at hret
    | setConfig cfg =>
      simp at hstep
      subst hstep
      simp [hloop] at hret


/-- C6 at `sampleAccepting`: the listener-closed error stops the loop, another
error does not. -/
theorem forward_accept_loop_witness :
    step sampleAccepting
        (Action.accept (some "accept tcp 127.0.0.1:5433: use of closed network connection"))
      = some { sampleAccepting with loop := LoopPc.returned }
    ∧ step sampleAccepting (Action.accept (some "accept tcp: too many open files"))
      = some sampleAccepting :=
  ⟨(forward_accept_loop sampleAccepting (by decide) (by decide)).1 _ (by decide),
   (forward_accept_loop sampleAccepting (by decide) (by decide)).2.1 _ (by decide)⟩

theorem expandKeyPath_calls (env : Env) (keyPath : String) :
    (∃ e, expandKeyPath env keyPath = (.error e, [Call.userHomeDir false]))
    ∨ (∃ p, expandKeyPath env keyPath = (.ok p, [Call.userHomeDir true]))
    ∨ (∃ p, expandKeyPath env keyPath = (.ok p, [])) := by
  unfold expandKeyPath
  split
  · split
    · exact Or.inl ⟨_, rfl⟩
    · exact Or.inr (Or.inl ⟨_, rfl⟩)
  · exact Or.inr (Or.inr ⟨_, rfl⟩)

/-- C10. `NewSSHTunnel` returns either a nil tunnel and an error or a tunnel
and a nil error. It returns a tunnel exactly when reading the key file, parsing
the key, dialling the bastion and binding the listener all succeed. After the
first failed call nothing but closing calls follow. When it returns an error,
some call failed, `forward` was not started and no SSH client and no listener
is left open; when it returns a tunnel, no call failed, `forward` was started
once and one client and one listener are open. -/
theorem NewSSHTunnel_atomic (env : Env) (cfg : Config) :
    (((NewSSHTunnel env cfg).tunnel = none ∧ (NewSSHTunnel env cfg).err ≠ none)
      ∨ ((NewSSHTunnel env cfg).tunnel ≠ none ∧ (NewSSHTunnel env cfg).err = none))
    ∧ ((NewSSHTunnel env cfg).tunnel ≠ none ↔
        ∃ keyPath key signer client bound,
          (expandKeyPath env cfg.Default.SSHPrivateKey).1 = .ok keyPath
          ∧ env.readFile keyPath = .ok key
          ∧ env.parsePrivateKey key = .ok signer
          ∧ sshDial env (sprintfHostPort cfg.Default.SSHHost cfg.Default.SSHPort)
              (sshConfig cfg signer) = .ok client
          ∧ env.netListen "localhost:5433" = .ok bound)
    ∧ stopsAtFailure (NewSSHTunnel env cfg).calls = true
    ∧ ((NewSSHTunnel env cfg).tunnel = none →
        Call.goForward ∉ (NewSSHTunnel env cfg).calls
        ∧ openClients (NewSSHTunnel env cfg).calls = 0
        ∧ openListeners (NewSSHTunnel env cfg).calls = 0
        ∧ (NewSSHTunnel env cfg).calls.any Call.failed = true)
    ∧ ((NewSSHTunnel env cfg).tunnel ≠ none →
        (NewSSHTunnel env cfg).calls.count Call.goForward = 1
        ∧ openClients (NewSSHTunnel env cfg).calls = 1
        ∧ openListeners (NewSSHTunnel env cfg).calls = 1
        ∧ (NewSSHTunnel env cfg).calls.any Call.failed = false) := by
  unfold NewSSHTunnel
  rcases expandKeyPath_calls env cfg.Default.SSHPrivateKey with ⟨e, he⟩ | ⟨p, he⟩ | ⟨p, he⟩
  · rw [he]
    simp [stopsAtFailure, Call.failed, openClients, openListeners]
  all_goals
    rw [he]
    simp only
    cases h1 : env.readFile p with
    | error e => simp [stopsAtFailure, Call.failed, openClients, openListeners, h1]
    | ok key =>
      cases h2 : env.parsePrivateKey key with
      | error e => simp [stopsAtFailure, Call.failed, openClients, openListeners, h1, h2]
      | ok signer =>
        cases h3 : sshDial env (sprintfHostPort cfg.Default.SSHHost cfg.Default.SSHPort)
            (sshConfig cfg signer) with
        | error e => simp [stopsAtFailure, Call.failed, openClients, openListeners, h1, h2, h3]
        | ok client =>
          cases h4 : env.netListen "localhost:5433" with
          | error e =>
            simp [stopsAtFailure, Call.failed, Call.closes, openClients, openListeners, h1, h2,
              h3, h4]
          | ok bound =>
            simp [stopsAtFailure, Call.failed, openClients, openListeners, h1, h2, h3, h4,
              List.count_cons]

theorem sshDial_InsecureIgnoreHostKey (env : Env) (keys : String → HostKey) (addr : String)
    (config : ClientConfig) (h : config.HostKeyCallback = InsecureIgnoreHostKey) :
    sshDial (env.withHostKeys keys) addr config = sshDial env addr config := by
  unfold sshDial Env.withHostKeys
  cases h1 : env.tcpConnect addr with
  | error e => simp [h1]
  | ok b => simp [h1, h, InsecureIgnoreHostKey]

/-- C8, counterexample. The bastion of `permissiveEnv` presents a host key
that is not the key the user knows, so a client that verified the key would be
refused; `NewSSHTunnel` has no setting that opts into skipping verification,
and yet it returns a tunnel and a nil error. -/
theorem NewSSHTunnel_accepts_any_host_key :
    -- the bastion's key is not the key the user knows: a verifying client rejects it
    FixedHostKey knownHostKey "bastion.example:22" "rogue-key" ≠ none
    ∧ succeeded (sshDial permissiveEnv "bastion.example:22"
        (verifyingConfig sampleConfig "alice-key" knownHostKey)) = false
    -- yet construction succeeds
    ∧ (NewSSHTunnel permissiveEnv sampleConfig).err = none
    ∧ (NewSSHTunnel permissiveEnv sampleConfig).tunnel
        = some { Local := some { addr := "127.0.0.1:5433", closed := false }
                 Config := sampleConfig
                 client := some { addr := "bastion.example:22", closed := false } } := by
  decide

/-- C8, amended. The client configuration `NewSSHTunnel` builds always has
the host-key callback `ssh.InsecureIgnoreHostKey()`, which accepts every host
key, and the result of `NewSSHTunnel` does not depend on the host keys the
servers present: construction never fails on a host-key mismatch. -/
theorem NewSSHTunnel_skips_host_key_verification (env : Env) (cfg : Config) (signer : Signer)
    (keys : String → HostKey) :
    (sshConfig cfg signer).HostKeyCallback = InsecureIgnoreHostKey
    ∧ (∀ (host : String) (key : HostKey), (sshConfig cfg signer).HostKeyCallback host key = none)
    ∧ NewSSHTunnel (env.withHostKeys keys) cfg = NewSSHTunnel env cfg := by
  refine ⟨rfl, fun _ _ => rfl, ?_⟩
  unfold NewSSHTunnel
  have hd : ∀ s, sshDial (env.withHostKeys keys)
      (sprintfHostPort cfg.Default.SSHHost cfg.Default.SSHPort) (sshConfig cfg s)
      = sshDial env (sprintfHostPort cfg.Default.SSHHost cfg.Default.SSHPort) (sshConfig cfg s) :=
    fun s => sshDial_InsecureIgnoreHostKey env keys _ _ rfl
  simp only [hd]
  rfl

/-- C9, counterexample. Two configurations that differ in every field are
both bound by `net.Listen("tcp", "localhost:5433")` and both tunnels report the
same local endpoint: the address bound is not carried by the configuration. -/
theorem NewSSHTunnel_bind_address_not_from_config :
    ((NewSSHTunnel permissiveEnv sampleConfig).tunnel.bind SSHTunnel.GetLocalEndpoint)
        = some "127.0.0.1:5433"
    ∧ ((NewSSHTunnel permissiveEnv otherConfig).tunnel.bind SSHTunnel.GetLocalEndpoint)
        = some "127.0.0.1:5433"
    ∧ Call.netListen "localhost:5433" true ∈ (NewSSHTunnel permissiveEnv sampleConfig).calls
    ∧ Call.netListen "localhost:5433" true ∈ (NewSSHTunnel permissiveEnv otherConfig).calls
    ∧ sampleConfig.Default.SSHHost ≠ otherConfig.Default.SSHHost
    ∧ sampleConfig.Default.SSHPort ≠ otherConfig.Default.SSHPort
    ∧ sampleConfig.Default.SSHUser ≠ otherConfig.Default.SSHUser
    ∧ sampleConfig.Default.SSHPrivateKey ≠ otherConfig.Default.SSHPrivateKey
    ∧ sampleConfig.Database.ROTraffic.Server ≠ otherConfig.Database.ROTraffic.Server
    ∧ sampleConfig.Database.ROTraffic.Port ≠ otherConfig.Database.ROTraffic.Port
    ∧ sampleConfig.Database.ROTraffic.Username ≠ otherConfig.Database.ROTraffic.Username
    ∧ sampleConfig.Database.ROTraffic.Password ≠ otherConfig.Database.ROTraffic.Password
    ∧ sampleConfig.Database.ROTraffic.Database ≠ otherConfig.Database.ROTraffic.Database
    ∧ sampleConfig.Database.ROTraffic.SSLMode ≠ otherConfig.Database.ROTraffic.SSLMode := by
  decide

/-- C9, amended. Whatever the configuration, the only address `NewSSHTunnel`
binds is the fixed `localhost:5433`; after a successful construction
`GetLocalEndpoint` returns the address of the listener bound by that call; and
if that bind fails `NewSSHTunnel` returns a nil tunnel and an error. -/
theorem NewSSHTunnel_binds_fixed_address (env : Env) (cfg : Config) :
    (∀ (addr : String) (ok : Bool), Call.netListen addr ok ∈ (NewSSHTunnel env cfg).calls →
        addr = "localhost:5433" ∧ ok = succeeded (env.netListen "localhost:5433"))
    ∧ (∀ t : SSHTunnel, (NewSSHTunnel env cfg).tunnel = some t →
        ∃ bound : String, env.netListen "localhost:5433" = .ok bound
          ∧ t.GetLocalEndpoint = some bound)
    ∧ (∀ e : String, env.netListen "localhost:5433" = .error e →
        (NewSSHTunnel env cfg).tunnel = none ∧ (NewSSHTunnel env cfg).err ≠ none) := by
  unfold NewSSHTunnel
  rcases expandKeyPath_calls env cfg.Default.SSHPrivateKey with ⟨e, he⟩ | ⟨p, he⟩ | ⟨p, he⟩
  · rw [he]
    simp
  all_goals
    rw [he]
    simp only
    cases h1 : env.readFile p with
    | error e => simp [h1]
    | ok key =>
      cases h2 : env.parsePrivateKey key with
      | error e => simp [h1, h2]
      | ok signer =>
        cases h3 : sshDial env (sprintfHostPort cfg.Default.SSHHost cfg.Default.SSHPort)
            (sshConfig cfg signer) with
        | error e => simp [h1, h2, h3]
        | ok client =>
          cases h4 : env.netListen "localhost:5433" with
          | error e => simp [h1, h2, h3, h4, succeeded]
          | ok bound => simp [h1, h2, h3, h4, succeeded, SSHTunnel.GetLocalEndpoint]

/-- C9, amended, at `permissiveEnv` and `otherConfig`. -/
theorem NewSSHTunnel_binds_fixed_address_witness :
    ∃ bound : String, permissiveEnv.netListen "localhost:5433" = .ok bound
      ∧ SSHTunnel.GetLocalEndpoint
          { Local := some { addr := "127.0.0.1:5433", closed := false }
            Config := otherConfig
            client := some { addr := "jump.other:2222", closed := false } } = some bound :=
  (NewSSHTunnel_binds_fixed_address permissiveEnv otherConfig).2.1 _ (by decide)

/-- C10 at `busyPortEnv`: the bind fails after the SSH client was established;
the client is closed, `forward` is not started and an error is returned. -/
theorem NewSSHTunnel_atomic_witness :
    (NewSSHTunnel busyPortEnv sampleConfig).tunnel = none
    ∧ (NewSSHTunnel busyPortEnv sampleConfig).calls
        = [Call.userHomeDir true, Call.readFile "/home/alice/.ssh/id_rsa" true,
           Call.parsePrivateKey true, Call.sshDial "bastion.example:22" true,
           Call.netListen "localhost:5433" false, Call.clientClose]
    ∧ (Call.goForward ∉ (NewSSHTunnel busyPortEnv sampleConfig).calls
        ∧ openClients (NewSSHTunnel busyPortEnv sampleConfig).calls = 0
        ∧ openListeners (NewSSHTunnel busyPortEnv sampleConfig).calls = 0
        ∧ (NewSSHTunnel busyPortEnv sampleConfig).calls.any Call.failed = true) :=
  ⟨by decide, by decide,
   (NewSSHTunnel_atomic busyPortEnv sampleConfig).2.2.2.1 (by decide)⟩

theorem countP_set (p : Conn → Bool) (l : List Conn) :
    ∀ (i : Nat) (c c1 : Conn), l[i]? = some c →
      (l.set i c1).countP p + (if p c then 1 else 0) = l.countP p + (if p c1 then 1 else 0) := by
  induction l with
  | nil =>
    intro i c c1 h
    simp at h
  | cons x xs ih =>
    intro i c c1 h
    cases i with
    | zero =>
      simp only [List.getElem?_cons_zero, Option.some.injEq] at h
      subst h
      simp only [List.set_cons_zero, List.countP_cons]
      omega
    | succ n =>
      simp only [List.getElem?_cons_succ] at h
      have := ih n c c1 h
      simp only [List.set_cons_succ, List.countP_cons]
      omega

theorem countDialing_set (l : List Conn) (i : Nat) (c c1 : Conn) (h : l[i]? = some c)
    (h1 : c1.isDialing = c.isDialing) : countDialing (l.set i c1) = countDialing l := by
  have := countP_set Conn.isDialing l i c c1 h
  rw [h1] at this
  unfold countDialing
  omega

theorem isDialing_copyReturns (c c1 : Conn) (id : TaskId) (h : c.copyReturns id = some c1) :
    c1.isDialing = c.isDialing := by
  unfold Conn.copyReturns at h
  split at h
  · split at h
    · simp only [Option.some.injEq] at h
      subst h
      cases id <;> rfl
    · simp at h
  · simp at h

theorem isDialing_closeDone (c c1 : Conn) (id : TaskId) (h : c.closeDone id = Outcome.next c1) :
    c1.isDialing = c.isDialing := by
  obtain ⟨t, -, -, -, rfl⟩ := closeDone_next c c1 id h
  cases id <;> rfl

theorem isDialing_recvDone (c c1 : Conn) (h : c.recvDone = some c1) :
    c1.isDialing = c.isDialing := by
  unfold Conn.recvDone at h
  split at h
  · rename_i hp
    simp only [Option.some.injEq] at h
    subst h
    simp [Conn.isDialing, hp.1]
  · simp at h

theorem isDialing_runDeferred (c c1 : Conn) (h : c.runDeferred = some c1) :
    c1.isDialing = c.isDialing := by
  unfold Conn.runDeferred at h
  split at h
  · rename_i hp
    simp only [Option.some.injEq] at h
    subst h
    simp [Conn.isDialing, hp]
  · rename_i hp
    simp only [Option.some.injEq] at h
    subst h
    simp [Conn.isDialing, hp]
  · simp at h

theorem isDialing_dial (c c1 : Conn) (ok : Bool) (h : c.dial ok = some c1) :
    c.isDialing = true ∧ c1.isDialing = false := by
  unfold Conn.dial at h
  split at h
  · rename_i hp
    split at h
    · simp only [Option.some.injEq] at h
      subst h
      simp [Conn.isDialing, hp]
    · simp only [Option.some.injEq] at h
      subst h
      simp [Conn.isDialing, hp]
  · simp at h

theorem dialCount_append (a b : List Call) : dialCount (a ++ b) = dialCount a + dialCount b := by
  simp [dialCount]

theorem dialCount_Close (t : SSHTunnel) : dialCount t.Close.calls = 0 := by
  rcases t with ⟨l, cfg, c⟩
  cases l <;> cases c <;> simp [SSHTunnel.Close, dialCount, Call.isDial]

/-- One step adds one to the number of dials made plus handlers still to dial
exactly when it is an `Accept` that returned a connection, and then one
handler is added. -/
theorem step_counts (rt rt1 : Runtime) (a : Action) (hs : step rt a = some rt1) :
    dialCount rt1.calls + countDialing rt1.conns
        = dialCount rt.calls + countDialing rt.conns + (if a.isAccepted then 1 else 0)
    ∧ rt1.conns.length = rt.conns.length + (if a.isAccepted then 1 else 0) := by
  have hrun : rt.crashed = false := by
    cases hcr : rt.crashed
    · rfl
    · simp [step, hcr] at hs
  rw [step_running rt a hrun] at hs
  cases a <;> dsimp only at hs
  case forwardStart =>
    unfold Runtime.forwardStart at hs
    split at hs
    · split at hs <;> simp only [Option.some.injEq] at hs <;> subst hs <;>
        simp [Action.isAccepted]
    · simp at hs
  case accept err =>
    unfold Runtime.accept at hs
    split at hs
    · split at hs
      · split at hs <;> simp only [Option.some.injEq] at hs <;> subst hs <;>
          simp [Action.isAccepted]
      · simp only [Option.some.injEq] at hs
        subst hs
        simp [Action.isAccepted, countDialing, Conn.isDialing, Conn.accepted]
        omega
    · simp at hs
  case dial i ok =>
    obtain ⟨c, c1, addr, hc, -, hd, hcase | hcase⟩ := dial_frame rt rt1 i ok hs
    · rw [hcase.2]
      simp [Action.isAccepted]
    · rw [hcase.2]
      have h1 := isDialing_dial c c1 ok hd
      have h2 := countP_set Conn.isDialing rt.conns i c c1 hc
      rw [h1.1, h1.2] at h2
      simp only [Action.isAccepted, dialCount_append, List.length_set]
      simp only [dialCount, countDialing, List.countP_cons, List.countP_nil, Call.isDial] at h2 ⊢
      simp at h2 ⊢
      omega
  case copyReturns i id =>
    obtain ⟨c, c1, hc, hf, rfl⟩ := onConn_frame rt rt1 i _ hs
    simp [Action.isAccepted, countDialing_set _ _ _ _ hc (isDialing_copyReturns c c1 id hf)]
  case closeDone i id =>
    obtain ⟨c, hc, hcase | hcase⟩ := closeDone_frame rt rt1 i id hs
    · obtain ⟨c1, hcd, rfl⟩ := hcase
      simp [Action.isAccepted, countDialing_set _ _ _ _ hc (isDialing_closeDone c c1 id hcd)]
    · rw [hcase.2]
      simp [Action.isAccepted]
  case recvDone i =>
    obtain ⟨c, c1, hc, hf, rfl⟩ := onConn_frame rt rt1 i _ hs
    simp [Action.isAccepted, countDialing_set _ _ _ _ hc (isDialing_recvDone c c1 hf)]
  case runDeferred i =>
    obtain ⟨c, c1, hc, hf, rfl⟩ := onConn_frame rt rt1 i _ hs
    simp [Action.isAccepted, countDialing_set _ _ _ _ hc (isDialing_runDeferred c c1 hf)]
  case close =>
    simp only [Option.some.injEq] at hs
    subst hs
    simp [Action.isAccepted, Runtime.close, dialCount_append, dialCount_Close]
  case setConfig cfg =>
    simp only [Option.some.injEq] at hs
    subst hs
    simp [Action.isAccepted]

theorem run_counts (schedule : List Action) :
    ∀ rt rt1 : Runtime, run rt schedule = some rt1 →
      dialCount rt1.calls + countDialing rt1.conns
          = dialCount rt.calls + countDialing rt.conns + acceptCount schedule
      ∧ rt1.conns.length = rt.conns.length + acceptCount schedule := by
  induction schedule with
  | nil =>
    intro rt rt1 hs
    simp only [run, Option.some.injEq] at hs
    subst hs
    simp [acceptCount]
  | cons a rest ih =>
    intro rt rt1 hs
    simp only [run] at hs
    split at hs
    · rename_i rt2 h2
      have h3 := step_counts rt rt2 a h2
      have h4 := ih rt2 rt1 hs
      simp only [acceptCount, List.countP_cons] at h4 ⊢
      omega
    · simp at hs

/-- A step leaves every connection other than the one it belongs to as it was. -/
theorem step_other_conn (rt rt1 : Runtime) (a : Action) (j : Nat)
    (hs : step rt a = some rt1) (ha : a.conn ≠ some j) (hj : j < rt.conns.length) :
    rt1.conns[j]? = rt.conns[j]? := by
  have hrun : rt.crashed = false := by
    cases hcr : rt.crashed
    · rfl
    · simp [step, hcr] at hs
  rw [step_running rt a hrun] at hs
  cases a <;> dsimp only at hs
  case forwardStart =>
    unfold Runtime.forwardStart at hs
    split at hs
    · split at hs <;> simp only [Option.some.injEq] at hs <;> subst hs <;> rfl
    · simp at hs
  case accept err =>
    unfold Runtime.accept at hs
    split at hs
    · split at hs
      · split at hs <;> simp only [Option.some.injEq] at hs <;> subst hs <;> rfl
      · simp only [Option.some.injEq] at hs
        subst hs
        exact List.getElem?_append_left hj
    · simp at hs
  case dial i ok =>
    have hij : i ≠ j := fun h => ha (by simp [Action.conn, h])
    obtain ⟨c, c1, addr, -, -, -, hcase | hcase⟩ := dial_frame rt rt1 i ok hs
    · rw [hcase.2]
    · rw [hcase.2]
      simp [List.getElem?_set, hij]
  case copyReturns i id =>
    have hij : i ≠ j := fun h => ha (by simp [Action.conn, h])
    obtain ⟨c, c1, -, -, rfl⟩ := onConn_frame rt rt1 i _ hs
    simp [List.getElem?_set, hij]
  case closeDone i id =>
    have hij : i ≠ j := fun h => ha (by simp [Action.conn, h])
    obtain ⟨c, -, hcase | hcase⟩ := closeDone_frame rt rt1 i id hs
    · obtain ⟨c1, -, rfl⟩ := hcase
      simp [List.getElem?_set, hij]
    · rw [hcase.2]
  case recvDone i =>
    have hij : i ≠ j := fun h => ha (by simp [Action.conn, h])
    obtain ⟨c, c1, -, -, rfl⟩ := onConn_frame rt rt1 i _ hs
    simp [List.getElem?_set, hij]
  case runDeferred i =>
    have hij : i ≠ j := fun h => ha (by simp [Action.conn, h])
    obtain ⟨c, c1, -, -, rfl⟩ := onConn_frame rt rt1 i _ hs
    simp [List.getElem?_set, hij]
  case close =>
    simp only [Option.some.injEq] at hs
    subst hs
    rfl
  case setConfig cfg =>
    simp only [Option.some.injEq] at hs
    subst hs
    rfl

theorem lt_length_of_get (l : List Conn) (i : Nat) (c : Conn) (h : l[i]? = some c) :
    i < l.length := by
  by_contra hn
  simp [List.getElem?_eq_none (Nat.le_of_not_lt hn)] at h

/-- A handler that has made its `Dial` call never gets back to it. -/
theorem step_dialed (rt rt1 : Runtime) (a : Action) (i : Nat) (c : Conn)
    (hs : step rt a = some rt1) (hc : rt.conns[i]? = some c) (hd : c.isDialing = false) :
    ∃ c1, rt1.conns[i]? = some c1 ∧ c1.isDialing = false := by
  by_cases ha : a.conn = some i
  · have hrun : rt.crashed = false := by
      cases hcr : rt.crashed
      · rfl
      · simp [step, hcr] at hs
    rw [step_running rt a hrun] at hs
    cases a with
    | forwardStart => simp [Action.conn] at ha
    | accept err => simp [Action.conn] at ha
    | close => simp [Action.conn] at ha
    | setConfig cfg => simp [Action.conn] at ha
    | dial j ok =>
      simp only [Action.conn, Option.some.injEq] at ha
      subst ha
      dsimp only at hs
      obtain ⟨c0, c1, addr, hc0, -, hdial, hcase | hcase⟩ := dial_frame rt rt1 _ ok hs
      · rw [hcase.2]
        exact ⟨c, hc, hd⟩
      · rw [hc] at hc0
        simp only [Option.some.injEq] at hc0
        subst hc0
        rw [(isDialing_dial c c1 ok hdial).1] at hd
        simp at hd
    | copyReturns j id =>
      simp only [Action.conn, Option.some.injEq] at ha
      subst ha
      dsimp only at hs
      obtain ⟨c0, c1, hc0, hf, rfl⟩ := onConn_frame rt rt1 _ _ hs
      rw [hc] at hc0
      simp only [Option.some.injEq] at hc0
      subst hc0
      exact ⟨c1, getElem?_set_same _ _ _ _ hc, (isDialing_copyReturns c c1 id hf).trans hd⟩
    | closeDone j id =>
      simp only [Action.conn, Option.some.injEq] at ha
      subst ha
      dsimp only at hs
      obtain ⟨c0, hc0, hcase | hcase⟩ := closeDone_frame rt rt1 _ id hs
      · obtain ⟨c1, hcd, rfl⟩ := hcase
        rw [hc] at hc0
        simp only [Option.some.injEq] at hc0
        subst hc0
        exact ⟨c1, getElem?_set_same _ _ _ _ hc, (isDialing_closeDone c c1 id hcd).trans hd⟩
      · rw [hcase.2]
        exact ⟨c, hc, hd⟩
    | recvDone j =>
      simp only [Action.conn, Option.some.injEq] at ha
      subst ha
      dsimp only at hs
      obtain ⟨c0, c1, hc0, hf, rfl⟩ := onConn_frame rt rt1 _ _ hs
      rw [hc] at hc0
      simp only [Option.some.injEq] at hc0
      subst hc0
      exact ⟨c1, getElem?_set_same _ _ _ _ hc, (isDialing_recvDone c c1 hf).trans hd⟩
    | runDeferred j =>
      simp only [Action.conn, Option.some.injEq] at ha
      subst ha
      dsimp only at hs
      obtain ⟨c0, c1, hc0, hf, rfl⟩ := onConn_frame rt rt1 _ _ hs
      rw [hc] at hc0
      simp only [Option.some.injEq] at hc0
      subst hc0
      exact ⟨c1, getElem?_set_same _ _ _ _ hc, (isDialing_runDeferred c c1 hf).trans hd⟩
  · refine ⟨c, ?_, hd⟩
    rw [step_other_conn rt rt1 a i hs ha (lt_length_of_get _ _ _ hc)]
    exact hc

theorem run_dialed (schedule : List Action) :
    ∀ (rt rt1 : Runtime) (i : Nat) (c : Conn), run rt schedule = some rt1 →
      rt.conns[i]? = some c → c.isDialing = false →
      ∃ c1, rt1.conns[i]? = some c1 ∧ c1.isDialing = false := by
  induction schedule with
  | nil =>
    intro rt rt1 i c hs hc hd
    simp only [run, Option.some.injEq] at hs
    subst hs
    exact ⟨c, hc, hd⟩
  | cons a rest ih =>
    intro rt rt1 i c hs hc hd
    simp only [run] at hs
    split at hs
    · rename_i rt2 h2
      obtain ⟨c2, hc2, hd2⟩ := step_dialed rt rt2 a i c h2 hc hd
      exact ih rt2 rt1 i c2 hs hc2 hd2
    · simp at hs

theorem dial_disabled (rt : Runtime) (i : Nat) (c : Conn) (ok : Bool)
    (hc : rt.conns[i]? = some c) (hd : c.isDialing = false) :
    step rt (.dial i ok) = none := by
  by_cases hcr : rt.crashed = true
  · simp [step, hcr]
  · rw [step_running rt _ (by simpa using hcr)]
    have hpc : c.pc ≠ .dialing := by simpa [Conn.isDialing] using hd
    dsimp only
    unfold Runtime.dial
    rw [hc]
    cases rt.dbAddr <;> simp [Conn.dial, hpc]

theorem run_append (s1 : List Action) :
    ∀ (rt : Runtime) (s2 : List Action),
      run rt (s1 ++ s2) = (run rt s1).bind (fun r => run r s2) := by
  induction s1 with
  | nil =>
    intro rt s2
    simp [run]
  | cons a rest ih =>
    intro rt s2
    simp only [List.cons_append, run]
    cases step rt a with
    | none => simp
    | some r => simp [ih]

theorem run_accepts (n : Nat) :
    ∀ rt : Runtime, rt.crashed = false → rt.loop = .accepting →
      run rt (List.replicate n (.accept none))
        = some { rt with conns := rt.conns ++ List.replicate n Conn.accepted } := by
  induction n with
  | zero =>
    intro rt _ _
    simp [run]
  | succ n ih =>
    intro rt hrun hloop
    have h1 : step rt (.accept none) = some { rt with conns := rt.conns ++ [Conn.accepted] } := by
      simp [step, hrun, Runtime.accept, hloop]
    simp only [List.replicate_succ, run, h1]
    have h2 := ih { rt with conns := rt.conns ++ [Conn.accepted] } hrun hloop
    simp only [List.append_assoc, List.singleton_append] at h2
    exact h2

/-- C12. In every run of a tunnel's process: the number of handlers equals
the number of connections `Accept` returned; the dials made plus the handlers
that have not dialled yet equal that number, so there are never more dials than
accepted connections; a handler that has dialled cannot dial again, now or
after any further steps; a failed `Accept` starts no handler and makes no
call; and a dial step that does not crash adds exactly one dial to the log. -/
theorem forward_one_dial_per_accept (t : SSHTunnel) (schedule : List Action) (rt : Runtime)
    (h : run (Runtime.start t) schedule = some rt) :
    rt.conns.length = acceptCount schedule
    ∧ dialCount rt.calls + countDialing rt.conns = acceptCount schedule
    ∧ dialCount rt.calls ≤ acceptCount schedule
    ∧ (∀ (i : Nat) (c : Conn) (ok : Bool), rt.conns[i]? = some c → c.isDialing = false →
        step rt (.dial i ok) = none)
    ∧ (∀ (later : List Action) (rt1 : Runtime) (i : Nat) (c : Conn), run rt later = some rt1 →
        rt.conns[i]? = some c → c.isDialing = false →
        ∃ c1, rt1.conns[i]? = some c1 ∧ c1.isDialing = false)
    ∧ (∀ (msg : String) (rt1 : Runtime), step rt (.accept (some msg)) = some rt1 →
        rt1.conns = rt.conns ∧ rt1.calls = rt.calls)
    ∧ (∀ (i : Nat) (ok : Bool) (rt1 : Runtime), step rt (.dial i ok) = some rt1 →
        rt1.crashed = false → dialCount rt1.calls = dialCount rt.calls + 1) := by
  have hc := run_counts schedule _ rt h
  simp only [Runtime.start, dialCount, countDialing, List.countP_nil, List.length_nil,
    zero_add] at hc
  refine ⟨hc.2, ?_, ?_, ?_, ?_, ?_, ?_⟩
  · simpa [dialCount, countDialing] using hc.1
  · have := hc.1
    simp only [dialCount]
    omega
  · intro i c ok hci hd
    exact dial_disabled rt i c ok hci hd
  · intro later rt1 i c hl hci hd
    exact run_dialed later rt rt1 i c hl hci hd
  · intro msg rt1 hs
    have hrun : rt.crashed = false := by
      cases hcr : rt.crashed
      · rfl
      · simp [step, hcr] at hs
    rw [step_running rt _ hrun] at hs
    dsimp only at hs
    unfold Runtime.accept at hs
    split at hs
    · dsimp only at hs
      split at hs <;> simp only [Option.some.injEq] at hs <;> subst hs <;> exact ⟨rfl, rfl⟩
    · simp at hs
  · intro i ok rt1 hs hcr
    have hrun : rt.crashed = false := by
      cases hcr : rt.crashed
      · rfl
      · simp [step, hcr] at hs
    rw [step_running rt _ hrun] at hs
    dsimp only at hs
    obtain ⟨c, c1, addr, -, -, -, hcase | hcase⟩ := dial_frame rt rt1 i ok hs
    · rw [hcase.2] at hcr
      simp at hcr
    · rw [hcase.2]
      simp [dialCount, Call.isDial]

/-- C12 at `sampleDialSchedule`: two connections accepted, two dials, and
the handler whose dial failed cannot dial again. -/
theorem forward_one_dial_per_accept_witness :
    run (Runtime.start sampleTunnel) sampleDialSchedule = some sampleDialed
    ∧ sampleDialed.conns.length = 2
    ∧ dialCount sampleDialed.calls = 2
    ∧ step sampleDialed (.dial 0 true) = none :=
  ⟨by decide, by decide, by decide,
   (forward_one_dial_per_accept sampleTunnel sampleDialSchedule sampleDialed (by decide)).2.2.2.1
     0 { Conn.accepted with pc := .closingLocal } true (by decide) (by decide)⟩

theorem Close_calls_no_dial (t : SSHTunnel) (a : String) (ok : Bool) :
    Call.clientDial a ok ∉ t.Close.calls := by
  rcases t with ⟨l, cfg, c⟩
  cases l <;> cases c <;> simp [SSHTunnel.Close]

/-- A step keeps the address invariant and never changes a `dbAddr` that is set. -/
theorem step_addr (rt rt1 : Runtime) (a : Action) (hs : step rt a = some rt1)
    (hk : rt.addrInv) :
    rt1.addrInv ∧ (∀ x, rt.dbAddr = some x → rt1.dbAddr = some x) := by
  have hrun : rt.crashed = false := by
    cases hcr : rt.crashed
    · rfl
    · simp [step, hcr] at hs
  rw [step_running rt a hrun] at hs
  obtain ⟨hk1, hk2⟩ := hk
  cases a <;> dsimp only at hs
  case forwardStart =>
    unfold Runtime.forwardStart at hs
    split at hs
    · rename_i hl
      split at hs
      · simp only [Option.some.injEq] at hs
        subst hs
        exact ⟨⟨hk1, hk2⟩, fun x hx => hx⟩
      · simp only [Option.some.injEq] at hs
        subst hs
        refine ⟨⟨by simp, ?_⟩, ?_⟩
        · intro a ok hmem
          have := hk2 a ok hmem
          rw [hk1 hl] at this
          simp at this
        · intro x hx
          rw [hk1 hl] at hx
          simp at hx
    · simp at hs
  case accept err =>
    unfold Runtime.accept at hs
    split at hs
    · rename_i hl
      split at hs
      · split at hs
        · simp only [Option.some.injEq] at hs
          subst hs
          exact ⟨⟨by simp, hk2⟩, fun x hx => hx⟩
        · simp only [Option.some.injEq] at hs
          subst hs
          exact ⟨⟨hk1, hk2⟩, fun x hx => hx⟩
      · simp only [Option.some.injEq] at hs
        subst hs
        exact ⟨⟨hk1, hk2⟩, fun x hx => hx⟩
    · simp at hs
  case dial i ok =>
    obtain ⟨c, c1, addr, -, haddr, -, hcase | hcase⟩ := dial_frame rt rt1 i ok hs
    · rw [hcase.2]
      exact ⟨⟨hk1, hk2⟩, fun x hx => hx⟩
    · rw [hcase.2]
      refine ⟨⟨hk1, ?_⟩, fun x hx => hx⟩
      intro a ok1 hmem
      simp only [List.mem_append, List.mem_singleton, Call.clientDial.injEq] at hmem
      rcases hmem with hmem | hmem
      · exact hk2 a ok1 hmem
      · simp only
        rw [hmem.1]
        exact haddr
  case copyReturns i id =>
    obtain ⟨c, c1, -, -, rfl⟩ := onConn_frame rt rt1 i _ hs
    exact ⟨⟨hk1, hk2⟩, fun x hx => hx⟩
  case closeDone i id =>
    obtain ⟨c, -, hcase | hcase⟩ := closeDone_frame rt rt1 i id hs
    · obtain ⟨c1, -, rfl⟩ := hcase
      exact ⟨⟨hk1, hk2⟩, fun x hx => hx⟩
    · rw [hcase.2]
      exact ⟨⟨hk1, hk2⟩, fun x hx => hx⟩
  case recvDone i =>
    obtain ⟨c, c1, -, -, rfl⟩ := onConn_frame rt rt1 i _ hs
    exact ⟨⟨hk1, hk2⟩, fun x hx => hx⟩
  case runDeferred i =>
    obtain ⟨c, c1, -, -, rfl⟩ := onConn_frame rt rt1 i _ hs
    exact ⟨⟨hk1, hk2⟩, fun x hx => hx⟩
  case close =>
    simp only [Option.some.injEq] at hs
    subst hs
    refine ⟨⟨hk1, ?_⟩, fun x hx => hx⟩
    intro a ok hmem
    simp only [Runtime.close, List.mem_append] at hmem
    rcases hmem with hmem | hmem
    · exact hk2 a ok hmem
    · exact absurd hmem (Close_calls_no_dial _ a ok)
  case setConfig cfg =>
    simp only [Option.some.injEq] at hs
    subst hs
    exact ⟨⟨hk1, hk2⟩, fun x hx => hx⟩

theorem run_addr (schedule : List Action) :
    ∀ rt rt1 : Runtime, run rt schedule = some rt1 → rt.addrInv →
      rt1.addrInv ∧ (∀ x, rt.dbAddr = some x → rt1.dbAddr = some x) := by
  induction schedule with
  | nil =>
    intro rt rt1 hs hk
    simp only [run, Option.some.injEq] at hs
    subst hs
    exact ⟨hk, fun x hx => hx⟩
  | cons a rest ih =>
    intro rt rt1 hs hk
    simp only [run] at hs
    split at hs
    · rename_i rt2 h2
      obtain ⟨hk2, hst2⟩ := step_addr rt rt2 a h2 hk
      obtain ⟨hk3, hst3⟩ := ih rt2 rt1 hs hk2
      exact ⟨hk3, fun x hx => hst3 x (hst2 x hx)⟩
    · simp at hs

theorem addrInv_start (t : SSHTunnel) : (Runtime.start t).addrInv := by
  simp [Runtime.addrInv, Runtime.start]

/-- A step that does not change the configuration record leaves the tunnel's
configuration as it was. -/
theorem step_Config (rt rt1 : Runtime) (a : Action) (hs : step rt a = some rt1)
    (ha : a.isSetConfig = false) : rt1.tunnel.Config = rt.tunnel.Config := by
  have hrun : rt.crashed = false := by
    cases hcr : rt.crashed
    · rfl
    · simp [step, hcr] at hs
  rw [step_running rt a hrun] at hs
  cases a <;> dsimp only at hs
  case forwardStart =>
    unfold Runtime.forwardStart at hs
    split at hs
    · split at hs <;> simp only [Option.some.injEq] at hs <;> subst hs <;> rfl
    · simp at hs
  case accept err =>
    unfold Runtime.accept at hs
    split at hs
    · split at hs
      · split at hs <;> simp only [Option.some.injEq] at hs <;> subst hs <;> rfl
      · simp only [Option.some.injEq] at hs
        subst hs
        rfl
    · simp at hs
  case dial i ok =>
    obtain ⟨c, c1, addr, -, -, -, hcase | hcase⟩ := dial_frame rt rt1 i ok hs
    · rw [hcase.2]
    · rw [hcase.2]
  case copyReturns i id =>
    obtain ⟨c, c1, -, -, rfl⟩ := onConn_frame rt rt1 i _ hs
    rfl
  case closeDone i id =>
    obtain ⟨c, -, hcase | hcase⟩ := closeDone_frame rt rt1 i id hs
    · obtain ⟨c1, -, rfl⟩ := hcase
      rfl
    · rw [hcase.2]
  case recvDone i =>
    obtain ⟨c, c1, -, -, rfl⟩ := onConn_frame rt rt1 i _ hs
    rfl
  case runDeferred i =>
    obtain ⟨c, c1, -, -, rfl⟩ := onConn_frame rt rt1 i _ hs
    rfl
  case close =>
    simp only [Option.some.injEq] at hs
    subst hs
    rcases rt with ⟨⟨l, cfg, cl⟩, _, _, _, _, _⟩
    cases l <;> cases cl <;> simp [Runtime.close, SSHTunnel.Close]
  case setConfig cfg =>
    simp [Action.isSetConfig] at ha

theorem run_Config (schedule : List Action) :
    ∀ rt rt1 : Runtime, run rt schedule = some rt1 →
      (∀ a ∈ schedule, a.isSetConfig = false) → rt1.tunnel.Config = rt.tunnel.Config := by
  induction schedule with
  | nil =>
    intro rt rt1 hs _
    simp only [run, Option.some.injEq] at hs
    subst hs
    rfl
  | cons a rest ih =>
    intro rt rt1 hs hno
    simp only [run] at hs
    split at hs
    · rename_i rt2 h2
      have h3 := step_Config rt rt2 a h2 (hno a (List.mem_cons_self _ _))
      have h4 := ih rt2 rt1 hs (fun b hb => hno b (List.mem_cons_of_mem _ hb))
      rw [h4, h3]
    · simp at hs

theorem run_crashed (schedule : List Action) (rt rt1 : Runtime) (hcr : rt.crashed = true)
    (h : run rt schedule = some rt1) : rt1 = rt := by
  cases schedule with
  | nil =>
    simp only [run, Option.some.injEq] at h
    exact h.symm
  | cons a rest => simp [run, step, hcr] at h

/-- Once the accept loop has returned it stays returned and accepts nothing. -/
theorem step_loop_returned (rt rt1 : Runtime) (a : Action) (hs : step rt a = some rt1)
    (hl : rt.loop = .returned) : rt1.loop = .returned ∧ a.isAccepted = false := by
  have hrun : rt.crashed = false := by
    cases hcr : rt.crashed
    · rfl
    · simp [step, hcr] at hs
  rw [step_running rt a hrun] at hs
  cases a <;> dsimp only at hs
  case forwardStart => simp [Runtime.forwardStart, hl] at hs
  case accept err => simp [Runtime.accept, hl] at hs
  case dial i ok =>
    obtain ⟨c, c1, addr, -, -, -, hcase | hcase⟩ := dial_frame rt rt1 i ok hs
    · rw [hcase.2]
      exact ⟨hl, rfl⟩
    · rw [hcase.2]
      exact ⟨hl, rfl⟩
  case copyReturns i id =>
    obtain ⟨c, c1, -, -, rfl⟩ := onConn_frame rt rt1 i _ hs
    exact ⟨hl, rfl⟩
  case closeDone i id =>
    obtain ⟨c, -, hcase | hcase⟩ := closeDone_frame rt rt1 i id hs
    · obtain ⟨c1, -, rfl⟩ := hcase
      exact ⟨hl, rfl⟩
    · rw [hcase.2]
      exact ⟨hl, rfl⟩
  case recvDone i =>
    obtain ⟨c, c1, -, -, rfl⟩ := onConn_frame rt rt1 i _ hs
    exact ⟨hl, rfl⟩
  case runDeferred i =>
    obtain ⟨c, c1, -, -, rfl⟩ := onConn_frame rt rt1 i _ hs
    exact ⟨hl, rfl⟩
  case close =>
    simp only [Option.some.injEq] at hs
    subst hs
    exact ⟨hl, rfl⟩
  case setConfig cfg =>
    simp only [Option.some.injEq] at hs
    subst hs
    exact ⟨hl, rfl⟩

theorem run_loop_returned (schedule : List Action) :
    ∀ rt rt1 : Runtime, run rt schedule = some rt1 → rt.loop = .returned →
      acceptCount schedule = 0 := by
  induction schedule with
  | nil =>
    intro rt rt1 _ _
    rfl
  | cons a rest ih =>
    intro rt rt1 hs hl
    simp only [run] at hs
    split at hs
    · rename_i rt2 h2
      obtain ⟨hl2, ha⟩ := step_loop_returned rt rt2 a h2 hl
      have := ih rt2 rt1 hs hl2
      simp only [acceptCount, List.countP_cons, ha] at this ⊢
      simpa using this
    · simp at hs

/-- C11, counterexample. A connection of `sampleTunnel` is accepted, then
`Close` is called and returns (the log ends with the two closing calls), and
then the handler of the connection calls `Dial` on the SSH client: a remote
dial is issued after `Close` returned. -/
theorem forward_dials_after_Close :
    (run (Runtime.start sampleTunnel) (sampleCloseSchedule.take 3)).map (fun rt => rt.calls)
      = some [Call.listenerClose, Call.clientClose]
    ∧ (run (Runtime.start sampleTunnel) sampleCloseSchedule).map (fun rt => rt.calls)
      = some [Call.listenerClose, Call.clientClose, Call.clientDial "db.internal:5432" false] := by
  decide

/-- C11, amended. From the state in which `Close` has returned, whatever
happens next: the dials made plus the handlers that have not dialled yet grow
only by the connections `Accept` returns, so the dials issued after `Close`
are at most the handlers that had not dialled when `Close` returned plus the
connections accepted afterwards; if the accept loop has returned, or `Accept`
returns no further connection, they are at most the handlers that had not
dialled when `Close` returned. `Close` itself issues no dial and leaves the
handlers as they were. -/
theorem forward_dials_after_Close_bounded (rt rt1 : Runtime) (later : List Action)
    (h : run rt.close later = some rt1) :
    dialCount rt.close.calls = dialCount rt.calls
    ∧ rt.close.conns = rt.conns
    ∧ dialCount rt1.calls + countDialing rt1.conns
        = dialCount rt.close.calls + countDialing rt.conns + acceptCount later
    ∧ dialCount rt1.calls ≤ dialCount rt.close.calls + countDialing rt.conns + acceptCount later
    ∧ (rt.loop = .returned → dialCount rt1.calls ≤ dialCount rt.close.calls + countDialing rt.conns)
    ∧ (acceptCount later = 0 →
        dialCount rt1.calls ≤ dialCount rt.close.calls + countDialing rt.conns) := by
  have hc := (run_counts later rt.close rt1 h).1
  have hconns : rt.close.conns = rt.conns := rfl
  rw [hconns] at hc
  refine ⟨?_, rfl, hc, by omega, ?_, ?_⟩
  · simp [Runtime.close, dialCount_append, dialCount_Close]
  · intro hl
    have := run_loop_returned later rt.close rt1 h hl
    omega
  · intro h0
    omega

/-- C11, amended, at `sampleTunnel`: one handler had not dialled when `Close`
returned, and one dial follows. -/
theorem forward_dials_after_Close_bounded_witness :
    dialCount [Call.listenerClose, Call.clientClose, Call.clientDial "db.internal:5432" false]
      ≤ 0 + 1 :=
  ((forward_dials_after_Close_bounded
      { tunnel := sampleTunnel, dbAddr := some "db.internal:5432", loop := .accepting
        conns := [Conn.accepted], calls := [], crashed := false }
      { tunnel := sampleTunnel.Close.tunnel, dbAddr := some "db.internal:5432", loop := .accepting
        conns := [{ Conn.accepted with pc := .closingLocal }]
        calls := [Call.listenerClose, Call.clientClose, Call.clientDial "db.internal:5432" false]
        crashed := false }
      [.dial 0 false] (by decide)).2.2.2.2.2 (by decide))

/-- C13, counterexample. The caller changes the configuration record right
after `NewSSHTunnel` returned, before the `forward` goroutine has formed
`dbAddr`: the connection is dialled to the changed address, not to the address
of the configuration the tunnel was constructed with. -/
theorem forward_dials_changed_config :
    (run (Runtime.start sampleTunnel) sampleRaceSchedule).map (fun rt => rt.calls)
      = some [Call.clientDial "pg.other:6543" true]
    ∧ sprintfHostPort sampleTunnel.Config.Database.ROTraffic.Server
        sampleTunnel.Config.Database.ROTraffic.Port = "db.internal:5432" := by
  decide

/-- C13, amended. In a run in which `forward` starts: every dial made
targets `dbAddr`; once `dbAddr` is formed it never changes, whatever happens
later, changes of the configuration record included, and every later dial
targets it; and when the configuration record was not changed before `forward`
started, every dial targets `host:port` of the configuration the tunnel was
constructed with. -/
theorem forward_dial_address_fixed (t : SSHTunnel) (before after : List Action) (rt : Runtime)
    (h : run (Runtime.start t) (before ++ .forwardStart :: after) = some rt) :
    (∀ (a : String) (ok : Bool), Call.clientDial a ok ∈ rt.calls → rt.dbAddr = some a)
    ∧ (∀ (x : String), rt.dbAddr = some x → ∀ (later : List Action) (rt1 : Runtime),
        run rt later = some rt1 →
        rt1.dbAddr = some x ∧ ∀ (a : String) (ok : Bool), Call.clientDial a ok ∈ rt1.calls → a = x)
    ∧ ((∀ a ∈ before, a.isSetConfig = false) →
        ∀ (a : String) (ok : Bool), Call.clientDial a ok ∈ rt.calls →
          a = sprintfHostPort t.Config.Database.ROTraffic.Server
                t.Config.Database.ROTraffic.Port) := by
  have hk := (run_addr _ _ rt h (addrInv_start t)).1
  refine ⟨hk.2, ?_, ?_⟩
  · intro x hx later rt1 hl
    obtain ⟨hk1, hst⟩ := run_addr later rt rt1 hl hk
    refine ⟨hst x hx, ?_⟩
    intro a ok hmem
    have h1 := hk1.2 a ok hmem
    rw [hst x hx] at h1
    simpa using h1.symm
  · intro hno a ok hmem
    rw [run_append] at h
    cases hb : run (Runtime.start t) before with
    | none => simp [hb] at h
    | some rtb =>
      simp only [hb, Option.some_bind, run] at h
      have hcfg : rtb.tunnel.Config = t.Config := run_Config before _ rtb hb hno
      have hkb := (run_addr before _ rtb hb (addrInv_start t)).1
      cases hf : step rtb .forwardStart with
      | none => simp [hf] at h
      | some rtf =>
        simp only [hf] at h
        have hkf := (step_addr rtb rtf _ hf hkb).1
        have hrunb : rtb.crashed = false := by
          cases hcr : rtb.crashed
          · rfl
          · simp [step, hcr] at hf
        rw [step_running rtb _ hrunb] at hf
        dsimp only at hf
        unfold Runtime.forwardStart at hf
        split at hf
        · rename_i hstart
          split at hf
          · simp only [Option.some.injEq] at hf
            have hcr : rtf.crashed = true := by rw [← hf]
            have hrt := run_crashed after rtf rt hcr h
            have hnone : rtf.dbAddr = none := by
              rw [← hf]
              exact hkb.1 hstart
            have := hk.2 a ok hmem
            rw [hrt, hnone] at this
            simp at this
          · simp only [Option.some.injEq] at hf
            have haddr : rtf.dbAddr = some (sprintfHostPort rtb.tunnel.Config.Database.ROTraffic.Server
                rtb.tunnel.Config.Database.ROTraffic.Port) := by rw [← hf]
            have hst := (run_addr after rtf rt h hkf).2 _ haddr
            have := hk.2 a ok hmem
            rw [hst, hcfg] at this
            simpa using this.symm
        · simp at hf

/-- C13, amended, at `sampleTunnel`: the configuration record is changed
after `forward` started and the connection is still dialled to the address of
the configuration the tunnel was constructed with. -/
theorem forward_dial_address_fixed_witness :
    (run (Runtime.start sampleTunnel) ([] ++ .forwardStart :: sampleLateChange)).map
        (fun rt => rt.calls) = some [Call.clientDial "db.internal:5432" true]
    ∧ "db.internal:5432" = sprintfHostPort sampleTunnel.Config.Database.ROTraffic.Server
        sampleTunnel.Config.Database.ROTraffic.Port :=
  ⟨by decide,
   (forward_dial_address_fixed sampleTunnel [] sampleLateChange
      { tunnel := { sampleTunnel with Config := otherConfig }
        dbAddr := some "db.internal:5432", loop := .accepting
        conns := [Conn.forwarded], calls := [Call.clientDial "db.internal:5432" true]
        crashed := false }
      (by decide)).2.2 (by simp) "db.internal:5432" true (by decide)⟩

/-- A step of a handler or of one of its copy goroutines leaves the accept loop as it was. -/
theorem step_conn_loop (rt rt1 : Runtime) (a : Action) (hs : step rt a = some rt1)
    (ha : a.conn ≠ none) : rt1.loop = rt.loop := by
  have hrun : rt.crashed = false := by
    cases hcr : rt.crashed
    · rfl
    · simp [step, hcr] at hs
  rw [step_running rt a hrun] at hs
  cases a <;> dsimp only at hs
  case forwardStart => simp [Action.conn] at ha
  case accept err => simp [Action.conn] at ha
  case close => simp [Action.conn] at ha
  case setConfig cfg => simp [Action.conn] at ha
  case dial i ok =>
    obtain ⟨c, c1, addr, -, -, -, hcase | hcase⟩ := dial_frame rt rt1 i ok hs
    · rw [hcase.2]
    · rw [hcase.2]
  case copyReturns i id =>
    obtain ⟨c, c1, -, -, rfl⟩ := onConn_frame rt rt1 i _ hs
    rfl
  case closeDone i id =>
    obtain ⟨c, -, hcase | hcase⟩ := closeDone_frame rt rt1 i id hs
    · obtain ⟨c1, -, rfl⟩ := hcase
      rfl
    · rw [hcase.2]
  case recvDone i =>
    obtain ⟨c, c1, -, -, rfl⟩ := onConn_frame rt rt1 i _ hs
    rfl
  case runDeferred i =>
    obtain ⟨c, c1, -, -, rfl⟩ := onConn_frame rt rt1 i _ hs
    rfl

/-- What the connections of a running process can do. In every reachable,
running state of a tunnel built with an SSH client: while the accept loop is accepting, any number of connections can be
accepted one after the other without any handler taking a step, each getting a
handler of its own; a step of one handler or of its copy goroutines leaves
every other connection and the accept loop as they were; and whatever the
other connections are doing, a connection whose handler has not dialled yet can
be dialled and forwarded until its handler returns, by steps of its own that
leave the other connections untouched. -/
theorem connections_independent_while_running (t : SSHTunnel) (rt : Runtime)
    (hr : Reachable t rt) (hcl : t.client ≠ none) (hrun : rt.crashed = false) :
    (rt.loop = .accepting → ∀ n : Nat,
        run rt (List.replicate n (.accept none))
          = some { rt with conns := rt.conns ++ List.replicate n Conn.accepted })
    ∧ (∀ (a : Action) (rt1 : Runtime) (j : Nat), step rt a = some rt1 → a.conn ≠ some j →
        j < rt.conns.length → rt1.conns[j]? = rt.conns[j]?)
    ∧ (∀ (a : Action) (rt1 : Runtime), step rt a = some rt1 → a.conn ≠ none →
        rt1.loop = rt.loop)
    ∧ (∀ (j : Nat) (c : Conn), rt.conns[j]? = some c → c.pc = .dialing →
        ∃ addr : String, rt.dbAddr = some addr
          ∧ run rt (forwardSteps j)
              = some { rt with conns := rt.conns.set j Conn.finished,
                               calls := rt.calls ++ [Call.clientDial addr true] }) := by
  refine ⟨fun hl n => run_accepts n rt hrun hl,
    fun a rt1 j hs ha hj => step_other_conn rt rt1 a j hs ha hj,
    fun a rt1 hs ha => step_conn_loop rt rt1 a hs ha, ?_⟩
  intro j c hc hpc
  obtain ⟨hwf, hstart, haddr, -, hclient⟩ := wf_reachable t rt hr
  have hw := hwf c (List.getElem?_mem hc)
  have hne : rt.conns ≠ [] := conns_ne_nil_of_get _ _ _ hc
  have hloop : rt.loop ≠ .starting := fun h => hne (hstart h)
  obtain ⟨addr, ha⟩ := Option.ne_none_iff_exists'.mp (haddr hloop)
  have hcl2 : rt.tunnel.client ≠ none := by
    intro h
    rw [h] at hclient
    cases hcl3 : t.client
    · exact hcl hcl3
    · rw [hcl3] at hclient
      simp at hclient
  obtain ⟨cl, hcl4⟩ := Option.ne_none_iff_exists'.mp hcl2
  rcases c with ⟨l, r, d, pc, t1, t2⟩
  simp only at hpc
  subst hpc
  rcases r with _ | r <;> rcases d with _ | d <;> rcases t1 with _ | t1 <;>
    rcases t2 with _ | t2 <;> simp [Conn.wf] at hw
  subst hw
  have hset : ∀ x : Conn, (rt.conns.set j x)[j]? = some x :=
    fun x => getElem?_set_same rt.conns j _ x hc
  refine ⟨addr, ha, ?_⟩
  simp [forwardSteps, run, step, hrun, Runtime.dial, Runtime.onConn, Runtime.closeDone, hc, ha,
    Conn.dial, Conn.copyReturns, Conn.closeDone, Conn.recvDone, Conn.runDeferred, Conn.task,
    Conn.setTask, hcl4, hset, Conn.finished]

/-- The connections of `sampleThreeConns`: the handlers of connections 0 and 1 have not
taken a step, and connection 2 is forwarded to the end all the same. -/
theorem connections_independent_while_running_sample :
    Reachable sampleTunnel sampleThreeConns
    ∧ ∃ addr : String, sampleThreeConns.dbAddr = some addr
        ∧ run sampleThreeConns (forwardSteps 2)
            = some { sampleThreeConns with
                       conns := sampleThreeConns.conns.set 2 Conn.finished,
                       calls := sampleThreeConns.calls ++ [Call.clientDial addr true] } :=
  ⟨⟨[.forwardStart, .accept none, .accept none, .accept none], by decide⟩,
   (connections_independent_while_running sampleTunnel sampleThreeConns
      ⟨[.forwardStart, .accept none, .accept none, .accept none], by decide⟩
      (by decide) (by decide)).2.2.2 2 Conn.accepted (by decide) (by decide)⟩

theorem splitSlash_ne_nil (l : List Char) : splitSlash l ≠ [] := by
  cases l with
  | nil => simp [splitSlash]
  | cons c cs =>
    simp only [splitSlash]
    split
    · simp
    · split <;> simp

theorem splitSlash_slash (b : List Char) : splitSlash ('/' :: b) = [] :: splitSlash b := by
  simp only [splitSlash]
  cases h : splitSlash b with
  | nil => exact absurd h (splitSlash_ne_nil b)
  | cons seg segs => simp

theorem splitSlash_append (a b : List Char) :
    splitSlash (a ++ '/' :: b) = splitSlash a ++ splitSlash b := by
  induction a with
  | nil =>
    rw [List.nil_append, splitSlash_slash]
    simp [splitSlash]
  | cons c cs ih =>
    cases h : splitSlash cs with
    | nil => exact absurd h (splitSlash_ne_nil cs)
    | cons seg segs =>
      have h1 : splitSlash (c :: cs)
          = if c == '/' then [] :: seg :: segs else (c :: seg) :: segs := by
        rw [splitSlash, h]
      have h2 : splitSlash (c :: (cs ++ '/' :: b))
          = if c == '/' then [] :: seg :: (segs ++ splitSlash b)
            else (c :: seg) :: (segs ++ splitSlash b) := by
        rw [splitSlash, ih, h]
        rfl
      rw [List.cons_append, h2, h1]
      split <;> simp

/-- A doubled slash after the first element does not change the cleaned path. -/
theorem filepathClean_double_slash (H r : String) (hH : H.data ≠ []) :
    filepathClean (H ++ "/" ++ ("/" ++ r)) = filepathClean (H ++ "/" ++ r) := by
  have hd1 : (H ++ "/" ++ ("/" ++ r)).data = H.data ++ '/' :: ('/' :: r.data) := by
    simp [String.data_append]
  have hd2 : (H ++ "/" ++ r).data = H.data ++ '/' :: r.data := by
    simp [String.data_append]
  obtain ⟨h0, hs, hH2⟩ : ∃ h0 hs, H.data = h0 :: hs := by
    cases hH3 : H.data with
    | nil => exact absurd hH3 hH
    | cons a l => exact ⟨a, l, rfl⟩
  unfold filepathClean
  rw [hd1, hd2, hH2]
  have hsplit : splitSlash (h0 :: hs ++ '/' :: '/' :: r.data)
      = splitSlash (h0 :: hs) ++ ([] :: splitSlash r.data) := by
    rw [splitSlash_append, splitSlash_slash]
  have hsplit2 : splitSlash (h0 :: hs ++ '/' :: r.data)
      = splitSlash (h0 :: hs) ++ splitSlash r.data := splitSlash_append _ _
  have hroot : hasPrefixList (h0 :: hs ++ '/' :: '/' :: r.data) ['/']
      = hasPrefixList (h0 :: hs ++ '/' :: r.data) ['/'] := by
    simp [hasPrefixList]
  have hkept : ∀ rooted : Bool,
      (splitSlash (h0 :: hs ++ '/' :: '/' :: r.data)).foldl (cleanPush rooted) []
        = (splitSlash (h0 :: hs ++ '/' :: r.data)).foldl (cleanPush rooted) [] := by
    intro rooted
    rw [hsplit, hsplit2, List.foldl_append, List.foldl_append, List.foldl_cons]
    congr 1
  simp only [hroot, hkept]
  simp

theorem filepathJoin_double_slash (H r : String) (hH : H.data ≠ []) :
    filepathJoin H ("/" ++ r) = filepathJoin H r := by
  unfold filepathJoin
  have : (H.data != []) = true := by simpa using hH
  simp only [this, if_true]
  exact filepathClean_double_slash H r hH

/-- The path `NewSSHTunnel` reads the key from is the first component of `expandKeyPath`. -/
theorem NewSSHTunnel_readFile_path (env : Env) (cfg : Config) (p : String) (ok : Bool)
    (h : Call.readFile p ok ∈ (NewSSHTunnel env cfg).calls) :
    (expandKeyPath env cfg.Default.SSHPrivateKey).1 = .ok p := by
  unfold NewSSHTunnel at h
  rcases expandKeyPath_calls env cfg.Default.SSHPrivateKey with ⟨e, he⟩ | ⟨q, he⟩ | ⟨q, he⟩
  · rw [he] at h
    simp at h
  all_goals
    rw [he] at h ⊢
    simp only at h ⊢
    cases h1 : env.readFile q with
    | error e =>
      simp [h1] at h
      rw [h.1]
    | ok key =>
      cases h2 : env.parsePrivateKey key with
      | error e =>
        simp [h1, h2] at h
        rw [h.1]
      | ok signer =>
        cases h3 : sshDial env (sprintfHostPort cfg.Default.SSHHost cfg.Default.SSHPort)
            (sshConfig cfg signer) with
        | error e =>
          simp [h1, h2, h3] at h
          rw [h.1]
        | ok client =>
          cases h4 : env.netListen "localhost:5433" with
          | error e =>
            simp [h1, h2, h3, h4] at h
            rw [h.1]
          | ok bound =>
            simp [h1, h2, h3, h4] at h
            rw [h.1]

/-- Unless the home directory is unknown, `NewSSHTunnel` reads the key file. -/
theorem NewSSHTunnel_reads (env : Env) (cfg : Config) (p : String)
    (h : (expandKeyPath env cfg.Default.SSHPrivateKey).1 = .ok p) :
    ∃ ok : Bool, Call.readFile p ok ∈ (NewSSHTunnel env cfg).calls := by
  unfold NewSSHTunnel
  rcases expandKeyPath_calls env cfg.Default.SSHPrivateKey with ⟨e, he⟩ | ⟨q, he⟩ | ⟨q, he⟩
  · rw [he] at h
    simp at h
  all_goals
    rw [he] at h ⊢
    simp only [Except.ok.injEq] at h
    subst h
    simp only
    cases h1 : env.readFile q with
    | error e => exact ⟨false, by simp [h1]⟩
    | ok key =>
      refine ⟨true, ?_⟩
      cases h2 : env.parsePrivateKey key with
      | error e => simp [h1, h2]
      | ok signer =>
        cases h3 : sshDial env (sprintfHostPort cfg.Default.SSHHost cfg.Default.SSHPort)
            (sshConfig cfg signer) with
        | error e => simp [h1, h2, h3]
        | ok client =>
          cases h4 : env.netListen "localhost:5433" with
          | error e => simp [h1, h2, h3, h4]
          | ok bound => simp [h1, h2, h3, h4]

/-- What `NewSSHTunnel` reads as the key: it expands the key path when it
starts with `~`. With the home directory `H`: a key path that starts with `~` is read from
`filepath.Join(H, rest)`, where `rest` is the path without its first byte, and
for a path `~/r` and a home directory that is not empty this is
`filepath.Join(H, r)`; a key path that does not start with `~` is read as it
is, and the home directory is not asked for. In each of these cases the file
is read. -/
theorem NewSSHTunnel_key_path (env : Env) (cfg : Config) (H : String)
    (hH : env.userHomeDir = .ok H) :
    (stringsHasPrefix cfg.Default.SSHPrivateKey "~" = true →
        (∃ ok : Bool, Call.readFile
            (filepathJoin H (String.mk (cfg.Default.SSHPrivateKey.data.drop 1))) ok
            ∈ (NewSSHTunnel env cfg).calls)
        ∧ ∀ (p : String) (ok : Bool), Call.readFile p ok ∈ (NewSSHTunnel env cfg).calls →
            p = filepathJoin H (String.mk (cfg.Default.SSHPrivateKey.data.drop 1)))
    ∧ (∀ r : String, cfg.Default.SSHPrivateKey = "~/" ++ r → H.data ≠ [] →
        (∃ ok : Bool, Call.readFile (filepathJoin H r) ok ∈ (NewSSHTunnel env cfg).calls)
        ∧ ∀ (p : String) (ok : Bool), Call.readFile p ok ∈ (NewSSHTunnel env cfg).calls →
            p = filepathJoin H r)
    ∧ (stringsHasPrefix cfg.Default.SSHPrivateKey "~" = false →
        (∃ ok : Bool, Call.readFile cfg.Default.SSHPrivateKey ok ∈ (NewSSHTunnel env cfg).calls)
        ∧ (∀ (p : String) (ok : Bool), Call.readFile p ok ∈ (NewSSHTunnel env cfg).calls →
            p = cfg.Default.SSHPrivateKey)
        ∧ ∀ ok : Bool, Call.userHomeDir ok ∉ (NewSSHTunnel env cfg).calls) := by
  have hexp : stringsHasPrefix cfg.Default.SSHPrivateKey "~" = true →
      (expandKeyPath env cfg.Default.SSHPrivateKey).1
        = .ok (filepathJoin H (String.mk (cfg.Default.SSHPrivateKey.data.drop 1))) := by
    intro hp
    simp [expandKeyPath, hp, hH]
  have hexp2 : stringsHasPrefix cfg.Default.SSHPrivateKey "~" = false →
      expandKeyPath env cfg.Default.SSHPrivateKey = (.ok cfg.Default.SSHPrivateKey, []) := by
    intro hp
    simp [expandKeyPath, hp]
  have hstarts : stringsHasPrefix cfg.Default.SSHPrivateKey "~" = true →
      (∃ ok : Bool, Call.readFile
            (filepathJoin H (String.mk (cfg.Default.SSHPrivateKey.data.drop 1))) ok
            ∈ (NewSSHTunnel env cfg).calls)
        ∧ ∀ (p : String) (ok : Bool), Call.readFile p ok ∈ (NewSSHTunnel env cfg).calls →
            p = filepathJoin H (String.mk (cfg.Default.SSHPrivateKey.data.drop 1)) := by
    intro hp
    refine ⟨NewSSHTunnel_reads env cfg _ (hexp hp), ?_⟩
    intro p ok hmem
    have := NewSSHTunnel_readFile_path env cfg p ok hmem
    rw [hexp hp] at this
    simpa using this.symm
  refine ⟨hstarts, ?_, ?_⟩
  · intro r hr hHne
    have hp : stringsHasPrefix cfg.Default.SSHPrivateKey "~" = true := by
      rw [hr]
      simp [stringsHasPrefix, String.data_append, hasPrefixList]
    have hrest : String.mk (cfg.Default.SSHPrivateKey.data.drop 1) = "/" ++ r := by
      rw [hr]
      apply String.ext
      simp [String.data_append]
    have := hstarts hp
    rw [hrest, filepathJoin_double_slash H r hHne] at this
    exact this
  · intro hp
    refine ⟨NewSSHTunnel_reads env cfg _ (by rw [hexp2 hp]), ?_, ?_⟩
    · intro p ok hmem
      have := NewSSHTunnel_readFile_path env cfg p ok hmem
      rw [hexp2 hp] at this
      simpa using this.symm
    · intro ok hmem
      unfold NewSSHTunnel at hmem
      rw [hexp2 hp] at hmem
      simp only at hmem
      cases h1 : env.readFile cfg.Default.SSHPrivateKey with
      | error e => simp [h1] at hmem
      | ok key =>
        cases h2 : env.parsePrivateKey key with
        | error e => simp [h1, h2] at hmem
        | ok signer =>
          cases h3 : sshDial env (sprintfHostPort cfg.Default.SSHHost cfg.Default.SSHPort)
              (sshConfig cfg signer) with
          | error e => simp [h1, h2, h3] at hmem
          | ok client =>
            cases h4 : env.netListen "localhost:5433" with
            | error e => simp [h1, h2, h3, h4] at hmem
            | ok bound => simp [h1, h2, h3, h4] at hmem

/-- The key read for `sampleConfig`, whose key path is `~/.ssh/id_rsa`. -/
theorem NewSSHTunnel_key_path_witness :
    ∃ ok : Bool, Call.readFile (filepathJoin "/home/alice" ".ssh/id_rsa") ok
      ∈ (NewSSHTunnel permissiveEnv sampleConfig).calls :=
  ((NewSSHTunnel_key_path permissiveEnv sampleConfig "/home/alice" rfl).2.1
    ".ssh/id_rsa" (by decide) (by decide)).1

/-- C2 (the code contradicts the claim). The second half of the claim holds:
in every reachable state, a handler whose dial succeeded and that has returned
has closed both ends. The first half fails. In the process of `sampleTunnel`,
after `samplePanicSchedule` the first copy goroutine of connection 0 has
finished and closed `done`, and before the handler passed `<-done` the second
copy goroutine closed `done` again: the process has panicked with the handler
still waiting and the local socket and the remote channel both open, no step
of any goroutine can happen any more, and so the handler never closes either
end. One step earlier the process was running and the handler could have
passed `<-done`. -/
theorem forward_panic_before_handler_closes :
    (∀ (t : SSHTunnel) (rt : Runtime), Reachable t rt → ∀ c ∈ rt.conns,
        c.remote ≠ none → c.pc = .returned → c.localConn = .closed ∧ c.remote = some .closed)
    ∧ run (Runtime.start sampleTunnel) samplePanicSchedule = some samplePanicked
    ∧ Reachable sampleTunnel samplePanicked
    ∧ samplePanicked.crashed = true
    ∧ samplePanicked.conns.map
        (fun c => (c.pc, c.localConn, c.remote, c.done, c.copy1.map CopyTask.pc))
        = [(HandlerPc.waiting, SockState.opened, some SockState.opened, some ChanState.closed,
            some TaskPc.exited)]
    ∧ (∀ a : Action, step samplePanicked a = none)
    ∧ (∀ (later : List Action) (rt : Runtime), run samplePanicked later = some rt →
        rt = samplePanicked)
    ∧ (∀ (later : List Action) (rt : Runtime), run samplePanicked later = some rt →
        ∀ c ∈ rt.conns, c.localConn = .opened ∧ c.remote = some .opened ∧ c.pc ≠ .returned)
    ∧ ((run (Runtime.start sampleTunnel) (samplePanicSchedule.take 6)).map
        (fun rt => (rt.crashed, (step rt (.recvDone 0)).isSome)) = some (false, true)) := by
  refine ⟨?_, by decide, ⟨samplePanicSchedule, by decide⟩, rfl, rfl, fun a => rfl,
    fun later rt h => run_crashed later samplePanicked rt rfl h, ?_, by decide⟩
  · intro t rt h c hc hr hpc
    have hw := (wf_reachable t rt h).1 c hc
    rcases c with ⟨l, r, d, pc, t1, t2⟩
    cases r <;> cases d <;> cases t1 <;> cases t2 <;> simp [Conn.wf] at hw hr hpc ⊢
    subst hpc
    simp_all
  · intro later rt h c hc
    rw [run_crashed later samplePanicked rt rfl h] at hc
    simp only [samplePanicked, List.mem_singleton] at hc
    subst hc
    decide

/-- C14 (the code contradicts the claim). In the process of `sampleTunnel`
after `sampleSiblingSchedule` two connections are accepted: both copies of
connection 0 have ended and one has closed `done`; the dial of connection 1 has
not returned. The process is running: a third connection can be accepted, and
connection 1 can be dialled and forwarded until its handler returns. Then the
second copy goroutine of connection 0 runs its deferred `close(done)`: the step
leaves connection 1 and the accept loop as they were, yet it panics, and from
then on no connection is accepted and connection 1 is never dialled nor
forwarded: no step of any goroutine can happen. -/
theorem forward_panic_stops_other_connections :
    run (Runtime.start sampleTunnel) sampleSiblingSchedule = some sampleSibling
    ∧ sampleSibling.crashed = false
    ∧ sampleSibling.conns[1]? = some Conn.accepted
    ∧ step sampleSibling (.accept none)
        = some { sampleSibling with conns := sampleSibling.conns ++ [Conn.accepted] }
    ∧ run sampleSibling (forwardSteps 1)
        = some { sampleSibling with
                   conns := sampleSibling.conns.set 1 Conn.finished
                   calls := sampleSibling.calls ++ [Call.clientDial "db.internal:5432" true] }
    ∧ step sampleSibling (.closeDone 0 .second) = some { sampleSibling with crashed := true }
    ∧ (∀ a : Action, step { sampleSibling with crashed := true } a = none)
    ∧ step { sampleSibling with crashed := true } (.accept none) = none
    ∧ step { sampleSibling with crashed := true } (.dial 1 true) = none
    ∧ run { sampleSibling with crashed := true } (forwardSteps 1) = none
    ∧ (∀ (later : List Action) (rt : Runtime),
        run { sampleSibling with crashed := true } later = some rt →
        rt.conns[1]? = some Conn.accepted ∧ rt.conns.length = 2
          ∧ rt.calls = sampleSibling.calls) := by
  refine ⟨by decide, rfl, by decide, by decide, by decide, by decide, fun a => rfl, rfl, rfl,
    rfl, ?_⟩
  intro later rt h
  rw [run_crashed later { sampleSibling with crashed := true } rt rfl h]
  decide

/-- C19 (the code contradicts the claim and its own comment). The key path
`/keys/~alice/id_rsa` holds `~`, and yet the file read is that very path,
whatever the home directory, which is not even asked for: only a `~` at the
start of the path is expanded, as for `~/.ssh/id_rsa`, where the home
directory is asked for and the file read changes with it. -/
theorem NewSSHTunnel_tilde_inside_not_expanded :
    stringsContains tildeInsideConfig.Default.SSHPrivateKey "~" = true
    ∧ (NewSSHTunnel permissiveEnv tildeInsideConfig).calls.head?
        = some (Call.readFile "/keys/~alice/id_rsa" true)
    ∧ (NewSSHTunnel otherHomeEnv tildeInsideConfig).calls.head?
        = some (Call.readFile "/keys/~alice/id_rsa" true)
    ∧ permissiveEnv.userHomeDir = .ok "/home/alice"
    ∧ otherHomeEnv.userHomeDir = .ok "/root"
    ∧ (∀ ok : Bool, Call.userHomeDir ok ∉ (NewSSHTunnel permissiveEnv tildeInsideConfig).calls)
    ∧ (∀ ok : Bool, Call.userHomeDir ok ∉ (NewSSHTunnel otherHomeEnv tildeInsideConfig).calls)
    ∧ (NewSSHTunnel permissiveEnv sampleConfig).calls.take 2
        = [Call.userHomeDir true, Call.readFile "/home/alice/.ssh/id_rsa" true]
    ∧ (NewSSHTunnel otherHomeEnv sampleConfig).calls.take 2
        = [Call.userHomeDir true, Call.readFile "/root/.ssh/id_rsa" true] :=
  ⟨by decide, by decide, by decide, rfl, rfl, by decide, by decide, by decide, by decide⟩

end Tunnel

namespace Mcp

open Tunnel

/-- `strings.Split` always returns at least one piece. -/
theorem splitGo_ne_nil (sep : List Char) (s : List Char) :
    ∀ (skip : Nat) (cur : List Char), 1 ≤ (splitGo sep s skip cur).length := by
  induction s with
  | nil =>
    intro skip cur
    simp [splitGo]
  | cons c cs ih =>
    intro skip cur
    cases skip with
    | succ k =>
      simp only [splitGo]
      exact ih k cur
    | zero =>
      simp only [splitGo]
      split
      · simp
      · exact ih 0 _

/-- Splitting a text at a separator it contains gives at least two pieces. -/
theorem splitGo_two (sep : List Char) (hsep : sep ≠ []) (s : List Char) :
    ∀ cur : List Char, containsList s sep = true → 2 ≤ (splitGo sep s 0 cur).length := by
  induction s with
  | nil =>
    intro cur h
    cases sep with
    | nil => exact absurd rfl hsep
    | cons a l => simp [containsList, hasPrefixList] at h
  | cons c cs ih =>
    intro cur h
    simp only [splitGo]
    split
    · have := splitGo_ne_nil sep cs (sep.length - 1) []
      simp only [List.length_cons]
      omega
    · rename_i hp
      simp only [containsList, Bool.or_eq_true] at h
      rcases h with h | h
      · exact absurd h hp
      · exact ih _ h

theorem stringsSplit_two (s sep : String) (hsep : sep.data ≠ [])
    (h : stringsContains s sep = true) : 2 ≤ (stringsSplit s sep).length := by
  unfold stringsSplit
  have hne : sep.data.isEmpty = false := by
    cases hd : sep.data with
    | nil => exact absurd hd hsep
    | cons a l => rfl
  simp only [hne, Bool.false_eq_true, if_false, List.length_map]
  exact splitGo_two sep.data hsep s.data [] h

theorem stringsSplit_one (s sep : String) : 1 ≤ (stringsSplit s sep).length ∨ s.data = [] := by
  unfold stringsSplit
  split
  · cases hs : s.data with
    | nil => exact Or.inr rfl
    | cons a l => simp
  · left
    simp only [List.length_map]
    exact splitGo_ne_nil _ _ _ _

/-- `executeQuery` always returns a response and a nil error. -/
theorem executeQuery_returns (s : Service) (query : String) (args : List String) :
    ∃ resp : QueryResponse, executeQuery s query args = .returned (some resp) none := by
  unfold executeQuery
  split
  · exact ⟨_, rfl⟩
  · split
    · exact ⟨_, rfl⟩
    · split
      · exact ⟨_, rfl⟩
      · split
        · exact ⟨_, rfl⟩
        · exact ⟨_, rfl⟩

theorem getElem?_of_lt {α : Type} (l : List α) (i : Nat) (h : i < l.length) :
    ∃ x, l[i]? = some x := by
  exact ⟨l[i], List.getElem?_eq_getElem h⟩

/-- The partner name of a query that holds the trigger phrase is always found. -/
theorem partnerName_ok (ql trigger : String) (ht : trigger.data ≠ [])
    (h : stringsContains ql trigger = true) : ∃ name, partnerName ql trigger = .ok name := by
  unfold partnerName
  have h2 := stringsSplit_two ql trigger ht h
  simp only [Nat.not_lt.mpr h2, if_false]
  obtain ⟨rest, hrest⟩ := getElem?_of_lt (stringsSplit ql trigger) 1 (by omega)
  simp only [hrest]
  have h1 : 1 ≤ (stringsSplit rest "use").length := by
    have : (stringsSplit rest "use") = (splitGo "use".data rest.data 0 []).map String.mk := rfl
    rw [this, List.length_map]
    exact splitGo_ne_nil _ _ _ _
  obtain ⟨pp, hpp⟩ := getElem?_of_lt (stringsSplit rest "use") 0 (by omega)
  simp only [hpp]
  exact ⟨_, rfl⟩

/-- What `handleDescribeTable` does, by the fields of the query. -/
theorem handleDescribeTable_cases (s : Service) (query : String) :
    ((stringsFields query).length < 3
        ∧ handleDescribeTable s query
            = .returned none (some "invalid describe table query format"))
    ∨ (∃ f2 : String, (stringsFields query)[2]? = some f2
        ∧ stringsContains f2 "." = false
        ∧ handleDescribeTable s query = executeQuery s describeTableSQL ["public", f2])
    ∨ (∃ (f2 schema table : String), (stringsFields query)[2]? = some f2
        ∧ stringsContains f2 "." = true
        ∧ (stringsSplit f2 ".")[0]? = some schema
        ∧ (stringsSplit f2 ".")[1]? = some table
        ∧ handleDescribeTable s query = executeQuery s describeTableSQL [schema, table]) := by
  unfold handleDescribeTable
  by_cases hlen : (stringsFields query).length < 3
  · left
    simp [hlen]
  · right
    simp only [hlen, if_false]
    obtain ⟨f2, hf2⟩ := getElem?_of_lt (stringsFields query) 2 (by omega)
    simp only [hf2]
    by_cases hdot : stringsContains f2 "." = true
    · right
      have h2 := stringsSplit_two f2 "." (by decide) hdot
      obtain ⟨schema, hs⟩ := getElem?_of_lt (stringsSplit f2 ".") 0 (by omega)
      obtain ⟨table, ht⟩ := getElem?_of_lt (stringsSplit f2 ".") 1 (by omega)
      exact ⟨f2, schema, table, rfl, hdot, hs, ht, by simp [hdot, hs, ht]⟩
    · left
      have hdot' : stringsContains f2 "." = false := by simpa using hdot
      exact ⟨f2, rfl, hdot', by simp [hdot']⟩

theorem not_show_of_describe (l : List Char)
    (h : hasPrefixList l "describe table".data = true) :
    hasPrefixList l "show tables".data = false := by
  cases l with
  | nil => simp [hasPrefixList] at h
  | cons c cs =>
    have hd : "describe table".data = 'd' :: "escribe table".data := rfl
    have hs : "show tables".data = 's' :: "how tables".data := rfl
    rw [hd] at h
    rw [hs]
    simp only [hasPrefixList, Bool.and_eq_true, beq_iff_eq] at h ⊢
    rw [h.1]
    simp

/-- The three ways `HandleQuery` answers: the table list, `handleDescribeTable`,
or one statement run by `executeQuery`. -/
theorem HandleQuery_cases (u : CaseTable) (s : Service) (query : String) :
    (stringsHasPrefix (stringsToLower u query) "show tables" = true
        ∧ stringsHasPrefix (stringsToLower u query) "describe table" = false
        ∧ HandleQuery u s query = executeQuery s showTablesSQL [])
    ∨ (stringsHasPrefix (stringsToLower u query) "describe table" = true
        ∧ HandleQuery u s query = handleDescribeTable s query)
    ∨ (stringsHasPrefix (stringsToLower u query) "describe table" = false
        ∧ ∃ (sql : String) (args : List String),
            HandleQuery u s query = executeQuery s sql args) := by
  unfold HandleQuery
  simp only
  cases hshow : stringsHasPrefix (stringsToLower u query) "show tables"
  · simp only [Bool.false_eq_true, ↓reduceIte]
    cases hdesc : stringsHasPrefix (stringsToLower u query) "describe table"
    · simp only [Bool.false_eq_true, ↓reduceIte]
      right
      right
      refine ⟨trivial, ?_⟩
      split
      · exact ⟨_, _, rfl⟩
      · split
        · exact ⟨_, _, rfl⟩
        · split
          · rename_i hc
            simp only [Bool.and_eq_true] at hc
            obtain ⟨name, hn⟩ := partnerName_ok (stringsToLower u query)
              "which source tags does" (by decide) hc.1
            rw [hn]
            exact ⟨_, _, rfl⟩
          · split
            · exact ⟨_, _, rfl⟩
            · split
              · exact ⟨_, _, rfl⟩
              · split
                · rename_i hc
                  simp only [Bool.and_eq_true] at hc
                  obtain ⟨name, hn⟩ := partnerName_ok (stringsToLower u query)
                    "what traffic sources does" (by decide) hc.1
                  rw [hn]
                  exact ⟨_, _, rfl⟩
                · exact ⟨_, _, rfl⟩
    · simp only [↓reduceIte]
      right
      left
      refine ⟨?_, ?_⟩ <;> first | rfl | trivial
  · simp only [↓reduceIte]
    left
    refine ⟨trivial, ?_, rfl⟩
    cases hdesc : stringsHasPrefix (stringsToLower u query) "describe table"
    · rfl
    · have := not_show_of_describe _ hdesc
      unfold stringsHasPrefix at hshow
      rw [this] at hshow
      simp at hshow

/-- A text that does not hold the one-rune separator is a single piece. -/
theorem splitGo_absent (c : Char) (l : List Char) :
    ∀ cur : List Char, containsList l [c] = false → splitGo [c] l 0 cur = [cur.reverse ++ l] := by
  induction l with
  | nil =>
    intro cur _
    simp [splitGo]
  | cons x xs ih =>
    intro cur h
    simp only [containsList, hasPrefixList, Bool.and_true, Bool.or_eq_false_iff] at h
    have hx : hasPrefixList (x :: xs) [c] = false := by
      simp only [hasPrefixList, Bool.and_true]
      exact h.1
    simp only [splitGo, hx, Bool.false_eq_true, if_false]
    rw [ih _ h.2]
    simp

/-- The pieces of `S.T` when neither `S` nor `T` holds the separator. -/
theorem splitGo_pair (c : Char) (S T : List Char) :
    ∀ cur : List Char, containsList S [c] = false → containsList T [c] = false →
      splitGo [c] (S ++ c :: T) 0 cur = [cur.reverse ++ S, T] := by
  induction S with
  | nil =>
    intro cur _ hT
    have hp : hasPrefixList (c :: T) [c] = true := by simp [hasPrefixList]
    simp only [List.nil_append, splitGo, hp, if_true, List.length_singleton, Nat.sub_self,
      List.append_nil]
    rw [splitGo_absent c T [] hT]
    simp
  | cons x xs ih =>
    intro cur hS hT
    simp only [containsList, hasPrefixList, Bool.and_true, Bool.or_eq_false_iff] at hS
    have hx : hasPrefixList (x :: (xs ++ c :: T)) [c] = false := by
      simp only [hasPrefixList, Bool.and_true]
      exact hS.1
    have hstep : splitGo [c] (x :: (xs ++ c :: T)) 0 cur
        = splitGo [c] (xs ++ c :: T) 0 (x :: cur) := by
      simp only [splitGo, hx, Bool.false_eq_true, if_false]
    rw [List.cons_append, hstep, ih _ hS.2 hT]
    simp

theorem containsList_mid (c : Char) (S T : List Char) :
    containsList (S ++ c :: T) [c] = true := by
  induction S with
  | nil => simp [containsList, hasPrefixList]
  | cons x xs ih =>
    simp only [List.cons_append, containsList, Bool.or_eq_true]
    exact Or.inr ih

/-- `HandleQuery` never panics on an index out of range. -/
theorem HandleQuery_no_panic (u : CaseTable) (s : Service) (query : String) :
    HandleQuery u s query ≠ .panicked := by
  have hexec : ∀ (sql : String) (args : List String), executeQuery s sql args ≠ .panicked := by
    intro sql args
    obtain ⟨resp, hr⟩ := executeQuery_returns s sql args
    rw [hr]
    simp
  rcases HandleQuery_cases u s query with ⟨-, -, hr⟩ | ⟨-, hr⟩ | ⟨-, sql, args, hr⟩
  · rw [hr]
    exact hexec _ _
  · rw [hr]
    rcases handleDescribeTable_cases s query with ⟨-, hr2⟩ | ⟨f2, -, -, hr2⟩ |
        ⟨f2, schema, table, -, -, -, -, hr2⟩
    · rw [hr2]
      simp
    · rw [hr2]
      exact hexec _ _
    · rw [hr2]
      exact hexec _ _
  · rw [hr]
    exact hexec _ _

/-- C16. For a query that starts, whatever the case of its letters, with
"describe table" and whose first three fields are `f0`, `f1`, `f2`:
`HandleQuery` runs the `information_schema.columns` statement with exactly two
arguments taken from `f2` as it was written. If `f2` holds no dot they are
`public` and `f2`; if it holds a dot they are the first two pieces of `f2`
split at the dots; and if `f2` is `S.T` with no dot in `S` and `T` they are
`S` and `T`. No query at all makes `HandleQuery` panic on an index. -/
theorem HandleQuery_describe_table (u : CaseTable) (s : Service) (query f0 f1 f2 : String)
    (rest : List String)
    (hp : stringsHasPrefix (stringsToLower u query) "describe table" = true)
    (hf : stringsFields query = f0 :: f1 :: f2 :: rest) :
    (stringsContains f2 "." = false →
        HandleQuery u s query = executeQuery s describeTableSQL ["public", f2])
    ∧ (stringsContains f2 "." = true →
        ∃ (schema table : String) (more : List String),
          stringsSplit f2 "." = schema :: table :: more
          ∧ HandleQuery u s query = executeQuery s describeTableSQL [schema, table])
    ∧ (∀ S T : String, f2 = S ++ "." ++ T → stringsContains S "." = false →
        stringsContains T "." = false →
        HandleQuery u s query = executeQuery s describeTableSQL [S, T])
    ∧ (∀ q : String, HandleQuery u s q ≠ .panicked) := by
  have hHQ : HandleQuery u s query = handleDescribeTable s query := by
    rcases HandleQuery_cases u s query with ⟨-, hnd, -⟩ | ⟨-, hr⟩ | ⟨hnd, -⟩
    · rw [hnd] at hp
      simp at hp
    · exact hr
    · rw [hnd] at hp
      simp at hp
  have hlen : ¬ (stringsFields query).length < 3 := by
    rw [hf]
    simp
  have hdot : stringsContains f2 "." = true →
      ∃ (schema table : String) (more : List String),
        stringsSplit f2 "." = schema :: table :: more
        ∧ HandleQuery u s query = executeQuery s describeTableSQL [schema, table] := by
    intro hc
    have h2 := stringsSplit_two f2 "." (by decide) hc
    rw [hHQ]
    unfold handleDescribeTable
    simp only [hlen, if_false, hf, List.getElem?_cons_succ, List.getElem?_cons_zero, hc, if_true]
    cases hsp : stringsSplit f2 "." with
    | nil =>
      rw [hsp] at h2
      simp at h2
    | cons a l =>
      cases l with
      | nil =>
        rw [hsp] at h2
        simp at h2
      | cons b m =>
        exact ⟨a, b, m, rfl, by simp⟩
  refine ⟨?_, hdot, ?_, fun q => HandleQuery_no_panic u s q⟩
  · intro hc
    rw [hHQ]
    unfold handleDescribeTable
    simp [hlen, hf, hc]
  · intro S T hST hS hT
    have hdata : f2.data = S.data ++ '.' :: T.data := by
      rw [hST]
      simp [String.data_append]
    have hc : stringsContains f2 "." = true := by
      unfold stringsContains
      rw [hdata]
      exact containsList_mid '.' S.data T.data
    obtain ⟨schema, table, more, hsp, hr⟩ := hdot hc
    have hsplit : stringsSplit f2 "." = [S, T] := by
      unfold stringsSplit
      have hne : ".".data.isEmpty = false := rfl
      simp only [hne, Bool.false_eq_true, if_false]
      rw [hdata]
      have := splitGo_pair '.' S.data T.data [] hS hT
      rw [this]
      simp
    rw [hsplit] at hsp
    simp only [List.cons.injEq] at hsp
    rw [hr, ← hsp.1, ← hsp.2.1]

/-- C16 at a query written with capital letters: the table name keeps them. -/
theorem HandleQuery_describe_table_witness :
    HandleQuery id echoService "Describe Table Yer_Analysis.Yer_Reports now"
        = executeQuery echoService describeTableSQL ["Yer_Analysis", "Yer_Reports"]
    ∧ executeQuery echoService describeTableSQL ["Yer_Analysis", "Yer_Reports"]
        = .returned (some { Columns := [], Rows := [], Error := "args: Yer_Analysis,Yer_Reports" })
            none :=
  ⟨(HandleQuery_describe_table id echoService "Describe Table Yer_Analysis.Yer_Reports now"
      "Describe" "Table" "Yer_Analysis.Yer_Reports" ["now"] (by decide) (by decide)).2.2.1
      "Yer_Analysis" "Yer_Reports" (by decide) (by decide) (by decide),
   by decide⟩

theorem sourceTags_house_media (u : CaseTable) (s : Service) :
    HandleQuery u s "which source tags does House Media use"
      = executeQuery s sourceTagsSQL ["ho"] := by
  rfl

theorem trafficSources_house_media (u : CaseTable) (s : Service) :
    HandleQuery u s "what traffic sources does House Media use"
      = executeQuery s trafficSourcesSQL ["ho"] := by
  rfl

theorem sourceTags_dnc (u : CaseTable) (s : Service) :
    HandleQuery u s "which source tags does DNC use" = executeQuery s sourceTagsSQL ["dnc"] := by
  rfl

theorem trafficSources_dnc (u : CaseTable) (s : Service) :
    HandleQuery u s "what traffic sources does DNC use"
      = executeQuery s trafficSourcesSQL ["dnc"] := by
  rfl

theorem lower_house_media (u : CaseTable) :
    stringsTrimSpace (stringsToLower u "House Media") = "house media" := by
  rfl

/-- C15 (the code contradicts the claim). For the partner "House Media" the
argument of both partner statements is "ho", the text before the first "use"
in "house media use", not the lower-cased name "house media"; the database is
asked about another partner. For the partner "DNC" of the tests the argument
is "dnc". -/
theorem HandleQuery_partner_name_cut (u : CaseTable) (s : Service) :
    HandleQuery u s "which source tags does House Media use"
        = executeQuery s sourceTagsSQL ["ho"]
    ∧ HandleQuery u s "what traffic sources does House Media use"
        = executeQuery s trafficSourcesSQL ["ho"]
    ∧ stringsTrimSpace (stringsToLower u "House Media") = "house media"
    ∧ executeQuery echoService sourceTagsSQL ["ho"]
        ≠ executeQuery echoService sourceTagsSQL ["house media"]
    ∧ HandleQuery u s "which source tags does DNC use" = executeQuery s sourceTagsSQL ["dnc"]
    ∧ HandleQuery u s "what traffic sources does DNC use"
        = executeQuery s trafficSourcesSQL ["dnc"] :=
  ⟨sourceTags_house_media u s, trafficSources_house_media u s, lower_house_media u,
   by decide, sourceTags_dnc u s, trafficSources_dnc u s⟩

/-- The statement `handleDescribeTable` runs for a query with at least three
fields does not depend on the service. -/
theorem handleDescribeTable_statement (query : String) (h : ¬ (stringsFields query).length < 3) :
    ∃ args : List String, ∀ s : Service,
      handleDescribeTable s query = executeQuery s describeTableSQL args := by
  obtain ⟨f2, hf2⟩ := getElem?_of_lt (stringsFields query) 2 (by omega)
  by_cases hdot : stringsContains f2 "." = true
  · have h2 := stringsSplit_two f2 "." (by decide) hdot
    obtain ⟨schema, hs⟩ := getElem?_of_lt (stringsSplit f2 ".") 0 (by omega)
    obtain ⟨table, ht⟩ := getElem?_of_lt (stringsSplit f2 ".") 1 (by omega)
    refine ⟨[schema, table], fun s => ?_⟩
    unfold handleDescribeTable
    simp [h, hf2, hdot, hs, ht]
  · refine ⟨["public", f2], fun s => ?_⟩
    unfold handleDescribeTable
    simp [h, hf2, hdot]

/-- Unless the query is a "describe table" query with fewer than three fields,
`HandleQuery` runs one statement with `executeQuery`, and which statement and
arguments does not depend on the service. -/
theorem HandleQuery_statement (u : CaseTable) (query : String)
    (h : ¬ (stringsHasPrefix (stringsToLower u query) "describe table" = true
          ∧ (stringsFields query).length < 3)) :
    ∃ (sql : String) (args : List String), ∀ s : Service,
      HandleQuery u s query = executeQuery s sql args := by
  cases hshow : stringsHasPrefix (stringsToLower u query) "show tables"
  · cases hdesc : stringsHasPrefix (stringsToLower u query) "describe table"
    · by_cases c1 : stringsContains (stringsToLower u query) "who are our partners" = true
      · exact ⟨partnersSQL, [], fun s => by unfold HandleQuery; simp [hshow, hdesc, c1]⟩
      by_cases c2 : stringsContains (stringsToLower u query)
          "which partner made the most money last month" = true
      · exact ⟨topRevenueSQL, [], fun s => by unfold HandleQuery; simp [hshow, hdesc, c1, c2]⟩
      by_cases c3 : (stringsContains (stringsToLower u query) "which source tags does"
          && stringsContains (stringsToLower u query) "use") = true
      · have c3a := c3
        simp only [Bool.and_eq_true] at c3a
        obtain ⟨name, hn⟩ := partnerName_ok (stringsToLower u query)
          "which source tags does" (by decide) c3a.1
        exact ⟨sourceTagsSQL, [name], fun s => by
          unfold HandleQuery; simp only [hshow, hdesc, c1, c2, c3, hn, Bool.false_eq_true,
            ↓reduceIte]⟩
      by_cases c4 : stringsContains (stringsToLower u query)
          "which source tags went up in tq last month" = true
      · exact ⟨tqImprovementSQL, [], fun s => by
          unfold HandleQuery; simp only [hshow, hdesc, c1, c2, c3, c4, Bool.false_eq_true,
            ↓reduceIte]⟩
      by_cases c5 : stringsContains (stringsToLower u query)
          "which partners have been on the yer the most in the last 6 months" = true
      · exact ⟨yerFrequencySQL, [], fun s => by
          unfold HandleQuery; simp only [hshow, hdesc, c1, c2, c3, c4, c5, Bool.false_eq_true,
            ↓reduceIte]⟩
      by_cases c6 : (stringsContains (stringsToLower u query) "what traffic sources does"
          && stringsContains (stringsToLower u query) "use") = true
      · have c6a := c6
        simp only [Bool.and_eq_true] at c6a
        obtain ⟨name, hn⟩ := partnerName_ok (stringsToLower u query)
          "what traffic sources does" (by decide) c6a.1
        exact ⟨trafficSourcesSQL, [name], fun s => by
          unfold HandleQuery; simp only [hshow, hdesc, c1, c2, c3, c4, c5, c6, hn,
            Bool.false_eq_true, ↓reduceIte]⟩
      exact ⟨query, [], fun s => by
        unfold HandleQuery; simp only [hshow, hdesc, c1, c2, c3, c4, c5, c6, Bool.false_eq_true,
          ↓reduceIte]⟩
    · have hlen : ¬ (stringsFields query).length < 3 := fun hl => h ⟨hdesc, hl⟩
      obtain ⟨args, ha⟩ := handleDescribeTable_statement query hlen
      refine ⟨describeTableSQL, args, fun s => ?_⟩
      rw [← ha s]
      unfold HandleQuery
      simp only [hshow, hdesc, Bool.false_eq_true, ↓reduceIte]
  · exact ⟨showTablesSQL, [], fun s => by
      unfold HandleQuery; simp only [hshow, ↓reduceIte, handleShowTables]⟩

/-- What `executeQuery` answers, by what the database does. -/
theorem executeQuery_cases (s : Service) (sql : String) (args : List String) :
    (∀ e : String, s.db.Query sql args = .error e →
        executeQuery s sql args = .returned (some { Columns := [], Rows := [], Error := e }) none)
    ∧ (∀ (rows : Rows) (e : String), s.db.Query sql args = .ok rows → rows.columns = .error e →
        executeQuery s sql args = .returned (some { Columns := [], Rows := [], Error := e }) none)
    ∧ (∀ (rows : Rows) (columns : List String) (e : String),
        s.db.Query sql args = .ok rows → rows.columns = .ok columns →
        scanRows columns rows.scans [] = .error e →
        executeQuery s sql args = .returned (some { Columns := [], Rows := [], Error := e }) none)
    ∧ (∀ (rows : Rows) (columns : List String) (results : List QueryResult) (e : String),
        s.db.Query sql args = .ok rows → rows.columns = .ok columns →
        scanRows columns rows.scans [] = .ok results → rows.err = some e →
        executeQuery s sql args = .returned (some { Columns := [], Rows := [], Error := e }) none)
    ∧ (∀ (rows : Rows) (columns : List String) (results : List QueryResult),
        s.db.Query sql args = .ok rows → rows.columns = .ok columns →
        scanRows columns rows.scans [] = .ok results → rows.err = none →
        executeQuery s sql args
          = .returned (some { Columns := columns, Rows := results, Error := "" }) none) := by
  refine ⟨?_, ?_, ?_, ?_, ?_⟩
  · intro e h
    simp [executeQuery, h]
  · intro rows e h1 h2
    simp [executeQuery, h1, h2]
  · intro rows columns e h1 h2 h3
    simp [executeQuery, h1, h2, h3]
  · intro rows columns results e h1 h2 h3 h4
    simp [executeQuery, h1, h2, h3, h4]
  · intro rows columns results h1 h2 h3 h4
    simp [executeQuery, h1, h2, h3, h4]

/-- The answer of `executeQuery` depends on the database only through what
`Query` returns for the statement and the arguments given. -/
theorem executeQuery_congr (s s2 : Service) (sql : String) (args : List String)
    (h : s2.db.Query sql args = s.db.Query sql args) :
    executeQuery s2 sql args = executeQuery s sql args := by
  unfold executeQuery
  rw [h]


/-- C17. A query whose lower-cased form neither starts with "show tables"
or "describe table" nor holds any of the six trigger phrases is sent to the
database as it was written, with no arguments: the reply of `HandleQuery` is
what `executeQuery` makes of the database answer to exactly that statement. If
`Query` of the original string with no arguments fails with `e`, the reply is
a response whose `Error` is `e`; if it succeeds, the reply holds the columns
and the rows of its result; and whatever the database answers to any other
statement or argument list has no effect on the reply. A query that starts
with "show tables" in any letter case is answered with the table list, and one
that starts with "describe table" in any letter case by `handleDescribeTable`.
And two queries with the same lower-cased form, recognised as the table-list
command or as a natural-language query, get the same answer: recognition does
not depend on the case of the letters. -/
theorem HandleQuery_direct_sql (u : CaseTable) (s : Service) (query : String) :
    (stringsHasPrefix (stringsToLower u query) "show tables" = false →
      stringsHasPrefix (stringsToLower u query) "describe table" = false →
      (∀ t ∈ triggers, stringsContains (stringsToLower u query) t = false) →
      HandleQuery u s query = executeQuery s query []
      ∧ (∀ e : String, s.db.Query query [] = .error e →
          HandleQuery u s query
            = .returned (some { Columns := [], Rows := [], Error := e }) none)
      ∧ (∀ (rows : Rows) (columns : List String) (results : List QueryResult),
          s.db.Query query [] = .ok rows → rows.columns = .ok columns →
          scanRows columns rows.scans [] = .ok results → rows.err = none →
          HandleQuery u s query
            = .returned (some { Columns := columns, Rows := results, Error := "" }) none)
      ∧ (∀ s2 : Service, s2.db.Query query [] = s.db.Query query [] →
          HandleQuery u s2 query = HandleQuery u s query))
    ∧ (stringsHasPrefix (stringsToLower u query) "show tables" = true →
        HandleQuery u s query = executeQuery s showTablesSQL [])
    ∧ (stringsHasPrefix (stringsToLower u query) "describe table" = true →
        HandleQuery u s query = handleDescribeTable s query)
    ∧ (∀ query2 : String, stringsToLower u query2 = stringsToLower u query →
        stringsHasPrefix (stringsToLower u query) "describe table" = false →
        recognised (stringsToLower u query) = true →
        HandleQuery u s query2 = HandleQuery u s query) := by
  have hdirect : stringsHasPrefix (stringsToLower u query) "show tables" = false →
      stringsHasPrefix (stringsToLower u query) "describe table" = false →
      (∀ t ∈ triggers, stringsContains (stringsToLower u query) t = false) →
      ∀ s1 : Service, HandleQuery u s1 query = executeQuery s1 query [] := by
    intro hshow hdesc htr s1
    have h1 := htr "who are our partners" (by simp [triggers])
    have h2 := htr "which partner made the most money last month" (by simp [triggers])
    have h3 := htr "which source tags does" (by simp [triggers])
    have h4 := htr "which source tags went up in tq last month" (by simp [triggers])
    have h5 := htr "which partners have been on the yer the most in the last 6 months"
      (by simp [triggers])
    have h6 := htr "what traffic sources does" (by simp [triggers])
    unfold HandleQuery
    simp only [hshow, hdesc, h1, h2, h3, h4, h5, h6, Bool.false_eq_true, ↓reduceIte,
      Bool.false_and]
  refine ⟨?_, ?_, ?_, ?_⟩
  · intro hshow hdesc htr
    have hq := hdirect hshow hdesc htr
    obtain ⟨e1, -, -, -, e5⟩ := executeQuery_cases s query []
    refine ⟨hq s, ?_, ?_, ?_⟩
    · intro e he
      rw [hq s]
      exact e1 e he
    · intro rows columns results hr hc hsc herr
      rw [hq s]
      exact e5 rows columns results hr hc hsc herr
    · intro s2 h2
      rw [hq s, hq s2]
      exact executeQuery_congr s s2 query [] h2
  · intro hshow
    unfold HandleQuery
    simp only [hshow, ↓reduceIte, handleShowTables]
  · intro hdesc
    rcases HandleQuery_cases u s query with ⟨-, hnd, -⟩ | ⟨-, hr⟩ | ⟨hnd, -⟩
    · rw [hnd] at hdesc
      simp at hdesc
    · exact hr
    · rw [hnd] at hdesc
      simp at hdesc
  · intro query2 hq hdesc hrec
    unfold HandleQuery
    simp only [hq, hdesc, Bool.false_eq_true, ↓reduceIte]
    unfold recognised at hrec
    split
    · rfl
    · rename_i h0
      split
      · rfl
      · rename_i h1
        split
        · rfl
        · rename_i h2
          split
          · rfl
          · rename_i h3
            split
            · rfl
            · rename_i h4
              split
              · rfl
              · rename_i h5
                split
                · rfl
                · rename_i h6
                  simp only [Bool.not_eq_true] at h0 h1 h2 h3 h4 h5 h6
                  rw [h0, h1, h2, h3, h4, h5, h6] at hrec
                  simp at hrec

/-- C17 at the direct query of the tests: a database that shows what it was
asked answers with that query, letter for letter and with its white space, and
with no arguments; and a database that rejects every statement has its message
for exactly that query in the `Error` field. "WHO ARE OUR PARTNERS" is
recognised like its lower-case form. -/
theorem HandleQuery_direct_sql_witness :
    HandleQuery id reflectService sampleDirectQuery
        = .returned (some
            { Columns := ["statement", "args"]
              Rows := [[("statement", Value.text sampleDirectQuery), ("args", Value.text "")]]
              Error := "" }) none
    ∧ HandleQuery id { db := failingDB } "SELECT  Name FROM partners.partners"
        = .returned (some
            { Columns := [], Rows := []
              Error := "rejected: SELECT  Name FROM partners.partners []" }) none
    ∧ HandleQuery id reflectService "WHO ARE OUR PARTNERS"
        = HandleQuery id reflectService "who are our partners"
    ∧ HandleQuery id reflectService "WHO ARE OUR PARTNERS"
        = .returned (some
            { Columns := ["statement", "args"]
              Rows := [[("statement", Value.text partnersSQL), ("args", Value.text "")]]
              Error := "" }) none :=
  ⟨((HandleQuery_direct_sql id reflectService sampleDirectQuery).1 (by decide) (by decide)
      (by decide)).2.2.1 _ _ _ rfl rfl rfl rfl,
   ((HandleQuery_direct_sql id { db := failingDB } "SELECT  Name FROM partners.partners").1
      (by decide) (by decide) (by decide)).2.1 _ rfl,
   (HandleQuery_direct_sql id reflectService "who are our partners").2.2.2
      "WHO ARE OUR PARTNERS" (by decide) (by decide) (by decide),
   rfl⟩

/-- C18. `HandleQuery` never panics. It returns an error exactly when the
query starts, whatever the case of its letters, with "describe table" and has
fewer than three fields; otherwise it returns a nil error and a response. The
error it returns is never "invalid query format": the two branches of the
partner queries that return it are unreachable. For every other query there is
one statement with its arguments, the same for every database, that
`HandleQuery` sends to the database, and for every database: when that
statement fails in `Query`, in the column lookup, in a row scan or in the row
iteration, `HandleQuery` returns a nil error and a response whose `Error`
field is the message of that failure, with no columns and no rows; and when
nothing fails it returns the columns and the rows with an empty `Error`. -/
theorem HandleQuery_error_iff (u : CaseTable) (s : Service) (query : String) :
    HandleQuery u s query ≠ .panicked
    ∧ ((HandleQuery u s query).err ≠ none ↔
        (stringsHasPrefix (stringsToLower u query) "describe table" = true
          ∧ (stringsFields query).length < 3))
    ∧ ((HandleQuery u s query).err = none → (HandleQuery u s query).resp ≠ none)
    ∧ (HandleQuery u s query).err ≠ some "invalid query format"
    ∧ (¬ (stringsHasPrefix (stringsToLower u query) "describe table" = true
          ∧ (stringsFields query).length < 3) →
        ∃ (sql : String) (args : List String), ∀ db : DB,
          (∀ e : String, db.Query sql args = .error e →
            HandleQuery u { db := db } query
              = .returned (some { Columns := [], Rows := [], Error := e }) none)
          ∧ (∀ (rows : Rows) (e : String), db.Query sql args = .ok rows →
              rows.columns = .error e →
              HandleQuery u { db := db } query
                = .returned (some { Columns := [], Rows := [], Error := e }) none)
          ∧ (∀ (rows : Rows) (columns : List String) (e : String),
              db.Query sql args = .ok rows → rows.columns = .ok columns →
              scanRows columns rows.scans [] = .error e →
              HandleQuery u { db := db } query
                = .returned (some { Columns := [], Rows := [], Error := e }) none)
          ∧ (∀ (rows : Rows) (columns : List String) (results : List QueryResult) (e : String),
              db.Query sql args = .ok rows → rows.columns = .ok columns →
              scanRows columns rows.scans [] = .ok results → rows.err = some e →
              HandleQuery u { db := db } query
                = .returned (some { Columns := [], Rows := [], Error := e }) none)
          ∧ (∀ (rows : Rows) (columns : List String) (results : List QueryResult),
              db.Query sql args = .ok rows → rows.columns = .ok columns →
              scanRows columns rows.scans [] = .ok results → rows.err = none →
              HandleQuery u { db := db } query
                = .returned (some { Columns := columns, Rows := results, Error := "" }) none))
    ∧ ((stringsHasPrefix (stringsToLower u query) "describe table" = true
          ∧ (stringsFields query).length < 3) →
        HandleQuery u s query = .returned none (some "invalid describe table query format")) := by
  have hexec : ∀ (sql : String) (args : List String),
      executeQuery s sql args ≠ .panicked
      ∧ (executeQuery s sql args).err = none
      ∧ (executeQuery s sql args).resp ≠ none := by
    intro sql args
    obtain ⟨resp, hr⟩ := executeQuery_returns s sql args
    rw [hr]
    simp [Reply.err, Reply.resp]
  have hbad : (stringsHasPrefix (stringsToLower u query) "describe table" = true
      ∧ (stringsFields query).length < 3) →
      HandleQuery u s query = .returned none (some "invalid describe table query format") := by
    intro hb
    rcases HandleQuery_cases u s query with ⟨-, hnd, -⟩ | ⟨-, hr⟩ | ⟨hnd, -⟩
    · rw [hnd] at hb
      simp at hb
    · rw [hr]
      unfold handleDescribeTable
      simp [hb.2]
    · rw [hnd] at hb
      simp at hb
  have hmain : HandleQuery u s query ≠ .panicked
      ∧ ((HandleQuery u s query).err ≠ none ↔
        (stringsHasPrefix (stringsToLower u query) "describe table" = true
          ∧ (stringsFields query).length < 3))
      ∧ ((HandleQuery u s query).err = none → (HandleQuery u s query).resp ≠ none)
      ∧ (HandleQuery u s query).err ≠ some "invalid query format" := by
    by_cases hb : stringsHasPrefix (stringsToLower u query) "describe table" = true
        ∧ (stringsFields query).length < 3
    · rw [hbad hb]
      simp [Reply.err, Reply.resp, hb]
    · obtain ⟨sql, args, hq⟩ := HandleQuery_statement u query hb
      rw [hq s]
      obtain ⟨h1, h2, h3⟩ := hexec sql args
      refine ⟨h1, ?_, fun _ => h3, ?_⟩
      · simp [h2, hb]
      · rw [h2]
        simp
  refine ⟨hmain.1, hmain.2.1, hmain.2.2.1, hmain.2.2.2, ?_, hbad⟩
  intro hb
  obtain ⟨sql, args, hq⟩ := HandleQuery_statement u query hb
  refine ⟨sql, args, fun db => ?_⟩
  rw [hq { db := db }]
  exact executeQuery_cases { db := db } sql args

/-- C18 at "Describe Table", which has two fields and is answered with an
error, at a query with three fields, which is not, and at databases that fail
in `Query`, in the column lookup, in a row scan and in the row iteration. -/
theorem HandleQuery_error_iff_witness :
    (HandleQuery id echoService "Describe Table").err ≠ none
    ∧ HandleQuery id echoService "Describe Table"
        = .returned none (some "invalid describe table query format")
    ∧ (HandleQuery id echoService "describe table partners.partners").err = none
    ∧ HandleQuery id { db := failingDB } "describe table partners.partners"
        = .returned (some { Columns := [], Rows := []
                            Error := "rejected: " ++ describeTableSQL ++ " [partners,partners]" })
            none
    ∧ HandleQuery id { db := noColumnsDB } "Show Tables"
        = .returned (some { Columns := [], Rows := [], Error := "sql: Rows are closed" }) none
    ∧ HandleQuery id { db := badScanDB } "select n from numbers"
        = .returned (some { Columns := [], Rows := []
                            Error := "sql: Scan error on column index 0" }) none
    ∧ HandleQuery id { db := badRowsDB } "which source tags does DNC use"
        = .returned (some { Columns := [], Rows := [], Error := "connection reset" }) none :=
  ⟨(HandleQuery_error_iff id echoService "Describe Table").2.1.mpr ⟨by decide, by decide⟩,
   (HandleQuery_error_iff id echoService "Describe Table").2.2.2.2.2 ⟨by decide, by decide⟩,
   by decide, rfl, rfl, rfl, rfl⟩

end Mcp
